import Mathlib

/-!
# kubectl drain / cordon / uncordon

A shallow embedding of `pkg/cmd/drain/drain.go`: the functions
`RunDrain`, `deleteOrEvictPodsSimple` and `RunCordonOrUncordon` are written as
functions that thread the state of the API server (`W`) through every call to
a collaborator and return, next to their Go result, the list of everything
they wrote or called, in the order in which it happened.
-/

namespace Drain

/-! ## Data model -/

/-- A Go `error` value: a plain error, or the aggregate that
`utilerrors.NewAggregate` builds from a list of errors. -/
inductive Err where
  | msg (s : String)
  | aggregate (errs : List Err)

/-- The Go function `utilerrors.NewAggregate`: nil for an empty list, otherwise
one error that holds the whole list. -/
def NewAggregate (errlist : List Err) : Option Err :=
  match errlist with
  | [] => none
  | e :: es => some (Err.aggregate (e :: es))

/-- The fields of `corev1.Pod` that the command reads. -/
structure Pod where
  Namespace : String
  Name : String
  deriving DecidableEq, Repr

/-- The two views of a `drain.PodDeleteList` that the command reads: the result
of its method `Pods()` and of its method `Warnings()`. -/
structure PodDeleteList where
  Pods : List Pod
  Warnings : String
  deriving DecidableEq, Repr

/-- The fields of `corev1.Node` that matter to cordon: its name and
`Spec.Unschedulable`. -/
structure Node where
  Name : String
  Unschedulable : Bool
  deriving DecidableEq, Repr

/-- The fields of `resource.Info` that the command reads: `Name`, the kind of
`ResourceMapping().GroupVersionKind`, and `Object`. -/
structure Info where
  Name : String
  Kind : String
  Object : Node
  deriving DecidableEq, Repr

/-- The type `cmdutil.DryRunStrategy`. -/
inductive DryRunStrategy where
  | DryRunNone
  | DryRunClient
  | DryRunServer
  deriving DecidableEq, Repr

/-- The fields of `drain.Helper` that `drain.go` reads after `Complete`. -/
structure Helper where
  IgnoreErrors : Bool
  DryRunStrategy : DryRunStrategy
  Selector : String := ""
  PodSelector : String := ""
  deriving DecidableEq, Repr

/-- The type `DrainCmdOptions`. `ToPrinter operation` is the error of
`o.ToPrinter(operation)`, `none` when it returns a printer. -/
structure DrainCmdOptions where
  ToPrinter : String → Option Err
  drainer : Helper
  nodeInfos : List Info
  Namespace : String := ""

/-- Modelled from the spec: the type `CordonHelper` of `pkg/drain`, which is not
part of the sources at hand. It wraps a local copy of the node. -/
structure CordonHelper where
  node : Node
  deriving DecidableEq, Repr

/-- Modelled from the spec: `UpdateIfRequired(desired) -> changed` of
`pkg/drain` "compares the node's current flag to `desired`; if equal, returns
false and nothing is sent to the API. Otherwise it mutates a local copy and
returns true." The helper after the call is returned with the answer. -/
def CordonHelper.UpdateIfRequired (c : CordonHelper) (desired : Bool) : CordonHelper × Bool :=
  if c.node.Unschedulable = desired then (c, false)
  else ({ node := { Name := c.node.Name, Unschedulable := desired } }, true)

/-- What `drain.Helper.GetPodsForDeletion` returns, `(*PodDeleteList, []error)`:
`errs list errs` is a return whose error slice is not nil (the list may be
nil), `list l` a return with a nil error slice. A return of two nils, on which
`deleteOrEvictPodsSimple` would call a method of a nil list, has no
constructor. -/
inductive PodsForDeletion where
  | errs (list : Option PodDeleteList) (errs : List Err)
  | list (list : PodDeleteList)

/-- The pointer half of a `GetPodsForDeletion` return. -/
def PodsForDeletion.pendingList : PodsForDeletion → Option PodDeleteList
  | .errs l _ => l
  | .list l => some l

/-- The collaborators of the command, over the state `W` of the API server.
Every call takes the state before it and returns the state after it. -/
structure Env (W : Type) where
  /-- `drain.NewCordonHelperFromRuntimeObject(nodeInfo.Object, scheme, gvk)` -/
  NewCordonHelperFromRuntimeObject : Node → String → Except Err CordonHelper
  /-- `c.UpdateIfRequired(desired)`: the helper after the call, and the answer -/
  UpdateIfRequired : CordonHelper → Bool → CordonHelper × Bool
  /-- `o.drainer.DryRunVerifier.HasSupport(gvk)` -/
  HasSupport : String → W → Option Err × W
  /-- `c.PatchOrReplace(client, serverDryRun)`, returning `(err, patchErr)` -/
  PatchOrReplace : CordonHelper → Bool → W → (Option Err × Option Err) × W
  /-- `o.drainer.GetPodsForDeletion(nodeName)` -/
  GetPodsForDeletion : String → W → PodsForDeletion × W
  /-- `o.drainer.DeleteOrEvictPods(pods)` -/
  DeleteOrEvictPods : List Pod → W → Option Err × W

/-! ## What a run leaves behind -/

/-- The two output streams of `genericclioptions.IOStreams`. -/
inductive Stream where
  | Out
  | ErrOut
  deriving DecidableEq, Repr

/-- An argument of a `fmt.Fprintf` call. -/
inductive Arg where
  | str (s : String)
  | err (e : Option Err)

/-- The calls to collaborators. -/
inductive Call where
  | NewCordonHelperFromRuntimeObject
  | HasSupport
  | PatchOrReplace (serverDryRun : Bool)
  | GetPodsForDeletion
  | DeleteOrEvictPods (pods : List Pod)
  deriving DecidableEq, Repr

/-- One observable step of a run: a `fmt.Fprintf` with its stream, format and
arguments; a `printObj(info.Object, o.Out)`, with the operation that was given
to `o.ToPrinter` and the resource `info` whose object is printed; or a call to
a collaborator, tagged with the name of the node whose loop iteration makes
it. -/
inductive Event where
  | Fprintf (w : Stream) (format : String) (a : List Arg)
  | PrintObj (operation : String) (info : Info)
  | Call (node : String) (c : Call)

/-- The result of a function that returns a Go `error`: the error, the state of
the API server afterwards, and the steps taken. -/
structure Outcome (W : Type) where
  err : Option Err
  world : W
  trace : List Event

/-! ## `drain.go` -/

/-- The function `already`. -/
def already (desired : Bool) : String :=
  if desired then "already cordoned" else "already uncordoned"

/-- The function `changed`. -/
def changed (desired : Bool) : String :=
  if desired then "cordoned" else "uncordoned"

/-- The steps of `printObj, err := o.ToPrinter(operation)` followed by either
the print of the error with `errFormat` on `ErrOut` or `printObj(nodeInfo.Object, o.Out)`. -/
def printOrError (o : DrainCmdOptions) (operation errFormat : String) (nodeInfo : Info) : List Event :=
  match o.ToPrinter operation with
  | some err => [Event.Fprintf Stream.ErrOut errFormat [Arg.err (some err)]]
  | none => [Event.PrintObj operation nodeInfo]

/-- The method `deleteOrEvictPodsSimple`. -/
def deleteOrEvictPodsSimple {W : Type} (env : Env W) (o : DrainCmdOptions) (nodeInfo : Info) (w : W) :
    Outcome W :=
  match env.GetPodsForDeletion nodeInfo.Name w with
  | (PodsForDeletion.errs _ errs, w1) =>
    { err := NewAggregate errs, world := w1,
      trace := [Event.Call nodeInfo.Name Call.GetPodsForDeletion] }
  | (PodsForDeletion.list list, w1) =>
    let warn : List Event :=
      if list.Warnings ≠ "" then
        [Event.Fprintf Stream.ErrOut "WARNING: %s\n" [Arg.str list.Warnings]]
      else []
    if o.drainer.DryRunStrategy = DryRunStrategy.DryRunClient then
      { err := none, world := w1,
        trace := [Event.Call nodeInfo.Name Call.GetPodsForDeletion] ++ warn ++
          list.Pods.map (fun pod =>
            Event.Fprintf Stream.Out "evicting pod %s/%s (dry run)\n"
              [Arg.str pod.Namespace, Arg.str pod.Name]) }
    else
      match env.DeleteOrEvictPods list.Pods w1 with
      | (none, w2) =>
        { err := none, world := w2,
          trace := [Event.Call nodeInfo.Name Call.GetPodsForDeletion] ++ warn ++
            [Event.Call nodeInfo.Name (Call.DeleteOrEvictPods list.Pods)] }
      | (some err, w2) =>
        match env.GetPodsForDeletion nodeInfo.Name w2 with
        | (again, w3) =>
          let pending : List Event :=
            match again.pendingList with
            | some pendingList =>
              if pendingList.Pods.length ≠ 0 then
                [Event.Fprintf Stream.ErrOut
                  "There are pending pods in node %q when an error occurred: %v\n"
                  [Arg.str nodeInfo.Name, Arg.err (some err)]] ++
                pendingList.Pods.map (fun pendingPod =>
                  Event.Fprintf Stream.ErrOut "%s/%s\n" [Arg.str "pod", Arg.str pendingPod.Name])
              else []
            | none => []
          let listing : List Event :=
            match again with
            | PodsForDeletion.errs _ newErrs =>
              [Event.Fprintf Stream.ErrOut
                "Following errors occurred while getting the list of pods to delete:\n%s"
                [Arg.err (NewAggregate newErrs)]]
            | PodsForDeletion.list _ => []
          { err := some err, world := w3,
            trace := [Event.Call nodeInfo.Name Call.GetPodsForDeletion] ++ warn ++
              [Event.Call nodeInfo.Name (Call.DeleteOrEvictPods list.Pods),
               Event.Call nodeInfo.Name Call.GetPodsForDeletion] ++ pending ++ listing }

/-- The closure `printError` of `RunCordonOrUncordon`. -/
def printError (cordonOrUncordon : String) (nodeInfo : Info) (err : Err) : Event :=
  Event.Fprintf Stream.ErrOut "error: unable to %s node %q: %v\n"
    [Arg.str cordonOrUncordon, Arg.str nodeInfo.Name, Arg.err (some err)]

/-- The part of the loop body of `RunCordonOrUncordon` from the call of
`c.PatchOrReplace` on: the call, the print of `patchErr`, then either the print
of `err` or the report of the change. -/
def patchOrReplaceNode {W : Type} (env : Env W) (o : DrainCmdOptions) (desired : Bool)
    (cordonOrUncordon : String) (nodeInfo : Info) (c : CordonHelper) (w : W) : W × List Event :=
  let serverDryRun : Bool := decide (o.drainer.DryRunStrategy = DryRunStrategy.DryRunServer)
  match env.PatchOrReplace c serverDryRun w with
  | ((err, patchErr), w1) =>
    (w1, [Event.Call nodeInfo.Name (Call.PatchOrReplace serverDryRun)] ++
      (match patchErr with
       | some pe => [printError cordonOrUncordon nodeInfo pe]
       | none => []) ++
      (match err with
       | some e => [printError cordonOrUncordon nodeInfo e]
       | none => printOrError o (changed desired) "%v\n" nodeInfo))

/-- The body of the loop of `RunCordonOrUncordon`, for one `nodeInfo`. -/
def cordonOrUncordonNode {W : Type} (env : Env W) (o : DrainCmdOptions) (desired : Bool)
    (cordonOrUncordon : String) (nodeInfo : Info) (w : W) : W × List Event :=
  if nodeInfo.Kind = "Node" then
    match env.NewCordonHelperFromRuntimeObject nodeInfo.Object nodeInfo.Kind with
    | Except.error err =>
      (w, [Event.Call nodeInfo.Name Call.NewCordonHelperFromRuntimeObject,
           printError cordonOrUncordon nodeInfo err])
    | Except.ok c0 =>
      match env.UpdateIfRequired c0 desired with
      | (_, false) =>
        (w, [Event.Call nodeInfo.Name Call.NewCordonHelperFromRuntimeObject] ++
          printOrError o (already desired) "error: %v\n" nodeInfo)
      | (c, true) =>
        if o.drainer.DryRunStrategy ≠ DryRunStrategy.DryRunClient then
          if o.drainer.DryRunStrategy = DryRunStrategy.DryRunServer then
            match env.HasSupport nodeInfo.Kind w with
            | (some err, w1) =>
              (w1, [Event.Call nodeInfo.Name Call.NewCordonHelperFromRuntimeObject,
                    Event.Call nodeInfo.Name Call.HasSupport,
                    printError cordonOrUncordon nodeInfo err])
            | (none, w1) =>
              let patched := patchOrReplaceNode env o desired cordonOrUncordon nodeInfo c w1
              (patched.1, [Event.Call nodeInfo.Name Call.NewCordonHelperFromRuntimeObject,
                           Event.Call nodeInfo.Name Call.HasSupport] ++ patched.2)
          else
            let patched := patchOrReplaceNode env o desired cordonOrUncordon nodeInfo c w
            (patched.1, [Event.Call nodeInfo.Name Call.NewCordonHelperFromRuntimeObject] ++
              patched.2)
        else
          (w, [Event.Call nodeInfo.Name Call.NewCordonHelperFromRuntimeObject] ++
            printOrError o (changed desired) "%v\n" nodeInfo)
  else
    (w, printOrError o "skipped" "%v\n" nodeInfo)

/-- The loop `for _, nodeInfo := range o.nodeInfos` of `RunCordonOrUncordon`. -/
def cordonLoop {W : Type} (env : Env W) (o : DrainCmdOptions) (desired : Bool)
    (cordonOrUncordon : String) : List Info → W → W × List Event
  | [], w => (w, [])
  | nodeInfo :: rest, w =>
    let here := cordonOrUncordonNode env o desired cordonOrUncordon nodeInfo w
    let later := cordonLoop env o desired cordonOrUncordon rest here.1
    (later.1, here.2 ++ later.2)

/-- The local `cordonOrUncordon` of `RunCordonOrUncordon`. -/
def cordonOrUncordon (desired : Bool) : String :=
  if !desired then "un" ++ "cordon" else "cordon"

/-- The method `RunCordonOrUncordon`. -/
def RunCordonOrUncordon {W : Type} (env : Env W) (o : DrainCmdOptions) (desired : Bool) (w : W) :
    Outcome W :=
  let done := cordonLoop env o desired (cordonOrUncordon desired) o.nodeInfos w
  { err := none, world := done.1, trace := done.2 }

/-- The messages of the abort branch of `RunDrain` after the first one: the
names of `o.nodeInfos` that are not in `drainedNodes`, under their heading when
there is at least one. -/
def pendingMessages (o : DrainCmdOptions) (drainedNodes : List String) : List Event :=
  let remainingNodes : List String :=
    (o.nodeInfos.filter (fun remainingInfo => !drainedNodes.contains remainingInfo.Name)).map
      Info.Name
  if remainingNodes.length > 0 then
    [Event.Fprintf Stream.ErrOut "There are pending nodes to be drained:\n" []] ++
    remainingNodes.map (fun nodeName => Event.Fprintf Stream.ErrOut " %s\n" [Arg.str nodeName])
  else []

/-- The loop `for _, info := range o.nodeInfos` of `RunDrain`, from the nodes
still to visit and the set `drainedNodes`; its error is the value of `fatal`
when the loop is left. -/
def drainLoop {W : Type} (env : Env W) (o : DrainCmdOptions) :
    List Info → List String → W → Outcome W
  | [], _, w => { err := none, world := w, trace := [] }
  | info :: rest, drainedNodes, w =>
    let r := deleteOrEvictPodsSimple env o info w
    match r.err with
    | none =>
      let later := drainLoop env o rest (info.Name :: drainedNodes) r.world
      { later with trace := r.trace ++ [Event.PrintObj "drained" info] ++ later.trace }
    | some err =>
      if o.drainer.IgnoreErrors && decide (o.nodeInfos.length > 1) then
        let later := drainLoop env o rest drainedNodes r.world
        { later with
          trace := r.trace ++
            [Event.Fprintf Stream.ErrOut
              "error: unable to drain node %q due to error:%s, continuing command...\n"
              [Arg.str info.Name, Arg.err (some err)]] ++ later.trace }
      else
        { err := some err, world := r.world,
          trace := r.trace ++
            [Event.Fprintf Stream.ErrOut "error: unable to drain node %q, aborting command...\n\n"
              [Arg.str info.Name]] ++ pendingMessages o drainedNodes }

/-- The method `RunDrain`. -/
def RunDrain {W : Type} (env : Env W) (o : DrainCmdOptions) (w : W) : Outcome W :=
  let cordoned := RunCordonOrUncordon env o true w
  match cordoned.err with
  | some err => { cordoned with err := some err }
  | none =>
    match o.ToPrinter "drained" with
    | some err => { cordoned with err := some err }
    | none =>
      let r := drainLoop env o o.nodeInfos [] cordoned.world
      { r with trace := cordoned.trace ++ r.trace }

/-! ## `Complete` -/

/-- What `Complete` reads of the `cobra.Command`: its field `Use` and
`cmd.Flags().Changed("selector")`. -/
structure Command where
  Use : String
  selectorChanged : Bool
  deriving DecidableEq, Repr

/-- An object that the resource builder hands to the visitor: the `resource.Info`
and the group and resource of its `Mapping.Resource`. -/
structure Visited where
  info : Info
  Group : String
  Resource : String
  deriving DecidableEq, Repr

/-- The calls that `Complete` makes to the factory and to the libraries, in the
order of the source. `Do` is the whole chain from `f.NewBuilder()` to
`builder.Do()`, with the namespace and the resource names it is given, and the
label selector when `LabelSelectorParam` is applied. -/
inductive CompleteCall where
  | GetDryRunStrategy
  | DynamicClient
  | KubernetesClientSet
  | Parse (selector : String)
  | Namespace
  | Do (ns : String) (names : List String) (selector : Option String)
  | Visit
  deriving DecidableEq, Repr

/-- The collaborators of `Complete`. -/
structure CompleteEnv where
  /-- `cmdutil.UsageErrorf(cmd, msg)` -/
  UsageErrorf : Command → String → Err
  /-- `cmdutil.GetDryRunStrategy(cmd)` -/
  GetDryRunStrategy : DryRunStrategy × Option Err
  /-- the error of `f.DynamicClient()` -/
  DynamicClient : Option Err
  /-- the error of `f.KubernetesClientSet()` -/
  KubernetesClientSet : Option Err
  /-- the error of `labels.Parse(selector)` -/
  Parse : String → Option Err
  /-- the namespace and the error of `f.ToRawKubeConfigLoader().Namespace()` -/
  Namespace : String × Option Err
  /-- the error of `o.PrintFlags.ToPrinter()` for an operation, once
  `PrintFlagsWithDryRunStrategy` has been applied with the strategy -/
  ToPrinter : DryRunStrategy → String → Option Err
  /-- the result `r` of `builder.Do()`: `r.Err()`, or the objects and errors that
  `r.Visit` hands to its function, in order -/
  Do : String → List String → Option String → Except Err (List (Except Err Visited))
  /-- `fmt.Errorf("error: expected resource of type node, got %q", info.Mapping.Resource)` -/
  notNode : Visited → Err

/-- What `Complete` returns and leaves: its error, the options as it has
assigned them so far, and the calls it has made. -/
structure Completed where
  err : Option Err
  options : DrainCmdOptions
  calls : List CompleteCall

/-- The run of `r.Visit` over the function literal of `Complete`: the function
is applied to the objects in order, appends the nodes to `o.nodeInfos`, and the
first error it returns ends the visit. -/
def visitNodes (env : CompleteEnv) : List (Except Err Visited) → List Info →
    Option Err × List Info
  | [], nodeInfos => (none, nodeInfos)
  | Except.error err :: _, nodeInfos => (some err, nodeInfos)
  | Except.ok v :: rest, nodeInfos =>
    if (v.Group, v.Resource) ≠ ("", "nodes") then (some (env.notNode v), nodeInfos)
    else visitNodes env rest (nodeInfos ++ [v.info])

/-- The part of `Complete` after the check of the pod selector: the namespace,
the printer, the builder and the visit. -/
def resolveTargets (env : CompleteEnv) (o : DrainCmdOptions) (args : List String)
    (calls : List CompleteCall) : Completed :=
  let o1 : DrainCmdOptions := { o with nodeInfos := [], Namespace := env.Namespace.1 }
  match env.Namespace.2 with
  | some err =>
    { err := some err, options := o1, calls := calls ++ [CompleteCall.Namespace] }
  | none =>
    let o2 : DrainCmdOptions := { o1 with ToPrinter := env.ToPrinter o1.drainer.DryRunStrategy }
    let selector : Option String :=
      if o2.drainer.Selector ≠ "" then some o2.drainer.Selector else none
    match env.Do o2.Namespace args selector with
    | Except.error err =>
      { err := some err, options := o2,
        calls := calls ++ [CompleteCall.Namespace, CompleteCall.Do o2.Namespace args selector] }
    | Except.ok objects =>
      let visited := visitNodes env objects o2.nodeInfos
      { err := visited.1, options := { o2 with nodeInfos := visited.2 },
        calls := calls ++
          [CompleteCall.Namespace, CompleteCall.Do o2.Namespace args selector,
            CompleteCall.Visit] }

/-- The method `Complete`. The condition `len(s) > 0` on a string is written
`s ≠ ""`. -/
def Complete (env : CompleteEnv) (o : DrainCmdOptions) (cmd : Command) (args : List String) :
    Completed :=
  if args.length = 0 ∧ ¬ cmd.selectorChanged = true then
    { err := some (env.UsageErrorf cmd ("USAGE: " ++ cmd.Use ++ " [flags]")),
      options := o, calls := [] }
  else if args.length > 0 ∧ o.drainer.Selector ≠ "" then
    { err := some (env.UsageErrorf cmd
        "error: cannot specify both a node name and a --selector option"),
      options := o, calls := [] }
  else
    let o1 : DrainCmdOptions :=
      { o with drainer := { o.drainer with DryRunStrategy := env.GetDryRunStrategy.1 } }
    match env.GetDryRunStrategy.2 with
    | some err => { err := some err, options := o1, calls := [CompleteCall.GetDryRunStrategy] }
    | none =>
      match env.DynamicClient with
      | some err =>
        { err := some err, options := o1,
          calls := [CompleteCall.GetDryRunStrategy, CompleteCall.DynamicClient] }
      | none =>
        match env.KubernetesClientSet with
        | some err =>
          { err := some err, options := o1,
            calls := [CompleteCall.GetDryRunStrategy, CompleteCall.DynamicClient,
              CompleteCall.KubernetesClientSet] }
        | none =>
          if o1.drainer.PodSelector ≠ "" then
            match env.Parse o1.drainer.PodSelector with
            | some _ =>
              { err := some
                  (Err.msg "--pod-selector=<pod_selector> must be a valid label selector"),
                options := o1,
                calls := [CompleteCall.GetDryRunStrategy, CompleteCall.DynamicClient,
                  CompleteCall.KubernetesClientSet, CompleteCall.Parse o1.drainer.PodSelector] }
            | none =>
              resolveTargets env o1 args
                [CompleteCall.GetDryRunStrategy, CompleteCall.DynamicClient,
                  CompleteCall.KubernetesClientSet, CompleteCall.Parse o1.drainer.PodSelector]
          else
            resolveTargets env o1 args
              [CompleteCall.GetDryRunStrategy, CompleteCall.DynamicClient,
                CompleteCall.KubernetesClientSet]

/-- What a run of the command `drain` leaves: the error that ends it, the calls
of `Complete`, the state of the API server and the steps of `RunDrain`. -/
structure CommandRun (W : Type) where
  err : Option Err
  calls : List CompleteCall
  world : W
  trace : List Event

/-- The function `Run` of the command of `NewCmdDrain`:
`cmdutil.CheckErr(o.Complete(f, cmd, args))`, then
`cmdutil.CheckErr(o.RunDrain())`. The function `cmdutil.CheckErr`, which is not
part of the sources at hand, is taken to end the process when it is given an
error. -/
def runDrainCommand {W : Type} (cenv : CompleteEnv) (env : Env W) (o : DrainCmdOptions)
    (cmd : Command) (args : List String) (w : W) : CommandRun W :=
  let completed := Complete cenv o cmd args
  match completed.err with
  | some err => { err := some err, calls := completed.calls, world := w, trace := [] }
  | none =>
    let ran := RunDrain env completed.options w
    { err := ran.err, calls := completed.calls, world := ran.world, trace := ran.trace }

/-! ## Reading a run -/

/-- The node name of a line of the pending list, `fmt.Fprintf(o.ErrOut, " %s\n", nodeName)`. -/
def pendingLine : Event → Option String
  | Event.Fprintf Stream.ErrOut format [Arg.str nodeName] =>
    if format = " %s\n" then some nodeName else none
  | _ => none

/-- The pending list that a run reports: the node names of its pending lines, in order. -/
def pendingReport (tr : List Event) : List String := tr.filterMap pendingLine

/-- The node of a "drained" report, `printObj(info.Object, o.Out)` with the
printer of `o.ToPrinter("drained")`. -/
def drainedLine : Event → Option Info
  | Event.PrintObj operation info => if operation = "drained" then some info else none
  | _ => none

/-- The nodes that a run reports as drained, in order. -/
def drainedReport (tr : List Event) : List Info := tr.filterMap drainedLine

/-- The node on whose behalf a pod-listing (`GetPodsForDeletion`) or pod-removal
(`DeleteOrEvictPods`) call is made. -/
def podCallNode : Event → Option String
  | Event.Call node Call.GetPodsForDeletion => some node
  | Event.Call node (Call.DeleteOrEvictPods _) => some node
  | _ => none

/-- The first node whose drain fails when the nodes are drained one after
another from the state `w`, each drain starting in the state the previous one
left: its position in the list and its error; `none` when every drain
succeeds. -/
def firstDrainFailure {W : Type} (env : Env W) (o : DrainCmdOptions) :
    List Info → W → Option (Nat × Err)
  | [], _ => none
  | info :: rest, w =>
    match (deleteOrEvictPodsSimple env o info w).err with
    | some err => some (0, err)
    | none =>
      (firstDrainFailure env o rest (deleteOrEvictPodsSimple env o info w).world).map
        (fun found => (found.1 + 1, found.2))

/-- The first node whose drain fails in the run of `RunDrain` from the state
`w`: its position among the targets and its error. It is `none` when every
drain of the run succeeds, and when the run does not reach its loop because the
printer of "drained" is not built. -/
def firstFailedDrain {W : Type} (env : Env W) (o : DrainCmdOptions) (w : W) : Option (Nat × Err) :=
  match o.ToPrinter "drained" with
  | some _ => none
  | none => firstDrainFailure env o o.nodeInfos (RunCordonOrUncordon env o true w).world

/-- The node and the error of a line "unable to drain node ..., continuing
command...", which `RunDrain` logs for a failed node under ignore-errors. -/
def continuingLine : Event → Option (String × Option Err)
  | Event.Fprintf Stream.ErrOut format [Arg.str nodeName, Arg.err e] =>
    if format = "error: unable to drain node %q due to error:%s, continuing command...\n" then
      some (nodeName, e)
    else none
  | _ => none

/-- The failed nodes that a run logs and skips, each with its error, in order. -/
def continuingReport (tr : List Event) : List (String × Option Err) := tr.filterMap continuingLine

/-- The node of a line "unable to drain node ..., aborting command...". -/
def abortLine : Event → Option String
  | Event.Fprintf Stream.ErrOut format [Arg.str nodeName] =>
    if format = "error: unable to drain node %q, aborting command...\n\n" then some nodeName
    else none
  | _ => none

/-- The nodes at which a run aborts. -/
def abortReport (tr : List Event) : List String := tr.filterMap abortLine

/-- One drain of every node of the list, in the order of the list, each drain
starting in the state the previous one left, whatever the drains return: every
node with the outcome of its drain. -/
def drainEach {W : Type} (env : Env W) (o : DrainCmdOptions) :
    List Info → W → List (Info × Outcome W)
  | [], _ => []
  | info :: rest, w =>
    (info, deleteOrEvictPodsSimple env o info w) ::
      drainEach env o rest (deleteOrEvictPodsSimple env o info w).world

/-- What is written after the drain of a node when the batch goes on: the
"drained" report of the node when its drain succeeded, the logged error that
names the node when it failed. -/
def attemptReport {W : Type} (a : Info × Outcome W) : Event :=
  match a.2.err with
  | none => Event.PrintObj "drained" a.1
  | some err =>
    Event.Fprintf Stream.ErrOut
      "error: unable to drain node %q due to error:%s, continuing command...\n"
      [Arg.str a.1.Name, Arg.err (some err)]

/-- The steps of a batch that goes on over all attempts: the steps of each
drain, each followed by its report. -/
def continuedTrace {W : Type} : List (Info × Outcome W) → List Event
  | [] => []
  | a :: rest => a.2.trace ++ [attemptReport a] ++ continuedTrace rest

/-- The options `o` with the flag `--ignore-errors` set to `b`. -/
def DrainCmdOptions.withIgnoreErrors (o : DrainCmdOptions) (b : Bool) : DrainCmdOptions :=
  { o with drainer := { o.drainer with IgnoreErrors := b } }

/-- The call of a step, with the node on whose behalf it is made. -/
def callOf : Event → Option (String × Call)
  | Event.Call node c => some (node, c)
  | _ => none

/-- The calls of a run, in order. -/
def callsOf (tr : List Event) : List (String × Call) := tr.filterMap callOf

/-- The node of a cordon operation: a call of the cordon helper or of the
dry-run verifier. -/
def cordonCallNode : Event → Option String
  | Event.Call node Call.NewCordonHelperFromRuntimeObject => some node
  | Event.Call node Call.HasSupport => some node
  | Event.Call node (Call.PatchOrReplace _) => some node
  | _ => none

/-- Whether a call is the Remove operation, `DeleteOrEvictPods`. -/
def Call.isRemove : Call → Bool
  | Call.DeleteOrEvictPods _ => true
  | _ => false

/-- The order "strictly one node after another" on the calls of a run over the
targets `targets`: whenever a call `x` comes before a call `y`, `y` is not the
Remove of a node that stands earlier in the target list than the node of `x`.
That is, no operation on a later node happens before the Remove of an earlier
node. -/
def oneNodeAfterAnother (targets : List String) (calls : List (String × Call)) : Prop :=
  calls.Pairwise (fun x y =>
    ¬ (y.2.isRemove = true ∧ targets.indexOf y.1 < targets.indexOf x.1))

/-- The calls of the drain of one node, in order: none (the node was not
reached), or PlanDeletions, then possibly Remove, then possibly the listing of
what is left. -/
def planThenRemove (block : List Call) : Prop :=
  block = [] ∨ block = [Call.GetPodsForDeletion] ∨
    ∃ pods, block = [Call.GetPodsForDeletion, Call.DeleteOrEvictPods pods] ∨
      block = [Call.GetPodsForDeletion, Call.DeleteOrEvictPods pods, Call.GetPodsForDeletion]

/-- The calls are those of the nodes of the list, taken in turn: the calls of the
first node, planned then removed, then those of the second node, and so on. -/
def drainedInTurn : List Info → List (String × Call) → Prop
  | [], calls => calls = []
  | i :: rest, calls =>
    ∃ block tail, calls = block.map (fun c => (i.Name, c)) ++ tail ∧ planThenRemove block ∧
      drainedInTurn rest tail

/-- Whether a step writes on `o.Out`. -/
def Event.onOut : Event → Bool
  | Event.Fprintf Stream.Out _ _ => true
  | Event.PrintObj _ _ => true
  | _ => false

/-- The verbs that a run reports, each with the name of the node it is reported
for, in order. -/
def reportedVerbs (tr : List Event) : List (String × String) :=
  tr.filterMap (fun ev =>
    match ev with
    | Event.PrintObj operation info => some (operation, info.Name)
    | _ => none)

/-- Options over the targets `nodes`, without dry run, whose printers are always built. -/
def plainOptions (nodes : List Info) : DrainCmdOptions where
  ToPrinter := fun _ => none
  drainer := { IgnoreErrors := false, DryRunStrategy := DryRunStrategy.DryRunNone }
  nodeInfos := nodes

/-- Modelled from the spec: the API server as the cordon commands see it, which
is reached through `pkg/drain` and the resource builder, not part of the sources
at hand. The state gives the schedulable flag of every node, by name
(`true`: unschedulable). The helper wraps the node it is given and
`UpdateIfRequired` is the one of the spec; a patch always succeeds, without
patch error, and, unless it is a server dry run, stores the flag of the local
copy that the helper holds; the other collaborators do nothing. -/
def clusterEnv : Env (String → Bool) where
  NewCordonHelperFromRuntimeObject := fun node _ => Except.ok { node := node }
  UpdateIfRequired := CordonHelper.UpdateIfRequired
  HasSupport := fun _ w => (none, w)
  PatchOrReplace := fun c serverDryRun w =>
    ((none, none),
      if serverDryRun then w else Function.update w c.node.Name c.node.Unschedulable)
  GetPodsForDeletion := fun _ w =>
    (PodsForDeletion.list { Pods := [], Warnings := "" }, w)
  DeleteOrEvictPods := fun _ w => (none, w)

/-- Modelled from the spec: the node `name` as it is read from the API server,
with its current flag. -/
def clusterNode (cluster : String → Bool) (name : String) : Info :=
  { Name := name, Kind := "Node", Object := { Name := name, Unschedulable := cluster name } }

/-- What `onPodDeletedOrEvicted` writes: a `fmt.Fprintf` with its stream, format
and arguments, or the `printObj(pod, o.Out)` of the printer that `o.ToPrinter`
built for `operation`. -/
inductive PodNotice where
  | Fprintf (w : Stream) (format : String) (a : List Arg)
  | PrintObj (operation : String) (pod : Pod)

/-- Whether a notice is written on `o.Out`. -/
def PodNotice.onOut : PodNotice → Bool
  | PodNotice.Fprintf Stream.Out _ _ => true
  | PodNotice.Fprintf Stream.ErrOut _ _ => false
  | PodNotice.PrintObj _ _ => true

/-- The method `onPodDeletedOrEvicted`, which `drain.Helper` calls when a pod has
been deleted or evicted. -/
def onPodDeletedOrEvicted (o : DrainCmdOptions) (pod : Pod) (usingEviction : Bool) :
    List PodNotice :=
  let verbStr : String := if usingEviction then "evicted" else "deleted"
  match o.ToPrinter verbStr with
  | some err =>
    [PodNotice.Fprintf Stream.ErrOut "error building printer: %v\n" [Arg.err (some err)],
     PodNotice.Fprintf Stream.Out "pod %s/%s %s\n"
       [Arg.str pod.Namespace, Arg.str pod.Name, Arg.str verbStr]]
  | none => [PodNotice.PrintObj verbStr pod]

/-- The calls that the cordon of one node can make under server dry-run, in
order: none, or the construction of the helper, then possibly the probe of
dry-run support, then possibly `PatchOrReplace` with the server-dry-run argument
set. -/
def probeThenPatch (block : List Call) : Prop :=
  block = [] ∨ block = [Call.NewCordonHelperFromRuntimeObject] ∨
    block = [Call.NewCordonHelperFromRuntimeObject, Call.HasSupport] ∨
    block = [Call.NewCordonHelperFromRuntimeObject, Call.HasSupport, Call.PatchOrReplace true]

/-- The calls are those of the cordon of the nodes of the list, taken in turn,
each a construction, then a probe, then a server-dry-run patch. -/
def probedInTurn : List Info → List (String × Call) → Prop
  | [], calls => calls = []
  | i :: rest, calls =>
    ∃ block tail, calls = block.map (fun c => (i.Name, c)) ++ tail ∧ probeThenPatch block ∧
      probedInTurn rest tail

/-- Options under `--dry-run=server` whose printers are always built. -/
def serverDryRunOptions (nodes : List Info) : DrainCmdOptions where
  ToPrinter := fun _ => none
  drainer := { IgnoreErrors := false, DryRunStrategy := DryRunStrategy.DryRunServer }
  nodeInfos := nodes

/-- A cluster like `fleetEnv []` whose API server does not support dry run for
the kinds in `unsupported`. -/
def probeEnv (unsupported : List String) : Env (List Pod) where
  NewCordonHelperFromRuntimeObject := fun node _ => Except.ok { node := node }
  UpdateIfRequired := CordonHelper.UpdateIfRequired
  HasSupport := fun kind w =>
    if unsupported.contains kind then (some (Err.msg "dry run is not supported"), w)
    else (none, w)
  PatchOrReplace := fun _ _ w => ((none, none), w)
  GetPodsForDeletion := fun nodeName w =>
    (PodsForDeletion.list
      { Pods := [{ Namespace := "default", Name := nodeName }], Warnings := "" }, w)
  DeleteOrEvictPods := fun pods w => (none, pods ++ w)

/-- A cluster in which every node carries one pod, named after the node, and
only the first removal succeeds: the state counts the removals asked so far. -/
def secondRemovalFailsEnv : Env Nat where
  NewCordonHelperFromRuntimeObject := fun node _ => Except.ok { node := node }
  UpdateIfRequired := CordonHelper.UpdateIfRequired
  HasSupport := fun _ w => (none, w)
  PatchOrReplace := fun _ _ w => ((none, none), w)
  GetPodsForDeletion := fun nodeName w =>
    (PodsForDeletion.list
      { Pods := [{ Namespace := "default", Name := nodeName }], Warnings := "" }, w)
  DeleteOrEvictPods := fun _ w =>
    if w = 0 then (none, w + 1) else (some (Err.msg "eviction refused"), w + 1)

/-- A cluster in which the pods of no node can be listed for deletion: every
node carries a pod that blocks the drain. -/
def blockedEnv : Env Unit where
  NewCordonHelperFromRuntimeObject := fun node _ => Except.ok { node := node }
  UpdateIfRequired := CordonHelper.UpdateIfRequired
  HasSupport := fun _ w => (none, w)
  PatchOrReplace := fun _ _ w => ((none, none), w)
  GetPodsForDeletion := fun _ w =>
    (PodsForDeletion.errs none [Err.msg "cannot delete DaemonSet-managed Pods"], w)
  DeleteOrEvictPods := fun _ w => (none, w)

/-- The collaborators `env` with another function in the place of `labels.Parse`. -/
def CompleteEnv.withParse (env : CompleteEnv) (parse : String → Option Err) : CompleteEnv :=
  { env with Parse := parse }

/-- The steps that the cordon phase can take: its three kinds of error lines on
`ErrOut`, reports of one of the five cordon verbs, and calls of the
cordon helper and of the dry-run verifier. -/
def Event.ofCordon : Event → Prop
  | Event.Fprintf s format _ =>
    s = Stream.ErrOut ∧
      (format = "error: unable to %s node %q: %v\n" ∨ format = "error: %v\n" ∨
        format = "%v\n")
  | Event.PrintObj operation _ =>
    operation = already true ∨ operation = already false ∨ operation = changed true ∨
      operation = changed false ∨ operation = "skipped"
  | Event.Call _ c =>
    c = Call.NewCordonHelperFromRuntimeObject ∨ c = Call.HasSupport ∨
      ∃ serverDryRun, c = Call.PatchOrReplace serverDryRun

/-- The steps that `deleteOrEvictPodsSimple` can take for the node `node`: its
five kinds of lines and its two kinds of calls, made on behalf of `node`. -/
def Event.ofPods (node : String) : Event → Prop
  | Event.Fprintf _ format _ =>
    format = "WARNING: %s\n" ∨ format = "evicting pod %s/%s (dry run)\n" ∨
      format = "There are pending pods in node %q when an error occurred: %v\n" ∨
      format = "%s/%s\n" ∨
      format = "Following errors occurred while getting the list of pods to delete:\n%s"
  | Event.PrintObj _ _ => False
  | Event.Call n c =>
    n = node ∧ (c = Call.GetPodsForDeletion ∨ ∃ pods, c = Call.DeleteOrEvictPods pods)

/-! ## A fleet to run on -/

/-- A cluster in which every node carries one pod, named after the node, and the
removal of the pods of the nodes in `failing` is refused. The state is the list
of pods removed so far. -/
def fleetEnv (failing : List String) : Env (List Pod) where
  NewCordonHelperFromRuntimeObject := fun node _ => Except.ok { node := node }
  UpdateIfRequired := CordonHelper.UpdateIfRequired
  HasSupport := fun _ w => (none, w)
  PatchOrReplace := fun _ _ w => ((none, none), w)
  GetPodsForDeletion := fun nodeName w =>
    (PodsForDeletion.list
      { Pods := [{ Namespace := "default", Name := nodeName }], Warnings := "" }, w)
  DeleteOrEvictPods := fun pods w =>
    if pods.any (fun pod => failing.contains pod.Name) then
      (some (Err.msg "eviction refused"), w)
    else (none, pods ++ w)

/-- A schedulable node of kind `Node`. -/
def fleetNode (name : String) : Info :=
  { Name := name, Kind := "Node", Object := { Name := name, Unschedulable := false } }

/-- Options over the nodes `names`, without dry run, whose printers are always built. -/
def fleetOptions (ignoreErrors : Bool) (names : List String) : DrainCmdOptions where
  ToPrinter := fun _ => none
  drainer := { IgnoreErrors := ignoreErrors, DryRunStrategy := DryRunStrategy.DryRunNone }
  nodeInfos := names.map fleetNode

/-- A factory whose clients are built, whose namespace is "default", and whose
builder resolves every name it is given to a schedulable node; `labels.Parse`
refuses the selectors in `malformed`. -/
def plainCompleteEnv (malformed : List String) : CompleteEnv where
  UsageErrorf := fun cmd msg => Err.msg (msg ++ "\nSee '" ++ cmd.Use ++ " -h' for help and examples")
  GetDryRunStrategy := (DryRunStrategy.DryRunNone, none)
  DynamicClient := none
  KubernetesClientSet := none
  Parse := fun selector =>
    if malformed.contains selector then some (Err.msg "unable to parse requirement") else none
  Namespace := ("default", none)
  ToPrinter := fun _ _ => none
  Do := fun _ names _ =>
    Except.ok (names.map (fun name =>
      Except.ok { info := fleetNode name, Group := "", Resource := "nodes" }))
  notNode := fun _ => Err.msg "error: expected resource of type node"

/-- The command `drain NODE`, with `--selector` set on the command line or not. -/
def drainCmd (selectorChanged : Bool) : Command :=
  { Use := "drain NODE", selectorChanged := selectorChanged }

/-- The options of `drain` before `Complete`, with the values of `--selector`
and `--pod-selector`. -/
def flagOptions (selector podSelector : String) : DrainCmdOptions where
  ToPrinter := fun _ => none
  drainer :=
    { IgnoreErrors := false, DryRunStrategy := DryRunStrategy.DryRunNone,
      Selector := selector, PodSelector := podSelector }
  nodeInfos := []

/-- A cluster like `fleetEnv []` in which `PatchOrReplace` returns the pair
`(err, patchErr)` of `result` for every node. -/
def patchEnv (result : Option Err × Option Err) : Env (List Pod) where
  NewCordonHelperFromRuntimeObject := fun node _ => Except.ok { node := node }
  UpdateIfRequired := CordonHelper.UpdateIfRequired
  HasSupport := fun _ w => (none, w)
  PatchOrReplace := fun _ _ w => (result, w)
  GetPodsForDeletion := fun nodeName w =>
    (PodsForDeletion.list
      { Pods := [{ Namespace := "default", Name := nodeName }], Warnings := "" }, w)
  DeleteOrEvictPods := fun pods w => (none, pods ++ w)

/-- A cluster in which every removal of pods is refused and, once a removal has
been asked, the pods of a node cannot be listed any more: the state counts the
removals asked so far. -/
def relistFailsEnv : Env Nat where
  NewCordonHelperFromRuntimeObject := fun node _ => Except.ok { node := node }
  UpdateIfRequired := CordonHelper.UpdateIfRequired
  HasSupport := fun _ w => (none, w)
  PatchOrReplace := fun _ _ w => ((none, none), w)
  GetPodsForDeletion := fun nodeName w =>
    if w = 0 then
      (PodsForDeletion.list
        { Pods := [{ Namespace := "default", Name := nodeName }], Warnings := "" }, w)
    else (PodsForDeletion.errs none [Err.msg "cannot list pods"], w)
  DeleteOrEvictPods := fun _ w => (some (Err.msg "eviction refused"), w + 1)

/-- Options under `--ignore-errors` over the nodes `names`, without dry run,
whose `ToPrinter` fails for every operation. -/
def unprintableOptions (names : List String) : DrainCmdOptions where
  ToPrinter := fun _ => some (Err.msg "unable to match a printer")
  drainer := { IgnoreErrors := true, DryRunStrategy := DryRunStrategy.DryRunNone }
  nodeInfos := names.map fleetNode

/-- Options over the targets `nodes`, without dry run and without
`--ignore-errors`, whose `ToPrinter` fails for every operation. -/
def unprintableTargets (nodes : List Info) : DrainCmdOptions where
  ToPrinter := fun _ => some (Err.msg "unable to match a printer")
  drainer := { IgnoreErrors := false, DryRunStrategy := DryRunStrategy.DryRunNone }
  nodeInfos := nodes

/-- A cluster in which every node is already in the state that is asked for:
`UpdateIfRequired` answers false for every helper. -/
def settledEnv : Env Unit where
  NewCordonHelperFromRuntimeObject := fun node _ => Except.ok { node := node }
  UpdateIfRequired := fun c _ => (c, false)
  HasSupport := fun _ w => (none, w)
  PatchOrReplace := fun _ _ w => ((none, none), w)
  GetPodsForDeletion := fun _ w =>
    (PodsForDeletion.list { Pods := [], Warnings := "" }, w)
  DeleteOrEvictPods := fun _ w => (none, w)

/-- A cluster like `fleetEnv failing` in which, in addition, `PatchOrReplace`
returns a final error, and no patch error, for the nodes in `uncordonable`. -/
def cordonFailsEnv (uncordonable failing : List String) : Env (List Pod) where
  NewCordonHelperFromRuntimeObject := fun node _ => Except.ok { node := node }
  UpdateIfRequired := CordonHelper.UpdateIfRequired
  HasSupport := fun _ w => (none, w)
  PatchOrReplace := fun c _ w =>
    if uncordonable.contains c.node.Name then ((some (Err.msg "node not found"), none), w)
    else ((none, none), w)
  GetPodsForDeletion := fun nodeName w =>
    (PodsForDeletion.list
      { Pods := [{ Namespace := "default", Name := nodeName }], Warnings := "" }, w)
  DeleteOrEvictPods := fun pods w =>
    if pods.any (fun pod => failing.contains pod.Name) then
      (some (Err.msg "eviction refused"), w)
    else (none, pods ++ w)

/-- The state of the API server after one drain of every node of the list, in
the order of the list, each drain starting in the state the previous one left. -/
def drainedWorld {W : Type} (env : Env W) (o : DrainCmdOptions) : List Info → W → W
  | [], w => w
  | info :: rest, w => drainedWorld env o rest (deleteOrEvictPodsSimple env o info w).world

end Drain

/-!
# kubectl logs

A shallow embedding of `LogsOptions.ToLogOptions`, `LogsOptions.RunLogs` and
`prefixingWriter.Write` of `pkg/cmd/logs/logs.go`. The machine integers of Go
(`int64`, `time.Duration`) are integers, with an explicit wrap where the Go
operation can overflow.
-/

namespace Logs

open Drain (Err)

/-! ## Durations -/

/-- The value that a Go `int64` holds after an operation whose mathematical
result is `x`. -/
def wrapInt64 (x : Int) : Int := (x + 2 ^ 63) % 2 ^ 64 - 2 ^ 63

/-- The constant `time.Second`, in nanoseconds, the unit of `time.Duration`. -/
def Second : Int := 1000000000

/-- The constant `minDuration` of package `time`. -/
def minDuration : Int := -(2 ^ 63)

/-- The constant `maxDuration` of package `time`. -/
def maxDuration : Int := 2 ^ 63 - 1

/-- The function `lessThanHalf` of package `time`:
`uint64(x)+uint64(x) < uint64(y)`. -/
def lessThanHalf (x y : Int) : Bool :=
  decide ((x % 2 ^ 64 + x % 2 ^ 64) % 2 ^ 64 < y % 2 ^ 64)

/-- The Go library method `time.Duration.Round`: `d` rounded to the nearest
multiple of `m`, halfway values away from zero. -/
def Round (d m : Int) : Int :=
  if m ≤ 0 then d
  else
    let r := Int.tmod d m
    if d < 0 then
      let r := wrapInt64 (-r)
      if lessThanHalf r m then wrapInt64 (d + r)
      else
        let d1 := wrapInt64 (d - m + r)
        if d1 < d then d1 else minDuration
    else
      if lessThanHalf r m then wrapInt64 (d - r)
      else
        let d1 := wrapInt64 (d + m - r)
        if d1 > d then d1 else maxDuration

/-- The conversion `int64(d.Seconds())` on a duration `d` that
`Round(time.Second)` returns. `Seconds` adds, in floating point, the whole
seconds of `d` and its nanoseconds over 1e9; on a multiple of a second the sum
is the whole number of seconds itself, below 2^53, and on `maxDuration` and
`minDuration` it lies strictly between two whole numbers; the conversion to
`int64` then truncates toward zero. -/
def wholeSeconds (d : Int) : Int := Int.tdiv d Second

/-! ## `logs.go` -/

/-- The type `metav1.Time`, as a number of seconds. -/
structure Time where
  Unix : Int
  deriving DecidableEq, Repr

/-- The fields of `LogsOptions` that are plain values. -/
structure LogsOptions where
  Namespace : String := ""
  ResourceArg : String := ""
  AllContainers : Bool := false
  Resources : List String := []
  SinceTime : String := ""
  SinceSeconds : Int := 0
  Follow : Bool := false
  Previous : Bool := false
  Timestamps : Bool := false
  IgnoreLogErrors : Bool := false
  LimitBytes : Int := 0
  Tail : Int := 0
  Container : String := ""
  InsecureSkipTLSVerifyBackend : Bool := false
  ContainerNameSpecified : Bool := false
  Selector : String := ""
  MaxFollowConcurrency : Int := 0
  Prefix : Bool := false
  TailSpecified : Bool := false
  ClusterName : String := ""
  deriving DecidableEq, Repr

/-- The type `corev1.PodLogOptions`; a nil pointer is `none`. -/
structure PodLogOptions where
  Container : String
  Follow : Bool
  Previous : Bool
  Timestamps : Bool
  InsecureSkipTLSVerifyBackend : Bool
  SinceTime : Option Time := none
  LimitBytes : Option Int := none
  SinceSeconds : Option Int := none
  TailLines : Option Int := none
  deriving DecidableEq, Repr

/-- The variable `selectorTail`. -/
def selectorTail : Int := 10

/-- The function `NewLogsOptions`. -/
def NewLogsOptions (allContainers : Bool) : LogsOptions :=
  { AllContainers := allContainers, Tail := -1, MaxFollowConcurrency := 5 }

/-- The method `ToLogOptions`. `ParseRFC3339` is `util.ParseRFC3339(·, metav1.Now)`
of `pkg/util`; the condition `len(s) > 0` on a string is written `s ≠ ""`. -/
def ToLogOptions (ParseRFC3339 : String → Except Err Time) (o : LogsOptions) :
    Except Err PodLogOptions :=
  let logOptions : PodLogOptions :=
    { Container := o.Container, Follow := o.Follow, Previous := o.Previous,
      Timestamps := o.Timestamps,
      InsecureSkipTLSVerifyBackend := o.InsecureSkipTLSVerifyBackend }
  let parsed : Except Err PodLogOptions :=
    if o.SinceTime ≠ "" then
      match ParseRFC3339 o.SinceTime with
      | Except.error err => Except.error err
      | Except.ok t => Except.ok { logOptions with SinceTime := some t }
    else Except.ok logOptions
  match parsed with
  | Except.error err => Except.error err
  | Except.ok logOptions =>
    let logOptions : PodLogOptions :=
      if o.LimitBytes ≠ 0 then { logOptions with LimitBytes := some o.LimitBytes }
      else logOptions
    let logOptions : PodLogOptions :=
      if o.SinceSeconds ≠ 0 then
        { logOptions with SinceSeconds := some (wholeSeconds (Round o.SinceSeconds Second)) }
      else logOptions
    let logOptions : PodLogOptions :=
      if o.Selector ≠ "" ∧ o.Tail = -1 ∧ ¬ o.TailSpecified = true then
        { logOptions with TailLines := some selectorTail }
      else if o.Tail ≠ -1 then { logOptions with TailLines := some o.Tail }
      else logOptions
    Except.ok logOptions

/-- The least whole number of seconds that is not smaller than the duration
`d`: the duration rounded up to the second. -/
def secondsRoundedUp (d : Int) : Int := -((-d) / Second)

/-- A parser of RFC 3339 times that accepts only "1970-01-01T00:00:00Z". -/
def parseEpoch (s : String) : Except Err Time :=
  if s = "1970-01-01T00:00:00Z" then Except.ok { Unix := 0 }
  else Except.error (Err.msg "parsing time: not RFC 3339")

/-! ## `RunLogs` -/

/-- The calls that `RunLogs` makes, over the type `R` of the entries of the map
of requests: an object reference with its `rest.ResponseWrapper`. -/
inductive RunCall (R : Type) where
  | LogsForObject
  | parallelConsumeRequest (requests : List R)
  | sequentialConsumeRequest (requests : List R)

/-- The collaborators of `RunLogs`: the result of `o.LogsForObject(...)`, the
entries of its map as a list, and the two methods that consume the requests,
each with the error it returns. `parallelConsumeRequest` runs one goroutine per
request; it is taken whole, as the step that consumes all requests it is given
in parallel. -/
structure RunEnv (R : Type) where
  LogsForObject : Except Err (List R)
  parallelConsumeRequest : List R → Option Err
  sequentialConsumeRequest : List R → Option Err

/-- What a run of `RunLogs` returns and the calls it has made, in order. -/
structure Ran (R : Type) where
  err : Option Err
  calls : List (RunCall R)

/-- The error that `RunLogs` builds with `fmt.Errorf` from the number of
requests and `o.MaxFollowConcurrency`, both of them formatted with `%d`. -/
def tooManyStreams (requests maxFollowConcurrency : Int) : Err :=
  Err.msg ("you are attempting to follow " ++ toString requests ++
    " log streams, but maximum allowed concurrency is " ++ toString maxFollowConcurrency ++
    ", use --max-log-requests to increase the limit")

/-- The method `RunLogs`. -/
def RunLogs {R : Type} (env : RunEnv R) (o : LogsOptions) : Ran R :=
  match env.LogsForObject with
  | Except.error err => { err := some err, calls := [RunCall.LogsForObject] }
  | Except.ok requests =>
    if o.Follow && decide (requests.length > 1) then
      if (requests.length : Int) > o.MaxFollowConcurrency then
        { err := some (tooManyStreams requests.length o.MaxFollowConcurrency),
          calls := [RunCall.LogsForObject] }
      else
        { err := env.parallelConsumeRequest requests,
          calls := [RunCall.LogsForObject, RunCall.parallelConsumeRequest requests] }
    else
      { err := env.sequentialConsumeRequest requests,
        calls := [RunCall.LogsForObject, RunCall.sequentialConsumeRequest requests] }

/-- A run of `kubectl logs -f` whose selector matches the streams `streams`,
none of which fails. -/
def followEnv (streams : List String) : RunEnv String where
  LogsForObject := Except.ok streams
  parallelConsumeRequest := fun _ => none
  sequentialConsumeRequest := fun _ => none

/-- The options of `kubectl logs -f` with the default of every other flag. -/
def followOptions : LogsOptions :=
  { NewLogsOptions false with Follow := true }

/-! ## `prefixingWriter` -/

/-- The type `prefixingWriter`: the bytes of its field `prefix`, and the method
`Write` of its field `writer`, which returns a count and an error. A byte is a
number. -/
structure prefixingWriter where
  prefixBytes : List Nat
  writer : List Nat → Int × Option Err

/-- What a call of `Write` returns, `(int, error)`, and the buffers that it has
handed to the underlying writer. -/
structure Written where
  n : Int
  err : Option Err
  writes : List (List Nat)

/-- The method `prefixingWriter.Write`. -/
def prefixingWriter.Write (pw : prefixingWriter) (p : List Nat) : Written :=
  if p.length = 0 then { n := 0, err := none, writes := [] }
  else
    match pw.writer (pw.prefixBytes ++ p) with
    | (n, err) =>
      if n > p.length then { n := p.length, err := err, writes := [pw.prefixBytes ++ p] }
      else { n := n, err := err, writes := [pw.prefixBytes ++ p] }

/-- A writer with the prefix "[p] " over an underlying writer that accepts
every buffer whole. -/
def acceptingWriter : prefixingWriter where
  prefixBytes := [91, 112, 93, 32]
  writer := fun buffer => (buffer.length, none)

end Logs

/-!
# kubectl api-resources

A shallow embedding of `pkg/cmd/apiresources/apiresources.go`: the order
`sortableResource.Less`, and `RunAPIResources`, which filters the resources of
the server, sorts them with `sort.Stable` and prints one row for each.
-/

namespace APIResources

open Drain (Err NewAggregate)

/-! ## Data model -/

/-- The fields of `metav1.APIResource` that the command reads. -/
structure APIResource where
  Name : String
  Namespaced : Bool
  Kind : String
  Verbs : List String
  ShortNames : List String := []
  deriving DecidableEq, Repr

/-- The type `metav1.APIResourceList`. -/
structure APIResourceList where
  GroupVersion : String
  APIResources : List APIResource
  deriving DecidableEq, Repr

/-- The type `schema.GroupVersion`. -/
structure GroupVersion where
  Group : String
  Version : String
  deriving DecidableEq, Repr

/-- The Go library method `schema.GroupVersion.String`: the version alone for
the empty group, otherwise group, slash, version. -/
def GroupVersion.String (gv : GroupVersion) : String :=
  if gv.Group.length > 0 then gv.Group ++ "/" ++ gv.Version else gv.Version

/-- The type `groupResource`. -/
structure groupResource where
  APIGroup : String
  APIGroupVersion : String
  APIResource : APIResource
  deriving DecidableEq, Repr

/-- The fields of `APIResourceOptions` that are plain values;
`NewAPIResourceOptions` sets `Namespaced` and leaves the others zero. -/
structure APIResourceOptions where
  Output : String := ""
  SortBy : String := ""
  APIGroup : String := ""
  Namespaced : Bool := true
  Verbs : List String := []
  NoHeaders : Bool := false
  Cached : Bool := false
  deriving DecidableEq, Repr

/-- What `RunAPIResources` reads of the `cobra.Command`:
`cmd.Flags().Changed("api-group")` and `cmd.Flags().Changed("namespaced")`. -/
structure Command where
  groupChanged : Bool
  nsChanged : Bool
  deriving DecidableEq, Repr

/-- An argument of a `fmt.Fprintf` call. -/
inductive Arg where
  | str (s : String)
  | bool (b : Bool)
  | strs (l : List String)
  deriving DecidableEq, Repr

/-- The collaborators of `RunAPIResources`. -/
structure Env where
  /-- the error of `f.ToDiscoveryClient()` -/
  ToDiscoveryClient : Option Err
  /-- `discoveryclient.ServerPreferredResources()` -/
  ServerPreferredResources : List APIResourceList × Option Err
  /-- `schema.ParseGroupVersion(list.GroupVersion)` -/
  ParseGroupVersion : String → Except Err GroupVersion
  /-- the error of `fmt.Fprintf(w, format, args...)` on the tab writer -/
  Fprintf : String → List Arg → Option Err

/-- One observable step of a run: `discoveryclient.Invalidate()`, or a
`fmt.Fprintf` on the tab writer with its format and arguments, tagged with the
loop variable `r` of the iteration that makes it, `none` for the headers. -/
inductive Event where
  | Invalidate
  | Fprintf (r : Option groupResource) (format : String) (a : List Arg)
  deriving DecidableEq, Repr

/-- The result of `RunAPIResources`: its error and the steps taken. -/
structure Outcome where
  err : Option Err
  trace : List Event

/-! ## `sortableResource` -/

/-- The Go library function `strings.Compare`: 0 if `a == b`, -1 if `a < b`,
and +1 if `a > b`. -/
def stringsCompare (a b : String) : Int :=
  if a = b then 0 else if a < b then -1 else 1

/-- The method `sortableResource.compareValues`, on the entries
`s.resources[i]` and `s.resources[j]`. -/
def compareValues (sortBy : String) (ri rj : groupResource) : String × String :=
  if sortBy = "name" then (ri.APIResource.Name, rj.APIResource.Name)
  else if sortBy = "kind" then (ri.APIResource.Kind, rj.APIResource.Kind)
  else (ri.APIGroup, rj.APIGroup)

/-- The method `sortableResource.Less`, on the entries `s.resources[i]` and
`s.resources[j]`. -/
def Less (sortBy : String) (ri rj : groupResource) : Bool :=
  let ret := stringsCompare (compareValues sortBy ri rj).1 (compareValues sortBy ri rj).2
  if ret > 0 then false
  else if ret = 0 then decide (stringsCompare ri.APIResource.Name rj.APIResource.Name < 0)
  else true

/-- The value that `compareValues` takes of an entry: its sort key. -/
def sortKey (sortBy : String) (r : groupResource) : String := (compareValues sortBy r r).1

/-- The Go library function `sort.Stable` on `sortableResource{resources,
sortBy}`: it "sorts data in ascending order as determined by the Less method,
while keeping the original order of equal elements". The entries are inserted
one by one, from the last to the first, each before the first entry that is
not less than it. -/
def Stable (sortBy : String) (resources : List groupResource) : List groupResource :=
  resources.insertionSort (fun a b => Less sortBy b a = false)

/-! ## `apiresources.go` -/

/-- The method `Validate`. -/
def Validate (o : APIResourceOptions) : Option Err :=
  if !(List.contains ["", "wide", "name"] o.Output) then
    some (Err.msg ("--output " ++ o.Output ++ " is not available"))
  else if o.SortBy.length > 0 ∧ !(List.contains ["", "name", "kind"] o.SortBy) then
    some (Err.msg "--sort-by accepts only name or kind")
  else none

/-- The four filters of the inner loop of `RunAPIResources`: whether the
resource of a list with group and version `gv` is appended to `resources`. -/
def kept (o : APIResourceOptions) (cmd : Command) (gv : GroupVersion) (resource : APIResource) :
    Bool :=
  if resource.Verbs.length = 0 then false
  else if cmd.groupChanged && o.APIGroup != gv.Group then false
  else if cmd.nsChanged && o.Namespaced != resource.Namespaced then false
  else if decide (o.Verbs.length > 0) &&
      !(o.Verbs.all (fun verb => resource.Verbs.contains verb)) then false
  else true

/-- The loop `for _, list := range lists` of `RunAPIResources`: the slice
`resources` that it builds. -/
def filtered (env : Env) (o : APIResourceOptions) (cmd : Command) :
    List APIResourceList → List groupResource
  | [] => []
  | list :: rest =>
    if list.APIResources.length = 0 then filtered env o cmd rest
    else
      match env.ParseGroupVersion list.GroupVersion with
      | Except.error _ => filtered env o cmd rest
      | Except.ok gv =>
        (list.APIResources.filter (kept o cmd gv)).map
            (fun resource =>
              { APIGroup := gv.Group, APIGroupVersion := gv.String, APIResource := resource }) ++
          filtered env o cmd rest

/-- The function `printContextHeaders`: its call of `fmt.Fprintf`, as format
and arguments. -/
def printContextHeaders (output : String) : String × List Arg :=
  let columnNames := ["NAME", "SHORTNAMES", "APIVERSION", "NAMESPACED", "KIND"]
  let columnNames := if output = "wide" then columnNames ++ ["VERBS"] else columnNames
  ("%s\n", [Arg.str (String.intercalate "\t" columnNames)])

/-- The `switch o.Output` of the print loop of `RunAPIResources`: the call of
`fmt.Fprintf` for the entry `r`, as format and arguments; `none` when no case
matches. -/
def row (o : APIResourceOptions) (r : groupResource) : Option (String × List Arg) :=
  if o.Output = "name" then
    let name := r.APIResource.Name
    let name := if r.APIGroup.length > 0 then name ++ ("." ++ r.APIGroup) else name
    some ("%s\n", [Arg.str name])
  else if o.Output = "wide" then
    some ("%s\t%s\t%s\t%v\t%s\t%v\n",
      [Arg.str r.APIResource.Name, Arg.str (String.intercalate "," r.APIResource.ShortNames),
       Arg.str r.APIGroupVersion, Arg.bool r.APIResource.Namespaced,
       Arg.str r.APIResource.Kind, Arg.strs r.APIResource.Verbs])
  else if o.Output = "" then
    some ("%s\t%s\t%s\t%v\t%s\n",
      [Arg.str r.APIResource.Name, Arg.str (String.intercalate "," r.APIResource.ShortNames),
       Arg.str r.APIGroupVersion, Arg.bool r.APIResource.Namespaced,
       Arg.str r.APIResource.Kind])
  else none

/-- The loop `for _, r := range resources` of `RunAPIResources`: the errors it
appends to `errs` and the steps it takes. -/
def printRows (env : Env) (o : APIResourceOptions) : List groupResource → List Err × List Event
  | [] => ([], [])
  | r :: rest =>
    let later := printRows env o rest
    match row o r with
    | none => later
    | some (format, a) =>
      match env.Fprintf format a with
      | some err => (err :: later.1, Event.Fprintf (some r) format a :: later.2)
      | none => (later.1, Event.Fprintf (some r) format a :: later.2)

/-- The method `RunAPIResources`. -/
def RunAPIResources (env : Env) (o : APIResourceOptions) (cmd : Command) : Outcome :=
  match env.ToDiscoveryClient with
  | some err => { err := some err, trace := [] }
  | none =>
    let invalidate : List Event := if !o.Cached then [Event.Invalidate] else []
    let errs : List Err :=
      match env.ServerPreferredResources.2 with
      | some err => [err]
      | none => []
    let resources := filtered env o cmd env.ServerPreferredResources.1
    let header : List Event × Option Err :=
      if o.NoHeaders = false ∧ o.Output ≠ "name" then
        ([Event.Fprintf none (printContextHeaders o.Output).1 (printContextHeaders o.Output).2],
          env.Fprintf (printContextHeaders o.Output).1 (printContextHeaders o.Output).2)
      else ([], none)
    match header.2 with
    | some err => { err := some err, trace := invalidate ++ header.1 }
    | none =>
      let printed := printRows env o (Stable o.SortBy resources)
      { err := if (errs ++ printed.1).length > 0 then NewAggregate (errs ++ printed.1) else none,
        trace := invalidate ++ header.1 ++ printed.2 }

/-- The entries that a run prints a row for, in the order of the rows. -/
def printedResources (tr : List Event) : List groupResource :=
  tr.filterMap (fun ev =>
    match ev with
    | Event.Fprintf (some r) _ _ => some r
    | _ => none)

/-! ## A server to list -/

/-- A server with the core group and the groups "apps" and "events.k8s.io",
whose resources come in no particular order; every write succeeds. -/
def serverEnv : Env where
  ToDiscoveryClient := none
  ServerPreferredResources :=
    ([{ GroupVersion := "v1",
        APIResources :=
          [{ Name := "pods", Namespaced := true, Kind := "Pod", Verbs := ["get", "list"] },
           { Name := "events", Namespaced := true, Kind := "Event", Verbs := ["get", "list"] }] },
      { GroupVersion := "events.k8s.io/v1",
        APIResources :=
          [{ Name := "events", Namespaced := true, Kind := "Event", Verbs := ["get"] }] },
      { GroupVersion := "apps/v1",
        APIResources :=
          [{ Name := "deployments", Namespaced := true, Kind := "Deployment",
             Verbs := ["get"] }] }],
      none)
  ParseGroupVersion := fun gv =>
    if gv = "v1" then Except.ok { Group := "", Version := "v1" }
    else if gv = "apps/v1" then Except.ok { Group := "apps", Version := "v1" }
    else if gv = "events.k8s.io/v1" then Except.ok { Group := "events.k8s.io", Version := "v1" }
    else Except.error (Err.msg "unexpected GroupVersion string")
  Fprintf := fun _ _ => none

/-- The entry of the resource `name` of kind `kind` in the group `group`, at
version "v1". -/
def entry (group name kind : String) (verbs : List String) : groupResource :=
  { APIGroup := group,
    APIGroupVersion := GroupVersion.String { Group := group, Version := "v1" },
    APIResource := { Name := name, Namespaced := true, Kind := kind, Verbs := verbs } }

/-- The command `api-resources` with neither `--api-group` nor `--namespaced`
on its command line. -/
def plainCommand : Command := { groupChanged := false, nsChanged := false }

end APIResources

namespace Drain

/-! ## Lemmas on the readers -/

theorem pendingReport_nil : pendingReport [] = [] := rfl

theorem pendingReport_append (a b : List Event) :
    pendingReport (a ++ b) = pendingReport a ++ pendingReport b := by
  simp [pendingReport, List.filterMap_append]

theorem drainedReport_append (a b : List Event) :
    drainedReport (a ++ b) = drainedReport a ++ drainedReport b := by
  simp [drainedReport, List.filterMap_append]

theorem pendingLine_of_ofCordon (ev : Event) (h : ev.ofCordon) : pendingLine ev = none := by
  unfold pendingLine
  split
  · rename_i format nodeName
    simp only [Event.ofCordon] at h
    rcases h.2 with h | h | h <;> subst h <;> simp
  · rfl

theorem drainedLine_of_ofCordon (ev : Event) (h : ev.ofCordon) : drainedLine ev = none := by
  cases ev with
  | Fprintf s f a => rfl
  | Call n c => rfl
  | PrintObj op i =>
    simp only [Event.ofCordon, already, changed] at h
    simp only [drainedLine]
    rcases h with h | h | h | h | h <;> subst h <;> simp

theorem podCallNode_of_ofCordon (ev : Event) (h : ev.ofCordon) : podCallNode ev = none := by
  cases ev with
  | Fprintf s f a => rfl
  | PrintObj op i => rfl
  | Call n c =>
    simp only [Event.ofCordon] at h
    rcases h with h | h | ⟨b, h⟩ <;> subst h <;> rfl

theorem pendingLine_of_ofPods (node : String) (ev : Event) (h : ev.ofPods node) :
    pendingLine ev = none := by
  unfold pendingLine
  split
  · rename_i format nodeName
    simp only [Event.ofPods] at h
    rcases h with h | h | h | h | h <;> subst h <;> simp
  · rfl

theorem drainedLine_of_ofPods (node : String) (ev : Event) (h : ev.ofPods node) :
    drainedLine ev = none := by
  cases ev with
  | Fprintf s f a => rfl
  | Call n c => rfl
  | PrintObj op i => simp [Event.ofPods] at h

theorem filterMap_eq_nil_of_forall {α β : Type} (f : α → Option β) (l : List α)
    (h : ∀ a ∈ l, f a = none) : l.filterMap f = [] := by
  induction l with
  | nil => rfl
  | cons a t ih =>
    have ha : f a = none := h a (List.mem_cons_self a t)
    have ht : ∀ b ∈ t, f b = none := fun b hb => h b (List.mem_cons_of_mem a hb)
    simp [List.filterMap_cons, ha, ih ht]

/-! ## The steps of each function -/

theorem ofCordon_printError (s : String) (i : Info) (err : Err) :
    (printError s i err).ofCordon := by
  simp [printError, Event.ofCordon]

theorem ofCordon_printOrError (o : DrainCmdOptions) (operation errFormat : String) (i : Info)
    (hfmt : errFormat = "error: %v\n" ∨ errFormat = "%v\n")
    (hop : operation = already true ∨ operation = already false ∨ operation = changed true ∨
      operation = changed false ∨ operation = "skipped") :
    ∀ ev ∈ printOrError o operation errFormat i, ev.ofCordon := by
  intro ev hev
  unfold printOrError at hev
  split at hev
  · simp only [List.mem_singleton] at hev
    subst hev
    exact ⟨rfl, Or.inr hfmt⟩
  · simp only [List.mem_singleton] at hev
    subst hev
    exact hop

theorem cordon_verb_changed (desired : Bool) :
    changed desired = already true ∨ changed desired = already false ∨
      changed desired = changed true ∨ changed desired = changed false ∨
      changed desired = "skipped" := by
  cases desired <;> simp

theorem cordon_verb_already (desired : Bool) :
    already desired = already true ∨ already desired = already false ∨
      already desired = changed true ∨ already desired = changed false ∨
      already desired = "skipped" := by
  cases desired <;> simp

theorem ofCordon_patchOrReplaceNode {W : Type} (env : Env W) (o : DrainCmdOptions)
    (desired : Bool) (s : String) (i : Info) (c : CordonHelper) (w : W) :
    ∀ ev ∈ (patchOrReplaceNode env o desired s i c w).2, ev.ofCordon := by
  intro ev hev
  unfold patchOrReplaceNode at hev
  simp only [List.mem_append, List.mem_singleton] at hev
  rcases hev with (hev | hev) | hev
  · subst hev
    simp [Event.ofCordon]
  · split at hev
    · simp only [List.mem_singleton] at hev
      subst hev
      exact ofCordon_printError _ _ _
    · simp at hev
  · split at hev
    · simp only [List.mem_singleton] at hev
      subst hev
      exact ofCordon_printError _ _ _
    · exact ofCordon_printOrError o _ _ i (Or.inr rfl) (cordon_verb_changed desired) ev hev

theorem ofCordon_cordonOrUncordonNode {W : Type} (env : Env W) (o : DrainCmdOptions)
    (desired : Bool) (s : String) (i : Info) (w : W) :
    ∀ ev ∈ (cordonOrUncordonNode env o desired s i w).2, ev.ofCordon := by
  intro ev hev
  have hnew : (Event.Call i.Name Call.NewCordonHelperFromRuntimeObject).ofCordon := by
    simp [Event.ofCordon]
  have hprobe : (Event.Call i.Name Call.HasSupport).ofCordon := by
    simp [Event.ofCordon]
  unfold cordonOrUncordonNode at hev
  split at hev
  · split at hev
    · simp only [List.mem_cons, List.mem_singleton, List.not_mem_nil, or_false] at hev
      rcases hev with hev | hev
      · subst hev; exact hnew
      · subst hev; exact ofCordon_printError _ _ _
    · split at hev
      · simp only [List.mem_append, List.mem_singleton] at hev
        rcases hev with hev | hev
        · subst hev; exact hnew
        · exact ofCordon_printOrError o _ _ i (Or.inl rfl) (cordon_verb_already desired) ev hev
      · split at hev
        · split at hev
          · split at hev
            · simp only [List.mem_cons, List.mem_singleton, List.not_mem_nil, or_false] at hev
              rcases hev with hev | hev | hev
              · subst hev; exact hnew
              · subst hev; exact hprobe
              · subst hev; exact ofCordon_printError _ _ _
            · simp only [List.mem_append, List.mem_cons, List.mem_singleton, List.not_mem_nil,
                or_false] at hev
              rcases hev with (hev | hev) | hev
              · subst hev; exact hnew
              · subst hev; exact hprobe
              · exact ofCordon_patchOrReplaceNode env o desired s i _ _ ev hev
          · simp only [List.mem_append, List.mem_singleton] at hev
            rcases hev with hev | hev
            · subst hev; exact hnew
            · exact ofCordon_patchOrReplaceNode env o desired s i _ _ ev hev
        · simp only [List.mem_append, List.mem_singleton] at hev
          rcases hev with hev | hev
          · subst hev; exact hnew
          · exact ofCordon_printOrError o _ _ i (Or.inr rfl) (cordon_verb_changed desired) ev hev
  · exact ofCordon_printOrError o _ _ i (Or.inr rfl) (Or.inr (Or.inr (Or.inr (Or.inr rfl)))) ev hev

theorem ofCordon_cordonLoop {W : Type} (env : Env W) (o : DrainCmdOptions) (desired : Bool)
    (s : String) (nodes : List Info) (w : W) :
    ∀ ev ∈ (cordonLoop env o desired s nodes w).2, ev.ofCordon := by
  induction nodes generalizing w with
  | nil => intro ev hev; simp [cordonLoop] at hev
  | cons i rest ih =>
    intro ev hev
    simp only [cordonLoop, List.mem_append] at hev
    rcases hev with hev | hev
    · exact ofCordon_cordonOrUncordonNode env o desired s i w ev hev
    · exact ih _ ev hev

theorem ofCordon_RunCordonOrUncordon {W : Type} (env : Env W) (o : DrainCmdOptions)
    (desired : Bool) (w : W) :
    ∀ ev ∈ (RunCordonOrUncordon env o desired w).trace, ev.ofCordon := by
  intro ev hev
  exact ofCordon_cordonLoop env o desired _ o.nodeInfos w ev hev

theorem RunCordonOrUncordon_err {W : Type} (env : Env W) (o : DrainCmdOptions)
    (desired : Bool) (w : W) : (RunCordonOrUncordon env o desired w).err = none := rfl

theorem ofPods_deleteOrEvictPodsSimple {W : Type} (env : Env W) (o : DrainCmdOptions)
    (i : Info) (w : W) :
    ∀ ev ∈ (deleteOrEvictPodsSimple env o i w).trace, ev.ofPods i.Name := by
  intro ev hev
  have hlist : (Event.Call i.Name Call.GetPodsForDeletion).ofPods i.Name := by
    simp [Event.ofPods]
  have hwarn : ∀ (l : PodDeleteList), ev ∈
      (if l.Warnings ≠ "" then
        [Event.Fprintf Stream.ErrOut "WARNING: %s\n" [Arg.str l.Warnings]]
      else []) → ev.ofPods i.Name := by
    intro l h
    split at h
    · simp only [List.mem_singleton] at h
      subst h
      simp [Event.ofPods]
    · simp at h
  unfold deleteOrEvictPodsSimple at hev
  split at hev
  · simp only [List.mem_singleton] at hev
    subst hev; exact hlist
  · rename_i l w1 hget
    dsimp only at hev
    split at hev
    · simp only [List.mem_append, List.mem_singleton, List.mem_map] at hev
      rcases hev with (hev | hev) | ⟨pod, _, hev⟩
      · subst hev; exact hlist
      · exact hwarn l hev
      · subst hev; simp [Event.ofPods]
    · split at hev
      · simp only [List.mem_append, List.mem_singleton] at hev
        rcases hev with (hev | hev) | hev
        · subst hev; exact hlist
        · exact hwarn l hev
        · subst hev; simp [Event.ofPods]
      · simp only [List.mem_append, List.mem_singleton, List.mem_cons, List.not_mem_nil,
          or_false] at hev
        rcases hev with (((hev | hev) | hev | hev) | hev) | hev
        · subst hev; exact hlist
        · exact hwarn l hev
        · subst hev; simp [Event.ofPods]
        · subst hev; exact hlist
        · split at hev
          · split at hev
            · simp only [List.mem_append, List.mem_singleton, List.mem_map] at hev
              rcases hev with hev | ⟨pod, _, hev⟩
              · subst hev; simp [Event.ofPods]
              · subst hev; simp [Event.ofPods]
            · simp at hev
          · simp at hev
        · split at hev
          · simp only [List.mem_singleton] at hev
            subst hev; simp [Event.ofPods]
          · simp at hev

/-! ## The loop of `RunDrain` when a failure aborts it -/

theorem pendingReport_pendingMessages (o : DrainCmdOptions) (d : List String) :
    pendingReport (pendingMessages o d) =
      (o.nodeInfos.filter (fun i => !d.contains i.Name)).map Info.Name := by
  unfold pendingMessages
  generalize (o.nodeInfos.filter (fun i => !d.contains i.Name)).map Info.Name = names
  have hlines : ∀ l : List String, pendingReport
      (l.map (fun nodeName => Event.Fprintf Stream.ErrOut " %s\n" [Arg.str nodeName])) = l := by
    intro l
    induction l with
    | nil => rfl
    | cons a t ih =>
      simp only [pendingReport] at ih
      simp [pendingReport, pendingLine, List.filterMap_cons, ih]
  dsimp only
  split
  · rw [pendingReport_append, hlines]
    simp [pendingReport, pendingLine]
  · rename_i h
    have : names = [] := by
      cases names with
      | nil => rfl
      | cons a t => simp at h
    subst this
    rfl

theorem pendingMessages_quiet (o : DrainCmdOptions) (d : List String) :
    ∀ ev ∈ pendingMessages o d, drainedLine ev = none ∧ podCallNode ev = none := by
  intro ev hev
  unfold pendingMessages at hev
  dsimp only at hev
  split at hev
  · simp only [List.mem_append, List.mem_singleton, List.mem_map] at hev
    rcases hev with hev | ⟨n, _, hev⟩ <;> subst hev <;> exact ⟨rfl, rfl⟩
  · simp at hev

theorem pendingReport_deleteOrEvictPodsSimple {W : Type} (env : Env W) (o : DrainCmdOptions)
    (i : Info) (w : W) : pendingReport (deleteOrEvictPodsSimple env o i w).trace = [] :=
  filterMap_eq_nil_of_forall _ _ (fun ev hev =>
    pendingLine_of_ofPods i.Name ev (ofPods_deleteOrEvictPodsSimple env o i w ev hev))

theorem drainedReport_deleteOrEvictPodsSimple {W : Type} (env : Env W) (o : DrainCmdOptions)
    (i : Info) (w : W) : drainedReport (deleteOrEvictPodsSimple env o i w).trace = [] :=
  filterMap_eq_nil_of_forall _ _ (fun ev hev =>
    drainedLine_of_ofPods i.Name ev (ofPods_deleteOrEvictPodsSimple env o i w ev hev))

theorem podCallNode_deleteOrEvictPodsSimple {W : Type} (env : Env W) (o : DrainCmdOptions)
    (i : Info) (w : W) (ev : Event) (hev : ev ∈ (deleteOrEvictPodsSimple env o i w).trace)
    (n : String) (hn : podCallNode ev = some n) : n = i.Name := by
  have h := ofPods_deleteOrEvictPodsSimple env o i w ev hev
  cases ev with
  | Fprintf s f a => simp [podCallNode] at hn
  | PrintObj op j => simp [podCallNode] at hn
  | Call m c =>
    simp only [Event.ofPods] at h
    rcases h with ⟨hm, hc | ⟨pods, hc⟩⟩ <;> subst hc <;> simp [podCallNode] at hn <;>
      rw [← hn, hm]

theorem pendingReport_RunCordonOrUncordon {W : Type} (env : Env W) (o : DrainCmdOptions)
    (desired : Bool) (w : W) : pendingReport (RunCordonOrUncordon env o desired w).trace = [] :=
  filterMap_eq_nil_of_forall _ _ (fun ev hev =>
    pendingLine_of_ofCordon ev (ofCordon_RunCordonOrUncordon env o desired w ev hev))

theorem drainedReport_RunCordonOrUncordon {W : Type} (env : Env W) (o : DrainCmdOptions)
    (desired : Bool) (w : W) : drainedReport (RunCordonOrUncordon env o desired w).trace = [] :=
  filterMap_eq_nil_of_forall _ _ (fun ev hev =>
    drainedLine_of_ofCordon ev (ofCordon_RunCordonOrUncordon env o desired w ev hev))

theorem firstDrainFailure_lt {W : Type} (env : Env W) (o : DrainCmdOptions) :
    ∀ (nodes : List Info) (w : W) (k : Nat) (e : Err),
      firstDrainFailure env o nodes w = some (k, e) → k < nodes.length := by
  intro nodes
  induction nodes with
  | nil => intro w k e h; simp [firstDrainFailure] at h
  | cons i rest ih =>
    intro w k e h
    unfold firstDrainFailure at h
    split at h
    · simp only [Option.some.injEq, Prod.mk.injEq] at h
      simp [← h.1]
    · simp only [Option.map_eq_some', Prod.mk.injEq] at h
      obtain ⟨⟨k1, e1⟩, hk1, hk, he⟩ := h
      have := ih _ k1 e1 hk1
      simp only [List.length_cons]
      omega

/-- The run of the loop of `RunDrain` when a failure aborts it: up to the list
of pending nodes, the steps report no pending node, report as drained the nodes
before the failing one, and list and remove pods only for the nodes up to the
failing one; the error is the one of the failing node; and the pending list is
computed from the names of the nodes before the failing one. -/
theorem drainLoop_abort {W : Type} (env : Env W) (o : DrainCmdOptions)
    (habort : (o.drainer.IgnoreErrors && decide (o.nodeInfos.length > 1)) = false) :
    ∀ (nodes : List Info) (drained : List String) (w : W) (k : Nat) (e : Err),
      firstDrainFailure env o nodes w = some (k, e) →
      ∃ pre : List Event,
        (drainLoop env o nodes drained w).trace =
          pre ++ pendingMessages o (((nodes.take k).map Info.Name).reverse ++ drained) ∧
        (drainLoop env o nodes drained w).err = some e ∧
        pendingReport pre = [] ∧
        drainedReport pre = nodes.take k ∧
        ∀ ev ∈ pre, ∀ n, podCallNode ev = some n → n ∈ (nodes.take (k + 1)).map Info.Name := by
  intro nodes
  induction nodes with
  | nil => intro drained w k e h; simp [firstDrainFailure] at h
  | cons i rest ih =>
    intro drained w k e h
    unfold firstDrainFailure at h
    unfold drainLoop
    dsimp only
    split at h
    · rename_i err herr
      simp only [Option.some.injEq, Prod.mk.injEq] at h
      obtain ⟨hk, he⟩ := h
      subst hk
      subst he
      rw [herr]
      dsimp only
      rw [if_neg (by simp [habort])]
      refine ⟨(deleteOrEvictPodsSimple env o i w).trace ++
        [Event.Fprintf Stream.ErrOut "error: unable to drain node %q, aborting command...\n\n"
          [Arg.str i.Name]], by simp, rfl, ?_, ?_, ?_⟩
      · rw [pendingReport_append, pendingReport_deleteOrEvictPodsSimple]
        simp [pendingReport, pendingLine]
      · rw [drainedReport_append, drainedReport_deleteOrEvictPodsSimple]
        simp [drainedReport, drainedLine]
      · intro ev hev n hn
        simp only [List.mem_append, List.mem_singleton] at hev
        rcases hev with hev | hev
        · have := podCallNode_deleteOrEvictPodsSimple env o i w ev hev n hn
          simp [this]
        · subst hev
          simp [podCallNode] at hn
    · rename_i hnone
      simp only [Option.map_eq_some', Prod.mk.injEq] at h
      obtain ⟨⟨k1, e1⟩, hk1, hk, he⟩ := h
      dsimp only at hk he
      subst hk
      subst he
      rw [hnone]
      dsimp only
      obtain ⟨pre, htr, herr, hpend, hdr, hcalls⟩ :=
        ih (i.Name :: drained) (deleteOrEvictPodsSimple env o i w).world k1 e1 hk1
      refine ⟨(deleteOrEvictPodsSimple env o i w).trace ++ [Event.PrintObj "drained" i] ++ pre,
        ?_, herr, ?_, ?_, ?_⟩
      · rw [htr]
        simp
      · rw [pendingReport_append, pendingReport_append, pendingReport_deleteOrEvictPodsSimple,
          hpend]
        simp [pendingReport, pendingLine]
      · rw [drainedReport_append, drainedReport_append, drainedReport_deleteOrEvictPodsSimple,
          hdr]
        simp [drainedReport, drainedLine]
      · intro ev hev n hn
        simp only [List.mem_append, List.mem_singleton] at hev
        rcases hev with (hev | hev) | hev
        · have := podCallNode_deleteOrEvictPodsSimple env o i w ev hev n hn
          simp [this]
        · subst hev
          simp [podCallNode] at hn
        · have := hcalls ev hev n hn
          simp only [List.take_succ_cons, List.map_cons, List.mem_cons]
          exact Or.inr this

theorem RunDrain_of_printer {W : Type} (env : Env W) (o : DrainCmdOptions) (w : W)
    (hprinter : o.ToPrinter "drained" = none) :
    (RunDrain env o w).err =
        (drainLoop env o o.nodeInfos [] (RunCordonOrUncordon env o true w).world).err ∧
      (RunDrain env o w).trace = (RunCordonOrUncordon env o true w).trace ++
        (drainLoop env o o.nodeInfos [] (RunCordonOrUncordon env o true w).world).trace := by
  unfold RunDrain
  simp [RunCordonOrUncordon_err, hprinter]

/-- When `o.ToPrinter("drained")` fails, `RunDrain` returns its error right after
the cordon phase. -/
theorem RunDrain_of_printer_error {W : Type} (env : Env W) (o : DrainCmdOptions) (w : W)
    (e : Err) (hprinter : o.ToPrinter "drained" = some e) :
    (RunDrain env o w).err = some e ∧
      (RunDrain env o w).trace = (RunCordonOrUncordon env o true w).trace ∧
      (RunDrain env o w).world = (RunCordonOrUncordon env o true w).world := by
  unfold RunDrain
  simp [RunCordonOrUncordon_err, hprinter]

theorem firstFailedDrain_some {W : Type} (env : Env W) (o : DrainCmdOptions) (w : W)
    (k : Nat) (e : Err) (h : firstFailedDrain env o w = some (k, e)) :
    o.ToPrinter "drained" = none ∧
      firstDrainFailure env o o.nodeInfos (RunCordonOrUncordon env o true w).world =
        some (k, e) := by
  unfold firstFailedDrain at h
  split at h
  · simp at h
  · rename_i hp
    exact ⟨hp, h⟩

theorem filter_not_drained_eq_drop (l : List Info) (k : Nat)
    (hnames : (l.map Info.Name).Nodup) (d : List String)
    (hd : ∀ n, n ∈ d ↔ n ∈ (l.take k).map Info.Name) :
    l.filter (fun i => !d.contains i.Name) = l.drop k := by
  have hsplit : l = l.take k ++ l.drop k := (List.take_append_drop k l).symm
  have hnd : ((l.take k).map Info.Name ++ (l.drop k).map Info.Name).Nodup := by
    rw [← List.map_append, ← hsplit]
    exact hnames
  have hdis := (List.nodup_append.mp hnd).2.2
  conv_lhs => rw [hsplit]
  rw [List.filter_append]
  have h1 : (l.take k).filter (fun i => !d.contains i.Name) = [] := by
    rw [List.filter_eq_nil_iff]
    intro i hi
    have : i.Name ∈ d := (hd _).mpr (List.mem_map_of_mem _ hi)
    simp [this]
  have h2 : (l.drop k).filter (fun i => !d.contains i.Name) = l.drop k := by
    rw [List.filter_eq_self]
    intro i hi
    have hin : i.Name ∈ (l.drop k).map Info.Name := List.mem_map_of_mem _ hi
    have : i.Name ∉ d := fun hmem => hdis ((hd _).mp hmem) hin
    simp [this]
  rw [h1, h2]
  rfl

/-- The facts about a run of `RunDrain` that a failure aborts, read off the
whole run: the error, the pending list, the drained reports and the nodes of the
pod calls. -/
theorem RunDrain_abort {W : Type} (env : Env W) (o : DrainCmdOptions) (w : W) (k : Nat) (e : Err)
    (habort : (o.drainer.IgnoreErrors && decide (o.nodeInfos.length > 1)) = false)
    (hfirst : firstFailedDrain env o w = some (k, e)) :
    (RunDrain env o w).err = some e ∧
      pendingReport (RunDrain env o w).trace =
        (o.nodeInfos.filter
          (fun i => !(((o.nodeInfos.take k).map Info.Name).reverse).contains i.Name)).map
          Info.Name ∧
      drainedReport (RunDrain env o w).trace = o.nodeInfos.take k ∧
      ∀ ev ∈ (RunDrain env o w).trace, ∀ n, podCallNode ev = some n →
        n ∈ (o.nodeInfos.take (k + 1)).map Info.Name := by
  obtain ⟨hprinter, hfail⟩ := firstFailedDrain_some env o w k e hfirst
  obtain ⟨herr, htrace⟩ := RunDrain_of_printer env o w hprinter
  obtain ⟨pre, hpre, hloopErr, hpend, hdrained, hcalls⟩ :=
    drainLoop_abort env o habort o.nodeInfos [] _ k e hfail
  rw [herr, htrace, hpre]
  refine ⟨hloopErr, ?_, ?_, ?_⟩
  · rw [pendingReport_append, pendingReport_append, pendingReport_RunCordonOrUncordon, hpend,
      pendingReport_pendingMessages]
    simp
  · rw [drainedReport_append, drainedReport_append, drainedReport_RunCordonOrUncordon, hdrained]
    have : drainedReport (pendingMessages o
        (((o.nodeInfos.take k).map Info.Name).reverse ++ [])) = [] :=
      filterMap_eq_nil_of_forall _ _ (fun ev hev => (pendingMessages_quiet o _ ev hev).1)
    rw [this]
    simp
  · intro ev hev n hn
    simp only [List.mem_append] at hev
    rcases hev with hev | hev | hev
    · have := podCallNode_of_ofCordon ev (ofCordon_RunCordonOrUncordon env o true w ev hev)
      rw [this] at hn
      simp at hn
    · exact hcalls ev hev n hn
    · have := (pendingMessages_quiet o _ ev hev).2
      rw [this] at hn
      simp at hn

/-! ## The error policy of `RunDrain` -/

/-- C1, as stated, fails. For the targets [n1, n2, n3] with distinct names and
ignore-errors unset, where the removal of the pods of n2 is refused, n2 (position
1) is the first node whose drain fails, and the pending list that `RunDrain`
reports is [n2, n3]: it is not the list [n3] of the nodes after position 1. -/
theorem RunDrain_pending_after_failing_counterexample :
    ((fleetOptions false ["n1", "n2", "n3"]).nodeInfos.map Info.Name).Nodup ∧
      (fleetOptions false ["n1", "n2", "n3"]).drainer.IgnoreErrors = false ∧
      (firstFailedDrain (fleetEnv ["n2"]) (fleetOptions false ["n1", "n2", "n3"]) []).map
        Prod.fst = some 1 ∧
      pendingReport (RunDrain (fleetEnv ["n2"]) (fleetOptions false ["n1", "n2", "n3"]) []).trace
        = ["n2", "n3"] ∧
      pendingReport (RunDrain (fleetEnv ["n2"]) (fleetOptions false ["n1", "n2", "n3"]) []).trace
        ≠ ((fleetOptions false ["n1", "n2", "n3"]).nodeInfos.drop (1 + 1)).map Info.Name := by
  refine ⟨by decide, rfl, rfl, rfl, by decide⟩

/-- C1 (amended). For every target list of nodes with pairwise distinct names and
ignore-errors unset, if the node at position k is the first whose drain fails,
the pending list that `RunDrain` reports is exactly the nodes from position k
on, in target order: the failing node itself, then the nodes after it. -/
theorem RunDrain_pending_from_failing {W : Type} (env : Env W) (o : DrainCmdOptions) (w : W)
    (k : Nat) (e : Err)
    (hnames : (o.nodeInfos.map Info.Name).Nodup)
    (hignore : o.drainer.IgnoreErrors = false)
    (hfirst : firstFailedDrain env o w = some (k, e)) :
    pendingReport (RunDrain env o w).trace = (o.nodeInfos.drop k).map Info.Name := by
  have habort : (o.drainer.IgnoreErrors && decide (o.nodeInfos.length > 1)) = false := by
    simp [hignore]
  rw [(RunDrain_abort env o w k e habort hfirst).2.1]
  rw [filter_not_drained_eq_drop o.nodeInfos k hnames _ (by intro n; simp)]

/-- C1 (amended), on the fleet [n1, n2, n3] with n2 failing: the pending list
is [n2, n3]. -/
theorem RunDrain_pending_from_failing_witness :
    pendingReport (RunDrain (fleetEnv ["n2"]) (fleetOptions false ["n1", "n2", "n3"]) []).trace
      = ["n2", "n3"] :=
  RunDrain_pending_from_failing (fleetEnv ["n2"]) (fleetOptions false ["n1", "n2", "n3"]) [] 1
    (Err.msg "eviction refused") (by decide) rfl rfl

/-- C2. When `RunDrain` aborts, that is, when a node's drain fails and either
ignore-errors is unset or at most one node is targeted, the error it returns is
exactly the error that the drain of the first failing node produced. -/
theorem RunDrain_returns_first_failure {W : Type} (env : Env W) (o : DrainCmdOptions) (w : W)
    (k : Nat) (e : Err)
    (hmode : o.drainer.IgnoreErrors = false ∨ o.nodeInfos.length ≤ 1)
    (hfirst : firstFailedDrain env o w = some (k, e)) :
    (RunDrain env o w).err = some e := by
  have habort : (o.drainer.IgnoreErrors && decide (o.nodeInfos.length > 1)) = false := by
    rcases hmode with h | h
    · simp [h]
    · simp [Nat.not_lt.mpr h]
  exact (RunDrain_abort env o w k e habort hfirst).1

/-- C2, on the fleet [n1, n2, n3] where the removals on n2 and n3 would both be
refused: the error returned is the one of n2 alone. -/
theorem RunDrain_returns_first_failure_witness :
    (RunDrain (fleetEnv ["n2", "n3"]) (fleetOptions false ["n1", "n2", "n3"]) []).err
      = some (Err.msg "eviction refused") :=
  RunDrain_returns_first_failure (fleetEnv ["n2", "n3"]) (fleetOptions false ["n1", "n2", "n3"])
    [] 1 (Err.msg "eviction refused") (Or.inl rfl) rfl

/-- C4. When `RunDrain` aborts, the pending report lists, in target order, every
target node that has not been reported drained, and no node that has been
reported drained. -/
theorem RunDrain_pending_not_drained {W : Type} (env : Env W) (o : DrainCmdOptions) (w : W)
    (k : Nat) (e : Err)
    (hmode : o.drainer.IgnoreErrors = false ∨ o.nodeInfos.length ≤ 1)
    (hfirst : firstFailedDrain env o w = some (k, e)) :
    pendingReport (RunDrain env o w).trace =
        (o.nodeInfos.map Info.Name).filter
          (fun n => !((drainedReport (RunDrain env o w).trace).map Info.Name).contains n) ∧
      ∀ n ∈ pendingReport (RunDrain env o w).trace,
        n ∉ (drainedReport (RunDrain env o w).trace).map Info.Name := by
  have habort : (o.drainer.IgnoreErrors && decide (o.nodeInfos.length > 1)) = false := by
    rcases hmode with h | h
    · simp [h]
    · simp [Nat.not_lt.mpr h]
  obtain ⟨_, hpending, hdrained, _⟩ := RunDrain_abort env o w k e habort hfirst
  have heq : pendingReport (RunDrain env o w).trace =
      (o.nodeInfos.map Info.Name).filter
        (fun n => !((drainedReport (RunDrain env o w).trace).map Info.Name).contains n) := by
    rw [hpending, hdrained, List.filter_map]
    congr 1
    apply List.filter_congr
    intro i _
    simp
  refine ⟨heq, ?_⟩
  intro n hn
  rw [heq, List.mem_filter] at hn
  simpa using hn.2

/-- C4, on the fleet [n1, n2, n3] with n2 failing: n2 and n3 are pending, n1 is
reported drained and is not listed. -/
theorem RunDrain_pending_not_drained_witness :
    pendingReport (RunDrain (fleetEnv ["n2"]) (fleetOptions false ["n1", "n2", "n3"]) []).trace
        = ["n1", "n2", "n3"].filter (fun n => !(List.contains ["n1"] n)) ∧
      ∀ n ∈ pendingReport
          (RunDrain (fleetEnv ["n2"]) (fleetOptions false ["n1", "n2", "n3"]) []).trace,
        n ∉ ["n1"] :=
  RunDrain_pending_not_drained (fleetEnv ["n2"]) (fleetOptions false ["n1", "n2", "n3"]) [] 1
    (Err.msg "eviction refused") (Or.inl rfl) rfl

/-! ## The loop of `RunDrain` when failures are ignored -/

theorem continuingLine_of_ofCordon (ev : Event) (h : ev.ofCordon) : continuingLine ev = none := by
  unfold continuingLine
  split
  · simp only [Event.ofCordon] at h
    rcases h.2 with h | h | h <;> subst h <;> simp
  · rfl

theorem abortLine_of_ofCordon (ev : Event) (h : ev.ofCordon) : abortLine ev = none := by
  unfold abortLine
  split
  · simp only [Event.ofCordon] at h
    rcases h.2 with h | h | h <;> subst h <;> simp
  · rfl

theorem continuingLine_of_ofPods (node : String) (ev : Event) (h : ev.ofPods node) :
    continuingLine ev = none := by
  unfold continuingLine
  split
  · simp only [Event.ofPods] at h
    rcases h with h | h | h | h | h <;> subst h <;> simp
  · rfl

theorem abortLine_of_ofPods (node : String) (ev : Event) (h : ev.ofPods node) :
    abortLine ev = none := by
  unfold abortLine
  split
  · simp only [Event.ofPods] at h
    rcases h with h | h | h | h | h <;> subst h <;> simp
  · rfl

theorem continuingReport_append (a b : List Event) :
    continuingReport (a ++ b) = continuingReport a ++ continuingReport b := by
  simp [continuingReport, List.filterMap_append]

theorem abortReport_append (a b : List Event) :
    abortReport (a ++ b) = abortReport a ++ abortReport b := by
  simp [abortReport, List.filterMap_append]

theorem drainLoop_continue {W : Type} (env : Env W) (o : DrainCmdOptions)
    (hcont : (o.drainer.IgnoreErrors && decide (o.nodeInfos.length > 1)) = true) :
    ∀ (nodes : List Info) (drained : List String) (w : W),
      (drainLoop env o nodes drained w).trace = continuedTrace (drainEach env o nodes w) ∧
      (drainLoop env o nodes drained w).err = none := by
  intro nodes
  induction nodes with
  | nil => intro drained w; exact ⟨rfl, rfl⟩
  | cons i rest ih =>
    intro drained w
    unfold drainLoop
    dsimp only
    cases herr : (deleteOrEvictPodsSimple env o i w).err with
    | none =>
      dsimp only
      refine ⟨?_, (ih _ _).2⟩
      rw [(ih _ _).1]
      simp [drainEach, continuedTrace, attemptReport, herr]
    | some err =>
      dsimp only
      rw [if_pos hcont]
      dsimp only
      refine ⟨?_, (ih _ _).2⟩
      rw [(ih _ _).1]
      simp [drainEach, continuedTrace, attemptReport, herr]

/-- What the readers see in a batch that goes on over the drains of `nodes`. -/
theorem continuedTrace_reports {W : Type} (env : Env W) (o : DrainCmdOptions) :
    ∀ (nodes : List Info) (w : W),
      drainedReport (continuedTrace (drainEach env o nodes w)) =
          ((drainEach env o nodes w).filter (fun a => a.2.err.isNone)).map Prod.fst ∧
        continuingReport (continuedTrace (drainEach env o nodes w)) =
          (drainEach env o nodes w).filterMap
            (fun a => a.2.err.map (fun err => (a.1.Name, some err))) ∧
        pendingReport (continuedTrace (drainEach env o nodes w)) = [] ∧
        abortReport (continuedTrace (drainEach env o nodes w)) = [] := by
  intro nodes
  induction nodes with
  | nil => intro w; exact ⟨rfl, rfl, rfl, rfl⟩
  | cons i rest ih =>
    intro w
    obtain ⟨h1, h2, h3, h4⟩ := ih (deleteOrEvictPodsSimple env o i w).world
    have hsteps := ofPods_deleteOrEvictPodsSimple env o i w
    have d1 : drainedReport (deleteOrEvictPodsSimple env o i w).trace = [] :=
      drainedReport_deleteOrEvictPodsSimple env o i w
    have d2 : continuingReport (deleteOrEvictPodsSimple env o i w).trace = [] :=
      filterMap_eq_nil_of_forall _ _ (fun ev hev =>
        continuingLine_of_ofPods i.Name ev (hsteps ev hev))
    have d3 : pendingReport (deleteOrEvictPodsSimple env o i w).trace = [] :=
      pendingReport_deleteOrEvictPodsSimple env o i w
    have d4 : abortReport (deleteOrEvictPodsSimple env o i w).trace = [] :=
      filterMap_eq_nil_of_forall _ _ (fun ev hev =>
        abortLine_of_ofPods i.Name ev (hsteps ev hev))
    simp only [drainEach, continuedTrace, drainedReport_append, continuingReport_append,
      pendingReport_append, abortReport_append, d1, d2, d3, d4, h1, h2, h3, h4]
    cases herr : (deleteOrEvictPodsSimple env o i w).err with
    | none =>
      simp [attemptReport, herr, drainedReport, drainedLine, continuingReport, continuingLine,
        pendingReport, pendingLine, abortReport, abortLine]
    | some err =>
      simp [attemptReport, herr, drainedReport, drainedLine, continuingReport, continuingLine,
        pendingReport, pendingLine, abortReport, abortLine]

/-- C5 (as stated), refuted: with ignore-errors set and the three targets
[n1, n2, n3], when `o.ToPrinter("drained")` fails, `RunDrain` attempts no
target at all: no pod is listed or removed, no node is reported drained, no
failure is logged, and the error of the printer is returned. -/
theorem RunDrain_ignore_errors_printer_counterexample :
    (unprintableOptions ["n1", "n2", "n3"]).drainer.IgnoreErrors = true ∧
      (unprintableOptions ["n1", "n2", "n3"]).nodeInfos.length = 3 ∧
      (RunDrain (fleetEnv ["n2"]) (unprintableOptions ["n1", "n2", "n3"]) []).err =
        some (Err.msg "unable to match a printer") ∧
      drainedReport (RunDrain (fleetEnv ["n2"]) (unprintableOptions ["n1", "n2", "n3"]) []).trace =
        [] ∧
      continuingReport
        (RunDrain (fleetEnv ["n2"]) (unprintableOptions ["n1", "n2", "n3"]) []).trace = [] ∧
      callsOf (RunDrain (fleetEnv ["n2"]) (unprintableOptions ["n1", "n2", "n3"]) []).trace =
        [("n1", Call.NewCordonHelperFromRuntimeObject), ("n1", Call.PatchOrReplace false),
         ("n2", Call.NewCordonHelperFromRuntimeObject), ("n2", Call.PatchOrReplace false),
         ("n3", Call.NewCordonHelperFromRuntimeObject), ("n3", Call.PatchOrReplace false)] :=
  ⟨rfl, rfl, rfl, rfl, rfl, rfl⟩

/-- C5 (amended). With ignore-errors set and more than one target node: when
`o.ToPrinter("drained")` succeeds, the drain phase of `RunDrain` is one drain of
every target node, in target order, each followed by its report, whatever fails:
the nodes whose drain succeeds are the ones reported drained, every node whose
drain fails gets a logged error with its name, and the batch is not aborted: no
abort line, no pending list, no error returned. When `o.ToPrinter("drained")`
fails, `RunDrain` returns the error of the printer after the cordon phase and
attempts no target: its steps are those of the cordon phase, none of them a
listing or a removal of pods, and nothing is reported drained or logged as
failed. -/
theorem RunDrain_ignore_errors_goes_on {W : Type} (env : Env W) (o : DrainCmdOptions) (w : W)
    (hignore : o.drainer.IgnoreErrors = true)
    (hmany : 1 < o.nodeInfos.length) :
    (o.ToPrinter "drained" = none →
      (RunDrain env o w).trace =
          (RunCordonOrUncordon env o true w).trace ++
            continuedTrace
              (drainEach env o o.nodeInfos (RunCordonOrUncordon env o true w).world) ∧
        (drainEach env o o.nodeInfos (RunCordonOrUncordon env o true w).world).map Prod.fst =
          o.nodeInfos ∧
        drainedReport (RunDrain env o w).trace =
          ((drainEach env o o.nodeInfos (RunCordonOrUncordon env o true w).world).filter
            (fun a => a.2.err.isNone)).map Prod.fst ∧
        continuingReport (RunDrain env o w).trace =
          (drainEach env o o.nodeInfos (RunCordonOrUncordon env o true w).world).filterMap
            (fun a => a.2.err.map (fun err => (a.1.Name, some err))) ∧
        pendingReport (RunDrain env o w).trace = [] ∧
        abortReport (RunDrain env o w).trace = [] ∧
        (RunDrain env o w).err = none) ∧
      (∀ e, o.ToPrinter "drained" = some e →
        (RunDrain env o w).err = some e ∧
        (RunDrain env o w).trace = (RunCordonOrUncordon env o true w).trace ∧
        drainedReport (RunDrain env o w).trace = [] ∧
        continuingReport (RunDrain env o w).trace = [] ∧
        ∀ ev ∈ (RunDrain env o w).trace, podCallNode ev = none) := by
  have hsteps := ofCordon_RunCordonOrUncordon env o true w
  have c1 : drainedReport (RunCordonOrUncordon env o true w).trace = [] :=
    drainedReport_RunCordonOrUncordon env o true w
  have c2 : continuingReport (RunCordonOrUncordon env o true w).trace = [] :=
    filterMap_eq_nil_of_forall _ _ (fun ev hev => continuingLine_of_ofCordon ev (hsteps ev hev))
  have c3 : pendingReport (RunCordonOrUncordon env o true w).trace = [] :=
    pendingReport_RunCordonOrUncordon env o true w
  have c4 : abortReport (RunCordonOrUncordon env o true w).trace = [] :=
    filterMap_eq_nil_of_forall _ _ (fun ev hev => abortLine_of_ofCordon ev (hsteps ev hev))
  constructor
  · intro hprinter
    have hcont : (o.drainer.IgnoreErrors && decide (o.nodeInfos.length > 1)) = true := by
      simp [hignore, hmany]
    obtain ⟨herr, htrace⟩ := RunDrain_of_printer env o w hprinter
    obtain ⟨hloop, hnone⟩ :=
      drainLoop_continue env o hcont o.nodeInfos [] (RunCordonOrUncordon env o true w).world
    obtain ⟨h1, h2, h3, h4⟩ :=
      continuedTrace_reports env o o.nodeInfos (RunCordonOrUncordon env o true w).world
    have hfst : ∀ (nodes : List Info) (v : W),
        (drainEach env o nodes v).map Prod.fst = nodes := by
      intro nodes
      induction nodes with
      | nil => intro v; rfl
      | cons i rest ih => intro v; simp [drainEach, ih]
    rw [htrace, hloop, herr, hnone]
    refine ⟨rfl, hfst _ _, ?_, ?_, ?_, ?_, rfl⟩
    · rw [drainedReport_append, c1, h1]; rfl
    · rw [continuingReport_append, c2, h2]; rfl
    · rw [pendingReport_append, c3, h3]; rfl
    · rw [abortReport_append, c4, h4]; rfl
  · intro e hprinter
    obtain ⟨herr, htrace, _⟩ := RunDrain_of_printer_error env o w e hprinter
    rw [herr, htrace]
    exact ⟨rfl, rfl, c1, c2, fun ev hev => podCallNode_of_ofCordon ev (hsteps ev hev)⟩

/-- C5 (amended), on the fleet [n1, n2, n3] with n2 failing and ignore-errors
set: n1 and n3 are reported drained, n2 gets its logged error, nothing is
pending; when `o.ToPrinter` fails, the steps of the run are those of the cordon
phase. -/
theorem RunDrain_ignore_errors_goes_on_witness :
    drainedReport (RunDrain (fleetEnv ["n2"]) (fleetOptions true ["n1", "n2", "n3"]) []).trace
        = [fleetNode "n1", fleetNode "n3"] ∧
      continuingReport (RunDrain (fleetEnv ["n2"]) (fleetOptions true ["n1", "n2", "n3"]) []).trace
        = [("n2", some (Err.msg "eviction refused"))] ∧
      pendingReport (RunDrain (fleetEnv ["n2"]) (fleetOptions true ["n1", "n2", "n3"]) []).trace
        = [] ∧
      (RunDrain (fleetEnv ["n2"]) (fleetOptions true ["n1", "n2", "n3"]) []).err = none ∧
      (RunDrain (fleetEnv ["n2"]) (unprintableOptions ["n1", "n2", "n3"]) []).trace =
        (RunCordonOrUncordon (fleetEnv ["n2"]) (unprintableOptions ["n1", "n2", "n3"]) true
          []).trace :=
  have h := (RunDrain_ignore_errors_goes_on (fleetEnv ["n2"])
    (fleetOptions true ["n1", "n2", "n3"]) [] rfl (by decide)).1 rfl
  ⟨h.2.2.1, h.2.2.2.1, h.2.2.2.2.1, h.2.2.2.2.2.2,
    ((RunDrain_ignore_errors_goes_on (fleetEnv ["n2"])
      (unprintableOptions ["n1", "n2", "n3"]) [] rfl (by decide)).2
      (Err.msg "unable to match a printer") rfl).2.1⟩

/-! ## A single target -/

theorem deleteOrEvictPodsSimple_withIgnoreErrors {W : Type} (env : Env W) (o : DrainCmdOptions)
    (b : Bool) (i : Info) (w : W) :
    deleteOrEvictPodsSimple env (o.withIgnoreErrors b) i w = deleteOrEvictPodsSimple env o i w :=
  rfl

theorem cordonLoop_withIgnoreErrors {W : Type} (env : Env W) (o : DrainCmdOptions) (b : Bool)
    (desired : Bool) (s : String) (nodes : List Info) (w : W) :
    cordonLoop env (o.withIgnoreErrors b) desired s nodes w = cordonLoop env o desired s nodes w := by
  induction nodes generalizing w with
  | nil => rfl
  | cons i rest ih =>
    have hnode : cordonOrUncordonNode env (o.withIgnoreErrors b) desired s i w =
        cordonOrUncordonNode env o desired s i w := rfl
    simp only [cordonLoop, hnode, ih]

theorem RunCordonOrUncordon_withIgnoreErrors {W : Type} (env : Env W) (o : DrainCmdOptions)
    (b : Bool) (desired : Bool) (w : W) :
    RunCordonOrUncordon env (o.withIgnoreErrors b) desired w = RunCordonOrUncordon env o desired w := by
  unfold RunCordonOrUncordon
  have hnodes : (o.withIgnoreErrors b).nodeInfos = o.nodeInfos := rfl
  simp only [hnodes, cordonLoop_withIgnoreErrors]

theorem drainLoop_single {W : Type} (env : Env W) (o : DrainCmdOptions) (n : Info)
    (hone : o.nodeInfos = [n]) (w : W) :
    drainLoop env o [n] [] w =
      match (deleteOrEvictPodsSimple env o n w).err with
      | none =>
        { err := none, world := (deleteOrEvictPodsSimple env o n w).world,
          trace := (deleteOrEvictPodsSimple env o n w).trace ++ [Event.PrintObj "drained" n] }
      | some err =>
        { err := some err, world := (deleteOrEvictPodsSimple env o n w).world,
          trace := (deleteOrEvictPodsSimple env o n w).trace ++
            [Event.Fprintf Stream.ErrOut "error: unable to drain node %q, aborting command...\n\n"
              [Arg.str n.Name]] ++ pendingMessages o [] } := by
  unfold drainLoop
  dsimp only
  cases (deleteOrEvictPodsSimple env o n w).err with
  | none => simp [drainLoop]
  | some err => simp [hone]

/-- C6. For a single target node, `RunDrain` does the same, and returns the same,
whether ignore-errors is set or unset; once the printer of "drained" is built,
what it returns is the result of the drain of the node: its error when the drain
fails, no error when it succeeds. -/
theorem RunDrain_single_ignores_flag {W : Type} (env : Env W) (o : DrainCmdOptions) (w : W)
    (n : Info) (hone : o.nodeInfos = [n]) :
    RunDrain env (o.withIgnoreErrors true) w = RunDrain env (o.withIgnoreErrors false) w ∧
      (o.ToPrinter "drained" = none →
        (RunDrain env o w).err =
          (deleteOrEvictPodsSimple env o n (RunCordonOrUncordon env o true w).world).err) := by
  constructor
  · have hone1 : ∀ b, (o.withIgnoreErrors b).nodeInfos = [n] := fun _ => hone
    have hpm : ∀ b, pendingMessages (o.withIgnoreErrors b) [] = pendingMessages o [] :=
      fun _ => rfl
    have hp : ∀ b, (o.withIgnoreErrors b).ToPrinter "drained" = o.ToPrinter "drained" :=
      fun _ => rfl
    unfold RunDrain
    simp only [RunCordonOrUncordon_withIgnoreErrors, hone1, hp, drainLoop_single _ _ n (hone1 _),
      deleteOrEvictPodsSimple_withIgnoreErrors, hpm]
  · intro hprinter
    rw [(RunDrain_of_printer env o w hprinter).1, hone, drainLoop_single env o n hone]
    cases (deleteOrEvictPodsSimple env o n (RunCordonOrUncordon env o true w).world).err <;> rfl

/-- C6, on the single target n2 whose pod removal is refused: the same run with
the flag set and unset, returning the error of n2. -/
theorem RunDrain_single_ignores_flag_witness :
    RunDrain (fleetEnv ["n2"]) ((fleetOptions false ["n2"]).withIgnoreErrors true) [] =
        RunDrain (fleetEnv ["n2"]) ((fleetOptions false ["n2"]).withIgnoreErrors false) [] ∧
      (RunDrain (fleetEnv ["n2"]) (fleetOptions false ["n2"]) []).err =
        some (Err.msg "eviction refused") :=
  have h := RunDrain_single_ignores_flag (fleetEnv ["n2"]) (fleetOptions false ["n2"]) []
    (fleetNode "n2") rfl
  ⟨h.1, h.2 rfl⟩

/-! ## The order of the operations of `RunDrain` -/

theorem callsOf_append (a b : List Event) : callsOf (a ++ b) = callsOf a ++ callsOf b := by
  simp [callsOf, List.filterMap_append]

theorem callsOf_eq_nil_of_forall_Fprintf (l : List Event)
    (h : ∀ ev ∈ l, ∃ s f a, ev = Event.Fprintf s f a) : callsOf l = [] :=
  filterMap_eq_nil_of_forall _ _ (fun ev hev => by
    obtain ⟨s, f, a, rfl⟩ := h ev hev
    rfl)

theorem callsOf_pendingMessages (o : DrainCmdOptions) (d : List String) :
    callsOf (pendingMessages o d) = [] := by
  apply callsOf_eq_nil_of_forall_Fprintf
  intro ev hev
  unfold pendingMessages at hev
  dsimp only at hev
  split at hev
  · simp only [List.mem_append, List.mem_singleton, List.mem_map] at hev
    rcases hev with hev | ⟨n, _, hev⟩
    · exact ⟨_, _, _, hev⟩
    · exact ⟨_, _, _, hev.symm⟩
  · simp at hev

theorem callsOf_deleteOrEvictPodsSimple {W : Type} (env : Env W) (o : DrainCmdOptions)
    (i : Info) (w : W) :
    ∃ block, planThenRemove block ∧ block ≠ [] ∧
      callsOf (deleteOrEvictPodsSimple env o i w).trace = block.map (fun c => (i.Name, c)) := by
  have hwarn : ∀ (l : PodDeleteList), callsOf
      (if l.Warnings ≠ "" then
        [Event.Fprintf Stream.ErrOut "WARNING: %s\n" [Arg.str l.Warnings]]
      else []) = [] := by
    intro l
    split <;> rfl
  unfold deleteOrEvictPodsSimple
  split
  · exact ⟨[Call.GetPodsForDeletion], Or.inr (Or.inl rfl), by simp, rfl⟩
  · rename_i l w1 hget
    dsimp only
    split
    · refine ⟨[Call.GetPodsForDeletion], Or.inr (Or.inl rfl), by simp, ?_⟩
      rw [callsOf_append, callsOf_append, hwarn]
      rw [callsOf_eq_nil_of_forall_Fprintf (l.Pods.map _)]
      · rfl
      · intro ev hev
        simp only [List.mem_map] at hev
        obtain ⟨pod, _, hev⟩ := hev
        exact ⟨_, _, _, hev.symm⟩
    · split
      · refine ⟨[Call.GetPodsForDeletion, Call.DeleteOrEvictPods l.Pods],
          Or.inr (Or.inr ⟨l.Pods, Or.inl rfl⟩), by simp, ?_⟩
        rw [callsOf_append, callsOf_append, hwarn]
        rfl
      · refine ⟨[Call.GetPodsForDeletion, Call.DeleteOrEvictPods l.Pods,
            Call.GetPodsForDeletion],
          Or.inr (Or.inr ⟨l.Pods, Or.inr rfl⟩), by simp, ?_⟩
        rename_i err w2 hdel
        rw [callsOf_append, callsOf_append, callsOf_append, callsOf_append, hwarn]
        have hmap : ∀ pods : List Pod, callsOf (pods.map (fun pendingPod =>
            Event.Fprintf Stream.ErrOut "%s/%s\n" [Arg.str "pod", Arg.str pendingPod.Name])) = [] := by
          intro pods
          apply callsOf_eq_nil_of_forall_Fprintf
          intro ev hev
          simp only [List.mem_map] at hev
          obtain ⟨pod, _, hev⟩ := hev
          exact ⟨_, _, _, hev.symm⟩
        generalize (env.GetPodsForDeletion i.Name w2).1 = again
        have hpending : callsOf
            (match again.pendingList with
            | some pendingList =>
              if pendingList.Pods.length ≠ 0 then
                [Event.Fprintf Stream.ErrOut
                  "There are pending pods in node %q when an error occurred: %v\n"
                  [Arg.str i.Name, Arg.err (some err)]] ++
                pendingList.Pods.map (fun pendingPod =>
                  Event.Fprintf Stream.ErrOut "%s/%s\n" [Arg.str "pod", Arg.str pendingPod.Name])
              else []
            | none => []) = [] := by
          split
          · split
            · rw [callsOf_append, hmap]; rfl
            · rfl
          · rfl
        rw [hpending]
        cases again <;> rfl

theorem drainedInTurn_nil (nodes : List Info) : drainedInTurn nodes [] := by
  induction nodes with
  | nil => rfl
  | cons i rest ih => exact ⟨[], [], rfl, Or.inl rfl, ih⟩

theorem drainLoop_drainedInTurn {W : Type} (env : Env W) (o : DrainCmdOptions) :
    ∀ (nodes : List Info) (drained : List String) (w : W),
      drainedInTurn nodes (callsOf (drainLoop env o nodes drained w).trace) := by
  intro nodes
  induction nodes with
  | nil => intro drained w; rfl
  | cons i rest ih =>
    intro drained w
    obtain ⟨block, hblock, _, hcalls⟩ := callsOf_deleteOrEvictPodsSimple env o i w
    unfold drainLoop
    dsimp only
    cases (deleteOrEvictPodsSimple env o i w).err with
    | none =>
      dsimp only
      refine ⟨block, _, ?_, hblock, ih (i.Name :: drained) (deleteOrEvictPodsSimple env o i w).world⟩
      rw [callsOf_append, callsOf_append, hcalls]
      simp [callsOf, callOf]
    | some err =>
      dsimp only
      split
      · refine ⟨block, _, ?_, hblock, ih drained (deleteOrEvictPodsSimple env o i w).world⟩
        rw [callsOf_append, callsOf_append, hcalls]
        simp [callsOf, callOf]
      · refine ⟨block, [], ?_, hblock, drainedInTurn_nil rest⟩
        rw [callsOf_append, callsOf_append, hcalls, callsOf_pendingMessages]
        simp [callsOf, callOf]

theorem drainedInTurn_positions (targets : List String) (htargets : targets.Nodup) :
    ∀ (nodes : List Info) (before : List String) (calls : List (String × Call)),
      targets = before ++ nodes.map Info.Name → drainedInTurn nodes calls →
      (∀ x ∈ calls, before.length ≤ targets.indexOf x.1) ∧
        calls.Pairwise (fun x y => targets.indexOf x.1 ≤ targets.indexOf y.1) := by
  intro nodes
  induction nodes with
  | nil =>
    intro before calls _ h
    simp only [drainedInTurn] at h
    subst h
    simp
  | cons i rest ih =>
    intro before calls hsplit h
    obtain ⟨block, tail, hcalls, _, htail⟩ := h
    have hsplit1 : targets = (before ++ [i.Name]) ++ rest.map Info.Name := by
      rw [hsplit]; simp
    obtain ⟨hpos, hpair⟩ := ih (before ++ [i.Name]) tail hsplit1 htail
    have hnot : i.Name ∉ before := by
      intro hmem
      rw [hsplit] at htargets
      have := (List.nodup_append.mp htargets).2.2 hmem
      exact this (by simp)
    have hidx : targets.indexOf i.Name = before.length := by
      rw [hsplit, List.indexOf_append_of_not_mem hnot]
      simp
    subst hcalls
    constructor
    · intro x hx
      simp only [List.mem_append, List.mem_map] at hx
      rcases hx with ⟨c, _, hx⟩ | hx
      · subst hx
        simp [hidx]
      · have := hpos x hx
        simp only [List.length_append, List.length_singleton] at this
        omega
    · rw [List.pairwise_append]
      refine ⟨?_, hpair, ?_⟩
      · rw [List.pairwise_map]
        exact List.pairwise_of_forall (fun _ _ => Nat.le_refl _)
      · intro x hx y hy
        simp only [List.mem_map] at hx
        obtain ⟨c, _, hx⟩ := hx
        subst hx
        have := hpos y hy
        simp only [List.length_append, List.length_singleton] at this
        simp only [hidx]
        omega

theorem oneNodeAfterAnother_of_drainedInTurn (nodes : List Info)
    (hnames : (nodes.map Info.Name).Nodup) (calls : List (String × Call))
    (h : drainedInTurn nodes calls) : oneNodeAfterAnother (nodes.map Info.Name) calls := by
  have hpair := (drainedInTurn_positions (nodes.map Info.Name) hnames nodes [] calls
    (by simp) h).2
  unfold oneNodeAfterAnother
  exact hpair.imp (fun hxy hbad => absurd hbad.2 (Nat.not_lt.mpr hxy))

theorem cordonCallNode_drainLoop {W : Type} (env : Env W) (o : DrainCmdOptions) :
    ∀ (nodes : List Info) (drained : List String) (w : W),
      ∀ ev ∈ (drainLoop env o nodes drained w).trace, cordonCallNode ev = none := by
  have hpods : ∀ (i : Info) (w : W), ∀ ev ∈ (deleteOrEvictPodsSimple env o i w).trace,
      cordonCallNode ev = none := by
    intro i w ev hev
    have h := ofPods_deleteOrEvictPodsSimple env o i w ev hev
    cases ev with
    | Fprintf s f a => rfl
    | PrintObj op j => rfl
    | Call n c =>
      simp only [Event.ofPods] at h
      rcases h with ⟨_, hc | ⟨pods, hc⟩⟩ <;> subst hc <;> rfl
  intro nodes
  induction nodes with
  | nil => intro drained w ev hev; simp [drainLoop] at hev
  | cons i rest ih =>
    intro drained w ev hev
    unfold drainLoop at hev
    dsimp only at hev
    cases herr : (deleteOrEvictPodsSimple env o i w).err with
    | none =>
      rw [herr] at hev
      simp only [List.mem_append, List.mem_singleton] at hev
      rcases hev with (hev | hev) | hev
      · exact hpods i w ev hev
      · subst hev; rfl
      · exact ih _ _ ev hev
    | some err =>
      rw [herr] at hev
      dsimp only at hev
      split at hev
      · simp only [List.mem_append, List.mem_singleton] at hev
        rcases hev with (hev | hev) | hev
        · exact hpods i w ev hev
        · subst hev; rfl
        · exact ih _ _ ev hev
      · simp only [List.mem_append, List.mem_singleton] at hev
        rcases hev with (hev | hev) | hev
        · exact hpods i w ev hev
        · subst hev; rfl
        · unfold pendingMessages at hev
          dsimp only at hev
          split at hev
          · simp only [List.mem_append, List.mem_singleton, List.mem_map] at hev
            rcases hev with hev | ⟨n, _, hev⟩ <;> subst hev <;> rfl
          · simp at hev

/-- C7, as stated, fails. On the two schedulable targets [n1, n2], where nothing
fails, the calls of `RunDrain` are: the cordon of n1, the cordon of n2, and only
then the plan and the removal for n1 and the plan and the removal for n2. The
cordon of the later node n2 comes before the Remove of n1, so the calls are not
in the order "one node after another". -/
theorem RunDrain_one_node_after_another_counterexample :
    callsOf (RunDrain (fleetEnv []) (fleetOptions false ["n1", "n2"]) []).trace =
        [("n1", Call.NewCordonHelperFromRuntimeObject), ("n1", Call.PatchOrReplace false),
         ("n2", Call.NewCordonHelperFromRuntimeObject), ("n2", Call.PatchOrReplace false),
         ("n1", Call.GetPodsForDeletion),
         ("n1", Call.DeleteOrEvictPods [{ Namespace := "default", Name := "n1" }]),
         ("n2", Call.GetPodsForDeletion),
         ("n2", Call.DeleteOrEvictPods [{ Namespace := "default", Name := "n2" }])] ∧
      ¬ oneNodeAfterAnother ((fleetOptions false ["n1", "n2"]).nodeInfos.map Info.Name)
        (callsOf (RunDrain (fleetEnv []) (fleetOptions false ["n1", "n2"]) []).trace) := by
  refine ⟨rfl, ?_⟩
  unfold oneNodeAfterAnother
  decide

/-- C7 (amended). `RunDrain` first runs the cordon of all target nodes, as one
`RunCordonOrUncordon(true)` over the whole list, in which no pod is listed or
removed; everything after it contains no cordon operation and handles the nodes
in turn, each as PlanDeletions then Remove; so, the names being distinct, no plan
or remove operation on a later node happens before the Remove of an earlier
node. -/
theorem RunDrain_cordons_all_then_drains_in_turn {W : Type} (env : Env W) (o : DrainCmdOptions)
    (w : W) :
    ∃ drainSteps : List Event,
      (RunDrain env o w).trace = (RunCordonOrUncordon env o true w).trace ++ drainSteps ∧
      (∀ ev ∈ (RunCordonOrUncordon env o true w).trace, podCallNode ev = none) ∧
      (∀ ev ∈ drainSteps, cordonCallNode ev = none) ∧
      drainedInTurn o.nodeInfos (callsOf drainSteps) ∧
      ((o.nodeInfos.map Info.Name).Nodup →
        oneNodeAfterAnother (o.nodeInfos.map Info.Name) (callsOf drainSteps)) := by
  have hcordon : ∀ ev ∈ (RunCordonOrUncordon env o true w).trace, podCallNode ev = none :=
    fun ev hev => podCallNode_of_ofCordon ev (ofCordon_RunCordonOrUncordon env o true w ev hev)
  cases hprinter : o.ToPrinter "drained" with
  | some err =>
    refine ⟨[], ?_, hcordon, by simp, drainedInTurn_nil _, fun _ => List.Pairwise.nil⟩
    unfold RunDrain
    simp [RunCordonOrUncordon_err, hprinter]
  | none =>
    have hturn := drainLoop_drainedInTurn env o o.nodeInfos []
      (RunCordonOrUncordon env o true w).world
    exact ⟨_, (RunDrain_of_printer env o w hprinter).2, hcordon,
      cordonCallNode_drainLoop env o o.nodeInfos [] _, hturn,
      fun hnames => oneNodeAfterAnother_of_drainedInTurn o.nodeInfos hnames _ hturn⟩

/-- C7 (amended), on the two schedulable targets [n1, n2]: after the cordon of
both, the plan and the removal for n1 come before those for n2. -/
theorem RunDrain_cordons_all_then_drains_in_turn_witness :
    ∃ drainSteps : List Event,
      (RunDrain (fleetEnv []) (fleetOptions false ["n1", "n2"]) []).trace =
        (RunCordonOrUncordon (fleetEnv []) (fleetOptions false ["n1", "n2"]) true []).trace ++
          drainSteps ∧
      oneNodeAfterAnother ["n1", "n2"] (callsOf drainSteps) :=
  match RunDrain_cordons_all_then_drains_in_turn (fleetEnv [])
    (fleetOptions false ["n1", "n2"]) [] with
  | ⟨drainSteps, hsplit, _, _, _, horder⟩ => ⟨drainSteps, hsplit, horder (by decide)⟩

/-! ## Client dry run -/

theorem cordonLoop_append {W : Type} (env : Env W) (o : DrainCmdOptions) (desired : Bool)
    (s : String) (a b : List Info) (w : W) :
    cordonLoop env o desired s (a ++ b) w =
      ((cordonLoop env o desired s b (cordonLoop env o desired s a w).1).1,
        (cordonLoop env o desired s a w).2 ++
          (cordonLoop env o desired s b (cordonLoop env o desired s a w).1).2) := by
  induction a generalizing w with
  | nil => simp [cordonLoop]
  | cons i rest ih => simp [cordonLoop, ih]

/-! ## The cordon phase around one target -/

/-- The steps of `RunCordonOrUncordon` around one target: the steps for the
targets before it, the steps of the loop body for it, and the steps for the
targets after it. -/
theorem RunCordonOrUncordon_at {W : Type} (env : Env W) (o : DrainCmdOptions)
    (desired : Bool) (w : W) (before after : List Info) (i : Info)
    (htargets : o.nodeInfos = before ++ i :: after) :
    (RunCordonOrUncordon env o desired w).trace =
      (cordonLoop env o desired (cordonOrUncordon desired) before w).2 ++
        (cordonOrUncordonNode env o desired (cordonOrUncordon desired) i
          (cordonLoop env o desired (cordonOrUncordon desired) before w).1).2 ++
        (cordonLoop env o desired (cordonOrUncordon desired) after
          (cordonOrUncordonNode env o desired (cordonOrUncordon desired) i
            (cordonLoop env o desired (cordonOrUncordon desired) before w).1).1).2 := by
  unfold RunCordonOrUncordon
  dsimp only
  rw [htargets, cordonLoop_append]
  simp [cordonLoop]

theorem cordonOrUncordon_eq (desired : Bool) :
    cordonOrUncordon desired = if desired then "cordon" else "uncordon" := by
  cases desired <;> rfl

theorem already_eq (desired : Bool) :
    already desired = if desired then "already cordoned" else "already uncordoned" := rfl

theorem changed_eq (desired : Bool) :
    changed desired = if desired then "cordoned" else "uncordoned" := rfl

theorem printOrError_eq (o : DrainCmdOptions) (operation errFormat : String) (i : Info) :
    printOrError o operation errFormat i =
      match o.ToPrinter operation with
      | none => [Event.PrintObj operation i]
      | some e => [Event.Fprintf Stream.ErrOut errFormat [Arg.err (some e)]] := by
  unfold printOrError
  cases o.ToPrinter operation <;> rfl

/-- The loop body for a target of kind Node that is already in the desired
state. -/
theorem cordonOrUncordonNode_already {W : Type} (env : Env W) (o : DrainCmdOptions)
    (desired : Bool) (s : String) (i : Info) (c : CordonHelper) (v : W)
    (hkind : i.Kind = "Node")
    (hhelper : env.NewCordonHelperFromRuntimeObject i.Object i.Kind = Except.ok c)
    (hupdate : (env.UpdateIfRequired c desired).2 = false) :
    cordonOrUncordonNode env o desired s i v =
      (v, Event.Call i.Name Call.NewCordonHelperFromRuntimeObject ::
        printOrError o (already desired) "error: %v\n" i) := by
  unfold cordonOrUncordonNode
  rw [if_pos hkind, hhelper]
  dsimp only
  have hpair : env.UpdateIfRequired c desired = ((env.UpdateIfRequired c desired).1, false) := by
    rw [← hupdate]
  rw [hpair]
  rfl

/-- The loop body for a target whose kind is not Node. -/
theorem cordonOrUncordonNode_skipped {W : Type} (env : Env W) (o : DrainCmdOptions)
    (desired : Bool) (s : String) (i : Info) (v : W) (hkind : i.Kind ≠ "Node") :
    cordonOrUncordonNode env o desired s i v = (v, printOrError o "skipped" "%v\n" i) := by
  unfold cordonOrUncordonNode
  rw [if_neg hkind]

/-- The loop body for a target of kind Node whose helper cannot be built. -/
theorem cordonOrUncordonNode_helper_error {W : Type} (env : Env W) (o : DrainCmdOptions)
    (desired : Bool) (s : String) (i : Info) (v : W) (err : Err)
    (hkind : i.Kind = "Node")
    (hhelper : env.NewCordonHelperFromRuntimeObject i.Object i.Kind = Except.error err) :
    cordonOrUncordonNode env o desired s i v =
      (v, [Event.Call i.Name Call.NewCordonHelperFromRuntimeObject,
           Event.Fprintf Stream.ErrOut "error: unable to %s node %q: %v\n"
             [Arg.str s, Arg.str i.Name, Arg.err (some err)]]) := by
  unfold cordonOrUncordonNode
  rw [if_pos hkind, hhelper]
  rfl

/-- The loop body for a target of kind Node that has to change, under server
dry-run, when the probe of dry-run support fails. -/
theorem cordonOrUncordonNode_probe_error {W : Type} (env : Env W) (o : DrainCmdOptions)
    (desired : Bool) (s : String) (i : Info) (c0 c : CordonHelper) (v v1 : W) (err : Err)
    (hdry : o.drainer.DryRunStrategy = DryRunStrategy.DryRunServer)
    (hkind : i.Kind = "Node")
    (hhelper : env.NewCordonHelperFromRuntimeObject i.Object i.Kind = Except.ok c0)
    (hupdate : env.UpdateIfRequired c0 desired = (c, true))
    (hprobe : env.HasSupport i.Kind v = (some err, v1)) :
    cordonOrUncordonNode env o desired s i v =
      (v1, [Event.Call i.Name Call.NewCordonHelperFromRuntimeObject,
            Event.Call i.Name Call.HasSupport,
            Event.Fprintf Stream.ErrOut "error: unable to %s node %q: %v\n"
              [Arg.str s, Arg.str i.Name, Arg.err (some err)]]) := by
  unfold cordonOrUncordonNode
  rw [if_pos hkind, hhelper]
  dsimp only
  rw [hupdate]
  dsimp only
  have hne : o.drainer.DryRunStrategy ≠ DryRunStrategy.DryRunClient := by
    rw [hdry]; decide
  rw [if_pos hne, if_pos hdry, hprobe]
  rfl

/-- The loop body for a target of kind Node starts with the construction of its
helper. -/
theorem cordonOrUncordonNode_node_first {W : Type} (env : Env W) (o : DrainCmdOptions)
    (desired : Bool) (s : String) (i : Info) (v : W) (hkind : i.Kind = "Node") :
    ∃ rest : List Event,
      (cordonOrUncordonNode env o desired s i v).2 =
        Event.Call i.Name Call.NewCordonHelperFromRuntimeObject :: rest := by
  unfold cordonOrUncordonNode
  rw [if_pos hkind]
  split
  · exact ⟨_, rfl⟩
  · split
    · exact ⟨_, rfl⟩
    · split
      · split
        · split
          · exact ⟨_, rfl⟩
          · exact ⟨_, rfl⟩
        · exact ⟨_, rfl⟩
      · exact ⟨_, rfl⟩

/-- C9 (as stated), refuted: on an unschedulable node n1 that is asked to be
cordoned, so that `UpdateIfRequired(true)` returns false, when
`o.ToPrinter("already cordoned")` fails, `RunCordonOrUncordon` does not report
the node with any verb: after the construction of the helper its only step is
the line "error: <error of the printer>" on the error stream. -/
theorem RunCordonOrUncordon_already_counterexample :
    (settledEnv.UpdateIfRequired { node := { Name := "n1", Unschedulable := true } } true).2 =
        false ∧
      (RunCordonOrUncordon settledEnv
        (unprintableTargets
          [{ Name := "n1", Kind := "Node", Object := { Name := "n1", Unschedulable := true } }])
        true ()).trace =
        [Event.Call "n1" Call.NewCordonHelperFromRuntimeObject,
         Event.Fprintf Stream.ErrOut "error: %v\n"
           [Arg.err (some (Err.msg "unable to match a printer"))]] ∧
      reportedVerbs
        (RunCordonOrUncordon settledEnv
          (unprintableTargets
            [{ Name := "n1", Kind := "Node", Object := { Name := "n1", Unschedulable := true } }])
          true ()).trace = [] :=
  ⟨rfl, rfl, rfl⟩

/-- C9 (amended). For every target of kind Node and every desired state, when
the node is already in the desired state, that is, when
`UpdateIfRequired(desired)` returns false on its helper, `RunCordonOrUncordon`
does for that node nothing but build the helper and then, when `o.ToPrinter` of
the verb succeeds, report the node with the verb "already cordoned"
(desired = true) or "already uncordoned" (desired = false), and when it fails,
write the line "error: <error of the printer>" on the error stream without a
report. In both cases there is no `PatchOrReplace` call and no capability probe
for the node, the state of the API server is passed on unchanged to the nodes
after it, and no error is returned. -/
theorem RunCordonOrUncordon_already {W : Type} (env : Env W) (o : DrainCmdOptions)
    (desired : Bool) (w : W) (before after : List Info) (i : Info) (c : CordonHelper)
    (htargets : o.nodeInfos = before ++ i :: after)
    (hkind : i.Kind = "Node")
    (hhelper : env.NewCordonHelperFromRuntimeObject i.Object i.Kind = Except.ok c)
    (hupdate : (env.UpdateIfRequired c desired).2 = false) :
    (RunCordonOrUncordon env o desired w).trace =
        (cordonLoop env o desired (cordonOrUncordon desired) before w).2 ++
          (Event.Call i.Name Call.NewCordonHelperFromRuntimeObject ::
            (match o.ToPrinter (if desired then "already cordoned" else "already uncordoned") with
             | none =>
               [Event.PrintObj (if desired then "already cordoned" else "already uncordoned") i]
             | some e => [Event.Fprintf Stream.ErrOut "error: %v\n" [Arg.err (some e)]])) ++
          (cordonLoop env o desired (cordonOrUncordon desired) after
            (cordonLoop env o desired (cordonOrUncordon desired) before w).1).2 ∧
      (RunCordonOrUncordon env o desired w).err = none := by
  refine ⟨?_, rfl⟩
  rw [RunCordonOrUncordon_at env o desired w before after i htargets,
    cordonOrUncordonNode_already env o desired _ i c _ hkind hhelper hupdate, printOrError_eq,
    already_eq]

/-- C9 (amended), on an unschedulable node n1 that is asked to be cordoned: the
whole run is the construction of the helper and the report "already cordoned". -/
theorem RunCordonOrUncordon_already_witness :
    (RunCordonOrUncordon clusterEnv (plainOptions [clusterNode (fun _ => true) "n1"]) true
        (fun _ => true)).trace =
      [Event.Call "n1" Call.NewCordonHelperFromRuntimeObject,
       Event.PrintObj "already cordoned" (clusterNode (fun _ => true) "n1")] :=
  (RunCordonOrUncordon_already clusterEnv (plainOptions [clusterNode (fun _ => true) "n1"]) true
    (fun _ => true) [] [] (clusterNode (fun _ => true) "n1")
    { node := { Name := "n1", Unschedulable := true } } rfl rfl rfl rfl).1


/-- C11. The verbs reported for self-loops and for actual transitions are
pairwise distinct: changed(true) = "cordoned", changed(false) = "uncordoned",
already(true) = "already cordoned", already(false) = "already uncordoned", the
four differ from one another, and already(d) differs from changed(e) for all
booleans d, e. -/
theorem already_changed_distinct :
    changed true = "cordoned" ∧ changed false = "uncordoned" ∧
      already true = "already cordoned" ∧ already false = "already uncordoned" ∧
      [changed true, changed false, already true, already false].Nodup ∧
      ∀ d e : Bool, already d ≠ changed e := by
  refine ⟨rfl, rfl, rfl, rfl, by decide, ?_⟩
  intro d e
  cases d <;> cases e <;> decide

/-! ## Server dry run -/

theorem callsOf_printOrError (o : DrainCmdOptions) (operation errFormat : String) (i : Info) :
    callsOf (printOrError o operation errFormat i) = [] := by
  unfold printOrError
  split <;> rfl

theorem callsOf_patchOrReplaceNode {W : Type} (env : Env W) (o : DrainCmdOptions)
    (desired : Bool) (s : String) (i : Info) (c : CordonHelper) (w : W) :
    callsOf (patchOrReplaceNode env o desired s i c w).2 =
      [(i.Name, Call.PatchOrReplace
        (decide (o.drainer.DryRunStrategy = DryRunStrategy.DryRunServer)))] := by
  unfold patchOrReplaceNode
  dsimp only
  rw [callsOf_append, callsOf_append]
  have h1 : ∀ pe : Option Err, callsOf
      (match pe with
       | some pe => [printError s i pe]
       | none => []) = [] := by
    intro pe
    cases pe <;> rfl
  have h2 : ∀ e : Option Err, callsOf
      (match e with
       | some e => [printError s i e]
       | none => printOrError o (changed desired) "%v\n" i) = [] := by
    intro e
    cases e
    · exact callsOf_printOrError _ _ _ _
    · rfl
  rw [h1, h2]
  rfl

theorem callsOf_cordonOrUncordonNode_serverDryRun {W : Type} (env : Env W)
    (o : DrainCmdOptions) (hdry : o.drainer.DryRunStrategy = DryRunStrategy.DryRunServer)
    (desired : Bool) (s : String) (i : Info) (w : W) :
    ∃ block, probeThenPatch block ∧
      callsOf (cordonOrUncordonNode env o desired s i w).2 =
        block.map (fun c => (i.Name, c)) := by
  unfold cordonOrUncordonNode
  split
  · split
    · exact ⟨[Call.NewCordonHelperFromRuntimeObject], Or.inr (Or.inl rfl), rfl⟩
    · split
      · refine ⟨[Call.NewCordonHelperFromRuntimeObject], Or.inr (Or.inl rfl), ?_⟩
        rw [callsOf_append, callsOf_printOrError]
        rfl
      · have hne : o.drainer.DryRunStrategy ≠ DryRunStrategy.DryRunClient := by
          rw [hdry]; decide
        rw [if_pos hne]
        split
        · exact ⟨[Call.NewCordonHelperFromRuntimeObject, Call.HasSupport],
            Or.inr (Or.inr (Or.inl rfl)), rfl⟩
        · refine ⟨[Call.NewCordonHelperFromRuntimeObject, Call.HasSupport,
            Call.PatchOrReplace true], Or.inr (Or.inr (Or.inr rfl)), ?_⟩
          dsimp only
          rw [callsOf_append, callsOf_patchOrReplaceNode]
          simp [callsOf, callOf, hdry]
  · exact ⟨[], Or.inl rfl, callsOf_printOrError _ _ _ _⟩

theorem probedInTurn_cordonLoop {W : Type} (env : Env W) (o : DrainCmdOptions)
    (hdry : o.drainer.DryRunStrategy = DryRunStrategy.DryRunServer)
    (desired : Bool) (s : String) :
    ∀ (nodes : List Info) (w : W),
      probedInTurn nodes (callsOf (cordonLoop env o desired s nodes w).2) := by
  intro nodes
  induction nodes with
  | nil => intro w; rfl
  | cons i rest ih =>
    intro w
    obtain ⟨block, hblock, hcalls⟩ :=
      callsOf_cordonOrUncordonNode_serverDryRun env o hdry desired s i w
    refine ⟨block, _, ?_, hblock, ih (cordonOrUncordonNode env o desired s i w).1⟩
    simp only [cordonLoop]
    rw [callsOf_append, hcalls]

/-- C12. Under server dry-run the calls of `RunCordonOrUncordon` are, node after
node, the construction of the helper, then the probe of dry-run support for the
kind of the node, then `PatchOrReplace` with the server-dry-run argument set to
true, so that no `PatchOrReplace` call comes without the probe right before it.
For a target of kind Node that needs the change, at any place among the
targets: when the probe reports no support, the steps of the run for the node
are the construction, the probe and the line "error: unable to cordon node
<name>: <error>" (or "uncordon") on the error stream, without `PatchOrReplace`
call and without report, and the run goes on with the next target; when the
probe succeeds, the next step of the run is the call of `PatchOrReplace` with
the argument true, and no other call is made for the node. -/
theorem RunCordonOrUncordon_probes_server_dry_run {W : Type} (env : Env W)
    (o : DrainCmdOptions) (hdry : o.drainer.DryRunStrategy = DryRunStrategy.DryRunServer)
    (desired : Bool) :
    (∀ w : W, probedInTurn o.nodeInfos (callsOf (RunCordonOrUncordon env o desired w).trace)) ∧
      (∀ (before after : List Info) (i : Info) (c0 c : CordonHelper) (w w1 : W) (err : Err),
        o.nodeInfos = before ++ i :: after →
        i.Kind = "Node" →
        env.NewCordonHelperFromRuntimeObject i.Object i.Kind = Except.ok c0 →
        env.UpdateIfRequired c0 desired = (c, true) →
        env.HasSupport i.Kind (cordonLoop env o desired (cordonOrUncordon desired) before w).1 =
          (some err, w1) →
        (RunCordonOrUncordon env o desired w).trace =
          (cordonLoop env o desired (cordonOrUncordon desired) before w).2 ++
            [Event.Call i.Name Call.NewCordonHelperFromRuntimeObject,
             Event.Call i.Name Call.HasSupport,
             Event.Fprintf Stream.ErrOut "error: unable to %s node %q: %v\n"
               [Arg.str (if desired then "cordon" else "uncordon"), Arg.str i.Name,
                Arg.err (some err)]] ++
            (cordonLoop env o desired (cordonOrUncordon desired) after w1).2) ∧
      (∀ (before after : List Info) (i : Info) (c0 c : CordonHelper) (w w1 : W),
        o.nodeInfos = before ++ i :: after →
        i.Kind = "Node" →
        env.NewCordonHelperFromRuntimeObject i.Object i.Kind = Except.ok c0 →
        env.UpdateIfRequired c0 desired = (c, true) →
        env.HasSupport i.Kind (cordonLoop env o desired (cordonOrUncordon desired) before w).1 =
          (none, w1) →
        ∃ afterCall : List Event,
          (RunCordonOrUncordon env o desired w).trace =
            (cordonLoop env o desired (cordonOrUncordon desired) before w).2 ++
              ([Event.Call i.Name Call.NewCordonHelperFromRuntimeObject,
                Event.Call i.Name Call.HasSupport,
                Event.Call i.Name (Call.PatchOrReplace true)] ++ afterCall) ++
              (cordonLoop env o desired (cordonOrUncordon desired) after
                (env.PatchOrReplace c true w1).2).2 ∧
          callsOf afterCall = []) := by
  refine ⟨fun w => probedInTurn_cordonLoop env o hdry desired _ o.nodeInfos w, ?_, ?_⟩
  · intro before after i c0 c w w1 err htargets hkind hhelper hupdate hprobe
    rw [RunCordonOrUncordon_at env o desired w before after i htargets,
      cordonOrUncordonNode_probe_error env o desired _ i c0 c _ w1 err hdry hkind hhelper
        hupdate hprobe, cordonOrUncordon_eq]
  · intro before after i c0 c w w1 htargets hkind hhelper hupdate hprobe
    have hcalls := callsOf_patchOrReplaceNode env o desired (cordonOrUncordon desired) i c w1
    have hshape : ∃ afterCall,
        (patchOrReplaceNode env o desired (cordonOrUncordon desired) i c w1).2 =
          Event.Call i.Name (Call.PatchOrReplace true) :: afterCall ∧
        (patchOrReplaceNode env o desired (cordonOrUncordon desired) i c w1).1 =
          (env.PatchOrReplace c true w1).2 := by
      unfold patchOrReplaceNode
      simp only [hdry, decide_True]
      rcases env.PatchOrReplace c true w1 with ⟨⟨err, patchErr⟩, w2⟩
      exact ⟨_, rfl, trivial⟩
    obtain ⟨afterCall, hsteps, hworld⟩ := hshape
    have hbody : cordonOrUncordonNode env o desired (cordonOrUncordon desired) i
        (cordonLoop env o desired (cordonOrUncordon desired) before w).1 =
        ((env.PatchOrReplace c true w1).2,
          [Event.Call i.Name Call.NewCordonHelperFromRuntimeObject,
           Event.Call i.Name Call.HasSupport,
           Event.Call i.Name (Call.PatchOrReplace true)] ++ afterCall) := by
      unfold cordonOrUncordonNode
      rw [if_pos hkind, hhelper]
      dsimp only
      rw [hupdate]
      dsimp only
      have hne : o.drainer.DryRunStrategy ≠ DryRunStrategy.DryRunClient := by
        rw [hdry]; decide
      rw [if_pos hne, if_pos hdry, hprobe]
      dsimp only
      rw [hsteps, hworld]
      rfl
    refine ⟨afterCall, ?_, ?_⟩
    · rw [RunCordonOrUncordon_at env o desired w before after i htargets, hbody]
    · rw [hsteps] at hcalls
      simp only [callsOf, List.filterMap_cons, callOf, List.cons.injEq] at hcalls
      exact hcalls.2

/-- C12, on a server dry run over the schedulable nodes n1 and n2 of a cluster
that does not support dry run for the kind Node: for each node the error is
printed after the probe, and no patch is sent. -/
theorem RunCordonOrUncordon_probes_server_dry_run_witness :
    (RunCordonOrUncordon (probeEnv ["Node"]) (serverDryRunOptions [fleetNode "n1", fleetNode "n2"])
        true []).trace =
      [Event.Call "n1" Call.NewCordonHelperFromRuntimeObject,
       Event.Call "n1" Call.HasSupport,
       Event.Fprintf Stream.ErrOut "error: unable to %s node %q: %v\n"
         [Arg.str "cordon", Arg.str "n1", Arg.err (some (Err.msg "dry run is not supported"))],
       Event.Call "n2" Call.NewCordonHelperFromRuntimeObject,
       Event.Call "n2" Call.HasSupport,
       Event.Fprintf Stream.ErrOut "error: unable to %s node %q: %v\n"
         [Arg.str "cordon", Arg.str "n2", Arg.err (some (Err.msg "dry run is not supported"))]] :=
  (RunCordonOrUncordon_probes_server_dry_run (probeEnv ["Node"])
    (serverDryRunOptions [fleetNode "n1", fleetNode "n2"]) rfl true).2.1 [] [fleetNode "n2"]
    (fleetNode "n1")
    { node := { Name := "n1", Unschedulable := false } }
    { node := { Name := "n1", Unschedulable := true } } [] []
    (Err.msg "dry run is not supported") rfl rfl rfl rfl rfl


/-! ## Blocking errors, other kinds, and the pod observer -/

/-- C13. When `GetPodsForDeletion` reports at least one blocking error for a
node, `deleteOrEvictPodsSimple` returns the aggregate of those errors as the
failure of the node, and its only step is that listing: `DeleteOrEvictPods` is
not called for the node, so none of its pods is removed. -/
theorem deleteOrEvictPodsSimple_blocked {W : Type} (env : Env W) (o : DrainCmdOptions)
    (i : Info) (w w1 : W) (list : Option PodDeleteList) (e : Err) (es : List Err)
    (hblocking : env.GetPodsForDeletion i.Name w = (PodsForDeletion.errs list (e :: es), w1)) :
    (deleteOrEvictPodsSimple env o i w).err = NewAggregate (e :: es) ∧
      (deleteOrEvictPodsSimple env o i w).err = some (Err.aggregate (e :: es)) ∧
      (deleteOrEvictPodsSimple env o i w).trace =
        [Event.Call i.Name Call.GetPodsForDeletion] ∧
      (deleteOrEvictPodsSimple env o i w).world = w1 ∧
      ∀ ev ∈ (deleteOrEvictPodsSimple env o i w).trace, ∀ n pods,
        ev ≠ Event.Call n (Call.DeleteOrEvictPods pods) := by
  have hrun : deleteOrEvictPodsSimple env o i w =
      { err := NewAggregate (e :: es), world := w1,
        trace := [Event.Call i.Name Call.GetPodsForDeletion] } := by
    unfold deleteOrEvictPodsSimple
    rw [hblocking]
  rw [hrun]
  refine ⟨rfl, rfl, rfl, rfl, ?_⟩
  intro ev hev n pods heq
  simp only [List.mem_singleton] at hev
  rw [hev] at heq
  simp at heq

/-- C13, on a node that carries a DaemonSet-managed pod: the drain of the node
fails with the aggregate of the one blocking error, after the listing alone. -/
theorem deleteOrEvictPodsSimple_blocked_witness :
    (deleteOrEvictPodsSimple blockedEnv (fleetOptions false ["n1"]) (fleetNode "n1") ()).err =
        some (Err.aggregate [Err.msg "cannot delete DaemonSet-managed Pods"]) ∧
      (deleteOrEvictPodsSimple blockedEnv (fleetOptions false ["n1"]) (fleetNode "n1") ()).trace =
        [Event.Call "n1" Call.GetPodsForDeletion] :=
  have h := deleteOrEvictPodsSimple_blocked blockedEnv (fleetOptions false ["n1"])
    (fleetNode "n1") () () none (Err.msg "cannot delete DaemonSet-managed Pods") [] rfl
  ⟨h.2.1, h.2.2.1⟩

theorem callsOf_cordonOrUncordonNode_kind {W : Type} (env : Env W) (o : DrainCmdOptions)
    (desired : Bool) (s : String) (i : Info) (w : W) :
    ∀ x ∈ callsOf (cordonOrUncordonNode env o desired s i w).2,
      x.1 = i.Name ∧ i.Kind = "Node" := by
  intro x hx
  by_cases hkind : i.Kind = "Node"
  · refine ⟨?_, hkind⟩
    unfold callsOf at hx
    rw [List.mem_filterMap] at hx
    obtain ⟨ev, hev, hcall⟩ := hx
    have hstep := ofCordon_cordonOrUncordonNode env o desired s i w ev hev
    unfold cordonOrUncordonNode at hev
    rw [if_pos hkind] at hev
    have hpatch : ∀ (c : CordonHelper) (v : W),
        ev ∈ (patchOrReplaceNode env o desired s i c v).2 → x.1 = i.Name := by
      intro c v h
      have hc := callsOf_patchOrReplaceNode env o desired s i c v
      have hmem : x ∈ callsOf (patchOrReplaceNode env o desired s i c v).2 := by
        unfold callsOf
        rw [List.mem_filterMap]
        exact ⟨ev, h, hcall⟩
      rw [hc] at hmem
      simp only [List.mem_singleton] at hmem
      rw [hmem]
    have hprint : ∀ (op fmt : String), ev ∈ printOrError o op fmt i → x.1 = i.Name := by
      intro op fmt h
      have hmem : x ∈ callsOf (printOrError o op fmt i) := by
        unfold callsOf
        rw [List.mem_filterMap]
        exact ⟨ev, h, hcall⟩
      rw [callsOf_printOrError] at hmem
      simp at hmem
    have hcase : ∀ c : Call, ev = Event.Call i.Name c → x.1 = i.Name := by
      intro c h
      rw [h] at hcall
      simp only [callOf, Option.some.injEq] at hcall
      rw [← hcall]
    have herr : ∀ err : Err, ev = printError s i err → x.1 = i.Name := by
      intro err h
      rw [h] at hcall
      simp [callOf, printError] at hcall
    split at hev
    · simp only [List.mem_cons, List.mem_singleton, List.not_mem_nil, or_false] at hev
      rcases hev with hev | hev
      · exact hcase _ hev
      · exact herr _ hev
    · split at hev
      · simp only [List.mem_append, List.mem_singleton] at hev
        rcases hev with hev | hev
        · exact hcase _ hev
        · exact hprint _ _ hev
      · split at hev
        · split at hev
          · split at hev
            · simp only [List.mem_cons, List.mem_singleton, List.not_mem_nil, or_false] at hev
              rcases hev with hev | hev | hev
              · exact hcase _ hev
              · exact hcase _ hev
              · exact herr _ hev
            · simp only [List.mem_append, List.mem_cons, List.mem_singleton, List.not_mem_nil,
                or_false] at hev
              rcases hev with (hev | hev) | hev
              · exact hcase _ hev
              · exact hcase _ hev
              · exact hpatch _ _ hev
          · simp only [List.mem_append, List.mem_singleton] at hev
            rcases hev with hev | hev
            · exact hcase _ hev
            · exact hpatch _ _ hev
        · simp only [List.mem_append, List.mem_singleton] at hev
          rcases hev with hev | hev
          · exact hcase _ hev
          · exact hprint _ _ hev
  · exfalso
    unfold cordonOrUncordonNode at hx
    rw [if_neg hkind, callsOf_printOrError] at hx
    simp at hx

theorem callsOf_cordonLoop_kind {W : Type} (env : Env W) (o : DrainCmdOptions)
    (desired : Bool) (s : String) :
    ∀ (nodes : List Info) (w : W), ∀ x ∈ callsOf (cordonLoop env o desired s nodes w).2,
      ∃ i ∈ nodes, i.Name = x.1 ∧ i.Kind = "Node" := by
  intro nodes
  induction nodes with
  | nil => intro w x hx; simp [cordonLoop, callsOf] at hx
  | cons i rest ih =>
    intro w x hx
    simp only [cordonLoop] at hx
    rw [callsOf_append, List.mem_append] at hx
    rcases hx with hx | hx
    · have h := callsOf_cordonOrUncordonNode_kind env o desired s i w x hx
      exact ⟨i, List.mem_cons_self i rest, h.1.symm, h.2⟩
    · obtain ⟨j, hj, hname, hkind⟩ := ih _ x hx
      exact ⟨j, List.mem_cons_of_mem i hj, hname, hkind⟩

/-- C14 (as stated), refuted: for a target of kind Pod, when
`o.ToPrinter("skipped")` fails, `RunCordonOrUncordon` does not report the
target as skipped: its only step is the line with the error of the printer on
the error stream. -/
theorem RunCordonOrUncordon_skips_other_kinds_counterexample :
    (RunCordonOrUncordon (fleetEnv [])
        (unprintableTargets
          [{ Name := "p1", Kind := "Pod", Object := { Name := "p1", Unschedulable := false } }])
        true []).trace =
        [Event.Fprintf Stream.ErrOut "%v\n"
          [Arg.err (some (Err.msg "unable to match a printer"))]] ∧
      reportedVerbs
        (RunCordonOrUncordon (fleetEnv [])
          (unprintableTargets
            [{ Name := "p1", Kind := "Pod", Object := { Name := "p1", Unschedulable := false } }])
          true []).trace = [] :=
  ⟨rfl, rfl⟩

/-- C14 (amended). For every target whose kind is not "Node", at any place
among the targets, the one step of `RunCordonOrUncordon` for it is, when
`o.ToPrinter("skipped")` succeeds, the report of the target as "skipped", and
when it fails, the line with the error of the printer on the error stream; no
construction of the cordon helper, no capability probe and no `PatchOrReplace`
call is made for it, and the state of the API server is passed on unchanged.
The cordon logic runs for the targets of kind "Node" only: every call of a run
is made for a target of kind "Node", and for every such target the run builds
the cordon helper. -/
theorem RunCordonOrUncordon_skips_other_kinds {W : Type} (env : Env W) (o : DrainCmdOptions)
    (desired : Bool) (w : W) (before after : List Info) (i : Info)
    (htargets : o.nodeInfos = before ++ i :: after) :
    (i.Kind ≠ "Node" →
      (RunCordonOrUncordon env o desired w).trace =
        (cordonLoop env o desired (cordonOrUncordon desired) before w).2 ++
          (match o.ToPrinter "skipped" with
           | none => [Event.PrintObj "skipped" i]
           | some e => [Event.Fprintf Stream.ErrOut "%v\n" [Arg.err (some e)]]) ++
          (cordonLoop env o desired (cordonOrUncordon desired) after
            (cordonLoop env o desired (cordonOrUncordon desired) before w).1).2) ∧
      (i.Kind = "Node" →
        ∃ rest : List Event,
          (RunCordonOrUncordon env o desired w).trace =
            (cordonLoop env o desired (cordonOrUncordon desired) before w).2 ++
              Event.Call i.Name Call.NewCordonHelperFromRuntimeObject :: rest) ∧
      (∀ x ∈ callsOf (RunCordonOrUncordon env o desired w).trace,
        ∃ j ∈ o.nodeInfos, j.Name = x.1 ∧ j.Kind = "Node") := by
  refine ⟨?_, ?_, fun x hx => callsOf_cordonLoop_kind env o desired _ o.nodeInfos w x hx⟩
  · intro hkind
    rw [RunCordonOrUncordon_at env o desired w before after i htargets,
      cordonOrUncordonNode_skipped env o desired _ i _ hkind, printOrError_eq]
  · intro hkind
    obtain ⟨rest, hrest⟩ := cordonOrUncordonNode_node_first env o desired
      (cordonOrUncordon desired) i (cordonLoop env o desired (cordonOrUncordon desired) before w).1
      hkind
    refine ⟨rest ++ (cordonLoop env o desired (cordonOrUncordon desired) after
      (cordonOrUncordonNode env o desired (cordonOrUncordon desired) i
        (cordonLoop env o desired (cordonOrUncordon desired) before w).1).1).2, ?_⟩
    rw [RunCordonOrUncordon_at env o desired w before after i htargets, hrest]
    simp only [List.append_assoc, List.cons_append]

/-- C14 (amended), on a target of kind Pod between two nodes: it is reported as
skipped, between the cordons of the nodes, and nothing else happens for it. -/
theorem RunCordonOrUncordon_skips_other_kinds_witness :
    (RunCordonOrUncordon (fleetEnv [])
        (plainOptions [fleetNode "n1",
          { Name := "p1", Kind := "Pod", Object := { Name := "p1", Unschedulable := false } },
          fleetNode "n2"]) true []).trace =
      [Event.Call "n1" Call.NewCordonHelperFromRuntimeObject,
       Event.Call "n1" (Call.PatchOrReplace false),
       Event.PrintObj "cordoned" (fleetNode "n1"),
       Event.PrintObj "skipped"
         { Name := "p1", Kind := "Pod", Object := { Name := "p1", Unschedulable := false } },
       Event.Call "n2" Call.NewCordonHelperFromRuntimeObject,
       Event.Call "n2" (Call.PatchOrReplace false),
       Event.PrintObj "cordoned" (fleetNode "n2")] :=
  (RunCordonOrUncordon_skips_other_kinds (fleetEnv [])
    (plainOptions [fleetNode "n1",
      { Name := "p1", Kind := "Pod", Object := { Name := "p1", Unschedulable := false } },
      fleetNode "n2"]) true [] [fleetNode "n1"] [fleetNode "n2"]
    { Name := "p1", Kind := "Pod", Object := { Name := "p1", Unschedulable := false } }
    rfl).1 (by decide)


/-- C17. Each call of `onPodDeletedOrEvicted(pod, usingEviction)` writes exactly
one notification on the output stream, for that pod and with the verb of the
mechanism: the print of the pod by the printer built for the verb or, when no
printer can be built, the line "pod <namespace>/<name> <verb>"; the verb is
"evicted" if and only if `usingEviction` is true, and "deleted" otherwise. -/
theorem onPodDeletedOrEvicted_one_notification (o : DrainCmdOptions) (pod : Pod)
    (usingEviction : Bool) :
    ∃ verb : String,
      (verb = "evicted" ↔ usingEviction = true) ∧
      (verb = "deleted" ↔ usingEviction = false) ∧
      (onPodDeletedOrEvicted o pod usingEviction).filter PodNotice.onOut =
        (match o.ToPrinter verb with
         | none => [PodNotice.PrintObj verb pod]
         | some _ =>
           [PodNotice.Fprintf Stream.Out "pod %s/%s %s\n"
             [Arg.str pod.Namespace, Arg.str pod.Name, Arg.str verb]]) ∧
      ((onPodDeletedOrEvicted o pod usingEviction).filter PodNotice.onOut).length = 1 := by
  refine ⟨if usingEviction then "evicted" else "deleted", ?_, ?_, ?_, ?_⟩
  · cases usingEviction <;> simp
  · cases usingEviction <;> simp
  · unfold onPodDeletedOrEvicted
    dsimp only
    cases o.ToPrinter (if usingEviction then "evicted" else "deleted") <;>
      simp [PodNotice.onOut]
  · unfold onPodDeletedOrEvicted
    dsimp only
    cases o.ToPrinter (if usingEviction then "evicted" else "deleted") <;>
      simp [PodNotice.onOut]

/-! ## No failed node is dropped silently -/

theorem abortReport_pendingMessages (o : DrainCmdOptions) (d : List String) :
    abortReport (pendingMessages o d) = [] := by
  apply filterMap_eq_nil_of_forall
  intro ev hev
  unfold pendingMessages at hev
  dsimp only at hev
  split at hev
  · simp only [List.mem_append, List.mem_singleton, List.mem_map] at hev
    rcases hev with hev | ⟨n, _, hev⟩
    · subst hev; rfl
    · subst hev; simp [abortLine]
  · simp at hev

theorem abortReport_deleteOrEvictPodsSimple {W : Type} (env : Env W) (o : DrainCmdOptions)
    (i : Info) (w : W) : abortReport (deleteOrEvictPodsSimple env o i w).trace = [] :=
  filterMap_eq_nil_of_forall _ _ (fun ev hev =>
    abortLine_of_ofPods i.Name ev (ofPods_deleteOrEvictPodsSimple env o i w ev hev))

theorem drainLoop_abort_line {W : Type} (env : Env W) (o : DrainCmdOptions)
    (habort : (o.drainer.IgnoreErrors && decide (o.nodeInfos.length > 1)) = false) :
    ∀ (nodes : List Info) (drained : List String) (w : W) (k : Nat) (e : Err),
      firstDrainFailure env o nodes w = some (k, e) →
      ∃ i, nodes[k]? = some i ∧
        abortReport (drainLoop env o nodes drained w).trace = [i.Name] := by
  intro nodes
  induction nodes with
  | nil => intro drained w k e h; simp [firstDrainFailure] at h
  | cons i rest ih =>
    intro drained w k e h
    unfold firstDrainFailure at h
    unfold drainLoop
    dsimp only
    split at h
    · rename_i err herr
      simp only [Option.some.injEq, Prod.mk.injEq] at h
      obtain ⟨hk, _⟩ := h
      subst hk
      rw [herr]
      dsimp only
      rw [if_neg (by simp [habort])]
      refine ⟨i, by simp, ?_⟩
      rw [abortReport_append, abortReport_append, abortReport_deleteOrEvictPodsSimple,
        abortReport_pendingMessages]
      simp [abortReport, abortLine]
    · rename_i hnone
      simp only [Option.map_eq_some', Prod.mk.injEq] at h
      obtain ⟨⟨k1, e1⟩, hk1, hk, _⟩ := h
      dsimp only at hk
      subst hk
      rw [hnone]
      dsimp only
      obtain ⟨j, hj, hline⟩ :=
        ih (i.Name :: drained) (deleteOrEvictPodsSimple env o i w).world k1 e1 hk1
      refine ⟨j, by simpa using hj, ?_⟩
      rw [abortReport_append, abortReport_append, abortReport_deleteOrEvictPodsSimple, hline]
      simp [abortReport, abortLine]

/-- C18 (amended). `RunDrain` never drops a failed node silently. When a
failure aborts the run (ignore-errors unset, or at most one target), the abort
message on the error stream names the failing node, and the name of that node
is in the pending list unless a target of the same name was reported drained
earlier in the run; so it is in the pending list whenever the target names are
distinct. When failures are ignored (ignore-errors set, more than one target,
`o.ToPrinter("drained")` succeeded), every node whose drain fails gets the
"continuing command" message on the error stream, with its name and its error.
When `o.ToPrinter("drained")` fails, no drain is attempted, so none fails: no
pod is listed or removed. -/
theorem RunDrain_names_every_failed_node {W : Type} (env : Env W) (o : DrainCmdOptions)
    (w : W) :
    (∀ (k : Nat) (e : Err),
        (o.drainer.IgnoreErrors = false ∨ o.nodeInfos.length ≤ 1) →
        firstFailedDrain env o w = some (k, e) →
        ∃ i, o.nodeInfos[k]? = some i ∧
          abortReport (RunDrain env o w).trace = [i.Name] ∧
          (i.Name ∈ pendingReport (RunDrain env o w).trace ∨
            i.Name ∈ (drainedReport (RunDrain env o w).trace).map Info.Name) ∧
          ((o.nodeInfos.map Info.Name).Nodup →
            i.Name ∈ pendingReport (RunDrain env o w).trace)) ∧
      (o.drainer.IgnoreErrors = true → 1 < o.nodeInfos.length →
        o.ToPrinter "drained" = none →
        ∀ a ∈ drainEach env o o.nodeInfos (RunCordonOrUncordon env o true w).world,
          ∀ e, a.2.err = some e →
            (a.1.Name, some e) ∈ continuingReport (RunDrain env o w).trace) ∧
      (∀ e, o.ToPrinter "drained" = some e →
        ∀ ev ∈ (RunDrain env o w).trace, podCallNode ev = none) := by
  refine ⟨?_, ?_, ?_⟩
  · intro k e hmode hfirst
    have habort : (o.drainer.IgnoreErrors && decide (o.nodeInfos.length > 1)) = false := by
      rcases hmode with h | h
      · simp [h]
      · simp [Nat.not_lt.mpr h]
    obtain ⟨hprinter, hfail⟩ := firstFailedDrain_some env o w k e hfirst
    obtain ⟨_, hpending, hdrained, _⟩ := RunDrain_abort env o w k e habort hfirst
    obtain ⟨i, hi, hline⟩ := drainLoop_abort_line env o habort o.nodeInfos []
      (RunCordonOrUncordon env o true w).world k e hfail
    have hk : k < o.nodeInfos.length := firstDrainFailure_lt env o _ _ k e hfail
    have hget : o.nodeInfos[k] = i := by
      have := List.getElem?_eq_getElem hk
      rw [this] at hi
      exact Option.some.inj hi
    have hmem : i ∈ o.nodeInfos := by
      rw [← hget]
      exact List.getElem_mem hk
    have habortRun : abortReport (RunDrain env o w).trace = [i.Name] := by
      rw [(RunDrain_of_printer env o w hprinter).2, abortReport_append, hline]
      have : abortReport (RunCordonOrUncordon env o true w).trace = [] :=
        filterMap_eq_nil_of_forall _ _ (fun ev hev =>
          abortLine_of_ofCordon ev (ofCordon_RunCordonOrUncordon env o true w ev hev))
      rw [this]
      rfl
    have hcases : i.Name ∈ pendingReport (RunDrain env o w).trace ∨
        i.Name ∈ (drainedReport (RunDrain env o w).trace).map Info.Name := by
      rw [hpending, hdrained]
      by_cases hin : i.Name ∈ (o.nodeInfos.take k).map Info.Name
      · exact Or.inr hin
      · refine Or.inl ?_
        rw [List.mem_map]
        refine ⟨i, ?_, rfl⟩
        rw [List.mem_filter]
        refine ⟨hmem, ?_⟩
        simpa using hin
    refine ⟨i, hi, habortRun, hcases, ?_⟩
    intro hnames
    rw [hpending, filter_not_drained_eq_drop o.nodeInfos k hnames _ (by intro n; simp)]
    rw [List.mem_map]
    refine ⟨i, ?_, rfl⟩
    have hdrop : o.nodeInfos.drop k = i :: o.nodeInfos.drop (k + 1) := by
      rw [← hget]
      exact List.drop_eq_getElem_cons hk
    rw [hdrop]
    exact List.mem_cons_self _ _
  · intro hignore hmany hprinter a ha e herr
    have hcont : (o.drainer.IgnoreErrors && decide (o.nodeInfos.length > 1)) = true := by
      simp [hignore, hmany]
    obtain ⟨hloop, _⟩ :=
      drainLoop_continue env o hcont o.nodeInfos [] (RunCordonOrUncordon env o true w).world
    obtain ⟨_, h2, _, _⟩ :=
      continuedTrace_reports env o o.nodeInfos (RunCordonOrUncordon env o true w).world
    rw [(RunDrain_of_printer env o w hprinter).2, continuingReport_append, hloop, h2]
    apply List.mem_append_right
    rw [List.mem_filterMap]
    exact ⟨a, ha, by simp [herr]⟩
  · intro e hprinter ev hev
    rw [(RunDrain_of_printer_error env o w e hprinter).2.1] at hev
    exact podCallNode_of_ofCordon ev (ofCordon_RunCordonOrUncordon env o true w ev hev)

/-- C18 (amended), on the fleet [n1, n2, n3] with n2 failing: without ignore-errors the
abort message names n2 and n2 is pending; with ignore-errors n2 gets its
"continuing command" message. -/
theorem RunDrain_names_every_failed_node_witness :
    (∃ i, (fleetOptions false ["n1", "n2", "n3"]).nodeInfos[1]? = some i ∧
        abortReport
          (RunDrain (fleetEnv ["n2"]) (fleetOptions false ["n1", "n2", "n3"]) []).trace =
          [i.Name] ∧
        i.Name ∈ pendingReport
          (RunDrain (fleetEnv ["n2"]) (fleetOptions false ["n1", "n2", "n3"]) []).trace) ∧
      ("n2", some (Err.msg "eviction refused")) ∈ continuingReport
        (RunDrain (fleetEnv ["n2"]) (fleetOptions true ["n1", "n2", "n3"]) []).trace :=
  ⟨match (RunDrain_names_every_failed_node (fleetEnv ["n2"])
      (fleetOptions false ["n1", "n2", "n3"]) []).1 1 (Err.msg "eviction refused")
      (Or.inl rfl) rfl with
    | ⟨i, hi, hline, _, hpending⟩ => ⟨i, hi, hline, hpending (by decide)⟩,
   (RunDrain_names_every_failed_node (fleetEnv ["n2"])
      (fleetOptions true ["n1", "n2", "n3"]) []).2.1 rfl (by decide) rfl
      (fleetNode "n2", deleteOrEvictPodsSimple (fleetEnv ["n2"])
        (fleetOptions true ["n1", "n2", "n3"]) (fleetNode "n2")
        [{ Namespace := "default", Name := "n1" }])
      (by simp [drainEach, fleetOptions, RunCordonOrUncordon, cordonLoop, cordonOrUncordonNode,
        patchOrReplaceNode, fleetEnv, fleetNode, deleteOrEvictPodsSimple,
        CordonHelper.UpdateIfRequired, printOrError])
      (Err.msg "eviction refused") rfl⟩

/-- C18 (as stated), refuted: the same node n1 is targeted twice, its first
drain succeeds and its second fails, without ignore-errors. The abort message
names n1, but n1 has no entry in the pending list: no pending list is printed,
the name being among the drained. -/
theorem RunDrain_repeated_target_counterexample :
    firstFailedDrain secondRemovalFailsEnv (fleetOptions false ["n1", "n1"]) 0 =
        some (1, Err.msg "eviction refused") ∧
      (RunDrain secondRemovalFailsEnv (fleetOptions false ["n1", "n1"]) 0).err =
        some (Err.msg "eviction refused") ∧
      abortReport (RunDrain secondRemovalFailsEnv (fleetOptions false ["n1", "n1"]) 0).trace =
        ["n1"] ∧
      pendingReport (RunDrain secondRemovalFailsEnv (fleetOptions false ["n1", "n1"]) 0).trace =
        [] ∧
      continuingReport
        (RunDrain secondRemovalFailsEnv (fleetOptions false ["n1", "n1"]) 0).trace = [] ∧
      (drainedReport (RunDrain secondRemovalFailsEnv (fleetOptions false ["n1", "n1"]) 0).trace).map
        Info.Name = ["n1"] := by
  refine ⟨rfl, rfl, rfl, rfl, rfl, rfl⟩

/-! ## `Complete` -/

/-- C15. `Complete` fails with a usage error, having made no call at all, so
before any client is built and before any node is resolved, whenever at least
one node name is given together with a non-empty `--selector`, and also whenever
no node name is given and `--selector` was not set. -/
theorem Complete_usage_error (env : CompleteEnv) (o : DrainCmdOptions) (cmd : Command)
    (args : List String) :
    (args.length > 0 → o.drainer.Selector ≠ "" →
        (Complete env o cmd args).err =
          some (env.UsageErrorf cmd
            "error: cannot specify both a node name and a --selector option") ∧
        (Complete env o cmd args).calls = []) ∧
      (args.length = 0 → cmd.selectorChanged = false →
        (Complete env o cmd args).err =
          some (env.UsageErrorf cmd ("USAGE: " ++ cmd.Use ++ " [flags]")) ∧
        (Complete env o cmd args).calls = []) := by
  constructor
  · intro hargs hselector
    unfold Complete
    rw [if_neg (by omega), if_pos ⟨hargs, hselector⟩]
    exact ⟨rfl, rfl⟩
  · intro hargs hchanged
    unfold Complete
    rw [if_pos ⟨hargs, by simp [hchanged]⟩]
    exact ⟨rfl, rfl⟩

/-- C15, on `drain n1 --selector=a=b` and on `drain` without argument and
selector: both end in a usage error without any call. -/
theorem Complete_usage_error_witness :
    (Complete (plainCompleteEnv []) (flagOptions "a=b" "") (drainCmd true) ["n1"]).calls = [] ∧
      (Complete (plainCompleteEnv []) (flagOptions "" "") (drainCmd false) []).calls = [] :=
  ⟨((Complete_usage_error (plainCompleteEnv []) (flagOptions "a=b" "") (drainCmd true)
      ["n1"]).1 (by decide) (by decide)).2,
   ((Complete_usage_error (plainCompleteEnv []) (flagOptions "" "") (drainCmd false)
      []).2 rfl rfl).2⟩

theorem resolveTargets_calls (env : CompleteEnv) (o : DrainCmdOptions) (args : List String)
    (calls : List CompleteCall) :
    ∃ more, (resolveTargets env o args calls).calls = calls ++ more ∧
      ∀ c ∈ more, ∀ selector, c ≠ CompleteCall.Parse selector := by
  unfold resolveTargets
  dsimp only
  split
  · exact ⟨_, rfl, by simp⟩
  · split
    · exact ⟨_, rfl, by simp⟩
    · exact ⟨_, rfl, by simp⟩

theorem Complete_malformed_pod_selector (env : CompleteEnv) (o : DrainCmdOptions)
    (cmd : Command) (args : List String) (e : Err)
    (hset : o.drainer.PodSelector ≠ "")
    (hmalformed : env.Parse o.drainer.PodSelector = some e) :
    (Complete env o cmd args).err ≠ none ∧
      (Complete env o cmd args).options.nodeInfos = o.nodeInfos ∧
      (∀ c ∈ (Complete env o cmd args).calls,
        c ≠ CompleteCall.Visit ∧ ∀ ns names selector, c ≠ CompleteCall.Do ns names selector) ∧
      (¬ (args.length = 0 ∧ ¬ cmd.selectorChanged = true) →
        ¬ (args.length > 0 ∧ o.drainer.Selector ≠ "") →
        env.GetDryRunStrategy.2 = none → env.DynamicClient = none →
        env.KubernetesClientSet = none →
        (Complete env o cmd args).err =
          some (Err.msg "--pod-selector=<pod_selector> must be a valid label selector")) := by
  unfold Complete
  by_cases h1 : args.length = 0 ∧ ¬ cmd.selectorChanged = true
  · rw [if_pos h1]
    exact ⟨by simp, rfl, by simp, fun h => absurd h1 h⟩
  · rw [if_neg h1]
    by_cases h2 : args.length > 0 ∧ o.drainer.Selector ≠ ""
    · rw [if_pos h2]
      exact ⟨by simp, rfl, by simp, fun _ h => absurd h2 h⟩
    · rw [if_neg h2]
      dsimp only
      cases h3 : env.GetDryRunStrategy.2 with
      | some err => exact ⟨by simp, rfl, by simp, fun _ _ h => by simp at h⟩
      | none =>
        dsimp only
        cases h4 : env.DynamicClient with
        | some err => exact ⟨by simp, rfl, by simp, fun _ _ _ h => by simp at h⟩
        | none =>
          dsimp only
          cases h5 : env.KubernetesClientSet with
          | some err => exact ⟨by simp, rfl, by simp, fun _ _ _ _ h => by simp at h⟩
          | none =>
            dsimp only
            rw [if_pos hset, hmalformed]
            exact ⟨by simp, rfl, by simp, fun _ _ _ _ _ => rfl⟩

/-- The error of `Complete` on a pod selector that `labels.Parse` refuses: the
error of the first check that fails, the check of the pod selector being the
sixth. -/
theorem Complete_malformed_err (env : CompleteEnv) (o : DrainCmdOptions)
    (cmd : Command) (args : List String) (e : Err)
    (hset : o.drainer.PodSelector ≠ "")
    (hmalformed : env.Parse o.drainer.PodSelector = some e) :
    (Complete env o cmd args).err =
      if args.length = 0 ∧ ¬ cmd.selectorChanged = true then
        some (env.UsageErrorf cmd ("USAGE: " ++ cmd.Use ++ " [flags]"))
      else if args.length > 0 ∧ o.drainer.Selector ≠ "" then
        some (env.UsageErrorf cmd "error: cannot specify both a node name and a --selector option")
      else
        match env.GetDryRunStrategy.2 with
        | some err => some err
        | none =>
          match env.DynamicClient with
          | some err => some err
          | none =>
            match env.KubernetesClientSet with
            | some err => some err
            | none =>
              some (Err.msg "--pod-selector=<pod_selector> must be a valid label selector") := by
  unfold Complete
  by_cases h1 : args.length = 0 ∧ ¬ cmd.selectorChanged = true
  · rw [if_pos h1, if_pos h1]
  · rw [if_neg h1, if_neg h1]
    by_cases h2 : args.length > 0 ∧ o.drainer.Selector ≠ ""
    · rw [if_pos h2, if_pos h2]
    · rw [if_neg h2, if_neg h2]
      dsimp only
      cases h3 : env.GetDryRunStrategy.2 with
      | some err => rfl
      | none =>
        dsimp only
        cases h4 : env.DynamicClient with
        | some err => rfl
        | none =>
          dsimp only
          cases h5 : env.KubernetesClientSet with
          | some err => rfl
          | none =>
            dsimp only
            rw [if_pos hset, hmalformed]

theorem visitNodes_withParse (env : CompleteEnv) (parse : String → Option Err) :
    ∀ (objects : List (Except Err Visited)) (nodeInfos : List Info),
      visitNodes (env.withParse parse) objects nodeInfos = visitNodes env objects nodeInfos := by
  intro objects
  induction objects with
  | nil => intro nodeInfos; rfl
  | cons x rest ih =>
    intro nodeInfos
    cases x with
    | error err => rfl
    | ok v =>
      simp only [visitNodes, ih]
      rfl

theorem resolveTargets_withParse (env : CompleteEnv) (parse : String → Option Err)
    (o : DrainCmdOptions) (args : List String) (calls : List CompleteCall) :
    resolveTargets (env.withParse parse) o args calls = resolveTargets env o args calls := by
  unfold resolveTargets
  simp only [visitNodes_withParse]
  rfl

theorem Complete_empty_pod_selector (env : CompleteEnv) (o : DrainCmdOptions)
    (cmd : Command) (args : List String) (hempty : o.drainer.PodSelector = "") :
    (∀ c ∈ (Complete env o cmd args).calls, ∀ selector, c ≠ CompleteCall.Parse selector) ∧
      ∀ parse, Complete (env.withParse parse) o cmd args = Complete env o cmd args := by
  have hnot : ¬ ({ o with drainer :=
      { o.drainer with DryRunStrategy := env.GetDryRunStrategy.1 } } :
        DrainCmdOptions).drainer.PodSelector ≠ "" := by
    simp [hempty]
  constructor
  · unfold Complete
    split
    · simp
    · split
      · simp
      · dsimp only
        split
        · simp
        · split
          · simp
          · split
            · simp
            · rw [if_neg hnot]
              obtain ⟨more, hcalls, hmore⟩ := resolveTargets_calls env
                { o with drainer := { o.drainer with DryRunStrategy := env.GetDryRunStrategy.1 } }
                args [CompleteCall.GetDryRunStrategy, CompleteCall.DynamicClient,
                  CompleteCall.KubernetesClientSet]
              rw [hcalls]
              intro c hc selector
              rw [List.mem_append] at hc
              rcases hc with hc | hc
              · simp only [List.mem_cons, List.mem_singleton, List.not_mem_nil, or_false] at hc
                rcases hc with hc | hc | hc <;> subst hc <;> simp
              · exact hmore c hc selector
  · intro parse
    have hnot1 : ¬ ({ o with drainer :=
        { o.drainer with DryRunStrategy := (env.withParse parse).GetDryRunStrategy.1 } } :
          DrainCmdOptions).drainer.PodSelector ≠ "" := by
      simp [hempty]
    unfold Complete
    dsimp only
    rw [if_neg hnot, if_neg hnot1, resolveTargets_withParse]
    rfl

/-- C16 (as stated), refuted: `drain --pod-selector='!!'` without a node name
and without `--selector`. The pod selector is not empty and `labels.Parse`
refuses it, yet `Complete` fails with the usage error of its first check, not
with the validation error of the pod selector, and `labels.Parse` is not
called. -/
theorem Complete_pod_selector_usage_counterexample :
    (flagOptions "" "!!").drainer.PodSelector ≠ "" ∧
      (plainCompleteEnv ["!!"]).Parse (flagOptions "" "!!").drainer.PodSelector =
        some (Err.msg "unable to parse requirement") ∧
      (Complete (plainCompleteEnv ["!!"]) (flagOptions "" "!!") (drainCmd false) []).err =
        some ((plainCompleteEnv ["!!"]).UsageErrorf (drainCmd false)
          "USAGE: drain NODE [flags]") ∧
      (Complete (plainCompleteEnv ["!!"]) (flagOptions "" "!!") (drainCmd false) []).err ≠
        some (Err.msg "--pod-selector=<pod_selector> must be a valid label selector") ∧
      (Complete (plainCompleteEnv ["!!"]) (flagOptions "" "!!") (drainCmd false) []).calls =
        [] := by
  refine ⟨by decide, rfl, rfl, ?_, rfl⟩
  intro h
  have hmsg := Err.msg.inj (Option.some.inj h)
  exact absurd hmsg (by decide)

/-- C16 (amended). When a non-empty `--pod-selector` is not a well-formed label
query, that is, when `labels.Parse` refuses it, `Complete` fails without having
resolved any node, so the command ends before any node is cordoned or has its
pods listed and the failure is not a blocking error of a node. The error is
that of the first check that fails: the usage error when no node name is given
and `--selector` is not set, or when a node name is given together with a
selector; then the error of the dry-run flag, of the dynamic client or of the
client set; and, once all of these have passed, the validation error
"--pod-selector=<pod_selector> must be a valid label selector". An empty
pod-selector is never rejected: `labels.Parse` is not called, and `Complete`
does the same whatever it would answer. -/
theorem Complete_validates_pod_selector (env : CompleteEnv) (o : DrainCmdOptions)
    (cmd : Command) (args : List String) :
    (∀ e : Err, o.drainer.PodSelector ≠ "" → env.Parse o.drainer.PodSelector = some e →
        (Complete env o cmd args).err ≠ none ∧
        (∀ c ∈ (Complete env o cmd args).calls,
          c ≠ CompleteCall.Visit ∧ ∀ ns names selector, c ≠ CompleteCall.Do ns names selector) ∧
        (∀ (W : Type) (renv : Env W) (w : W),
          (runDrainCommand env renv o cmd args w).trace = [] ∧
          (runDrainCommand env renv o cmd args w).world = w ∧
          (runDrainCommand env renv o cmd args w).err = (Complete env o cmd args).err) ∧
        (¬ (args.length = 0 ∧ ¬ cmd.selectorChanged = true) →
          ¬ (args.length > 0 ∧ o.drainer.Selector ≠ "") →
          env.GetDryRunStrategy.2 = none → env.DynamicClient = none →
          env.KubernetesClientSet = none →
          (Complete env o cmd args).err =
            some (Err.msg "--pod-selector=<pod_selector> must be a valid label selector")) ∧
        (Complete env o cmd args).err =
          if args.length = 0 ∧ ¬ cmd.selectorChanged = true then
            some (env.UsageErrorf cmd ("USAGE: " ++ cmd.Use ++ " [flags]"))
          else if args.length > 0 ∧ o.drainer.Selector ≠ "" then
            some (env.UsageErrorf cmd
              "error: cannot specify both a node name and a --selector option")
          else
            match env.GetDryRunStrategy.2 with
            | some err => some err
            | none =>
              match env.DynamicClient with
              | some err => some err
              | none =>
                match env.KubernetesClientSet with
                | some err => some err
                | none =>
                  some (Err.msg
                    "--pod-selector=<pod_selector> must be a valid label selector")) ∧
      (o.drainer.PodSelector = "" →
        (∀ c ∈ (Complete env o cmd args).calls, ∀ selector, c ≠ CompleteCall.Parse selector) ∧
        ∀ parse, Complete (env.withParse parse) o cmd args = Complete env o cmd args) := by
  constructor
  · intro e hset hmalformed
    obtain ⟨herr, _, hcalls, hmsg⟩ :=
      Complete_malformed_pod_selector env o cmd args e hset hmalformed
    refine ⟨herr, hcalls, ?_, hmsg, Complete_malformed_err env o cmd args e hset hmalformed⟩
    intro W renv w
    unfold runDrainCommand
    dsimp only
    cases hc : (Complete env o cmd args).err with
    | none => exact absurd hc herr
    | some err => exact ⟨rfl, rfl, rfl⟩
  · exact Complete_empty_pod_selector env o cmd args

/-- C16 (amended), on `drain n1 --pod-selector='!!'`, which `labels.Parse`
refuses: the command ends with the validation error and without any step on a
node. -/
theorem Complete_validates_pod_selector_witness :
    (Complete (plainCompleteEnv ["!!"]) (flagOptions "" "!!") (drainCmd false) ["n1"]).err =
        some (Err.msg "--pod-selector=<pod_selector> must be a valid label selector") ∧
      (runDrainCommand (plainCompleteEnv ["!!"]) (fleetEnv []) (flagOptions "" "!!")
        (drainCmd false) ["n1"] []).trace = [] :=
  have h := (Complete_validates_pod_selector (plainCompleteEnv ["!!"]) (flagOptions "" "!!")
    (drainCmd false) ["n1"]).1 (Err.msg "unable to parse requirement") (by decide) rfl
  ⟨h.2.2.2.1 (by decide) (by decide) rfl rfl rfl, (h.2.2.1 (List Pod) (fleetEnv []) []).1⟩


/-! ## The error of a failed removal -/

/-- C27. When the first listing of the pods of a node succeeds, the run is not a
client dry run and `DeleteOrEvictPods` fails with `err`, then
`deleteOrEvictPodsSimple` returns exactly `err`, whatever the second call of
`GetPodsForDeletion` returns; when that call returns errors, they are written
to `ErrOut` in one line as their aggregate, after which nothing more happens,
and the state left is the one the second listing left. -/
theorem deleteOrEvictPodsSimple_returns_removal_error {W : Type} (env : Env W)
    (o : DrainCmdOptions) (i : Info) (w w1 w2 : W) (list : PodDeleteList) (err : Err)
    (hlist : env.GetPodsForDeletion i.Name w = (PodsForDeletion.list list, w1))
    (hdry : o.drainer.DryRunStrategy ≠ DryRunStrategy.DryRunClient)
    (hremove : env.DeleteOrEvictPods list.Pods w1 = (some err, w2)) :
    (deleteOrEvictPodsSimple env o i w).err = some err ∧
      (deleteOrEvictPodsSimple env o i w).world = (env.GetPodsForDeletion i.Name w2).2 ∧
      (∀ (pending : Option PodDeleteList) (newErrs : List Err),
        (env.GetPodsForDeletion i.Name w2).1 = PodsForDeletion.errs pending newErrs →
        ∃ front : List Event,
          (deleteOrEvictPodsSimple env o i w).trace = front ++
            [Event.Fprintf Stream.ErrOut
              "Following errors occurred while getting the list of pods to delete:\n%s"
              [Arg.err (NewAggregate newErrs)]]) := by
  unfold deleteOrEvictPodsSimple
  rw [hlist]
  dsimp only
  rw [if_neg hdry, hremove]
  dsimp only
  refine ⟨rfl, rfl, ?_⟩
  intro pending newErrs hagain
  rw [hagain]
  exact ⟨_, rfl⟩

/-- C27, on a cluster that refuses the removal and then fails to list the pods
again: the drain of the node returns the removal error alone, and the listing
error is the last line written. -/
theorem deleteOrEvictPodsSimple_returns_removal_error_witness :
    (deleteOrEvictPodsSimple relistFailsEnv (fleetOptions false ["n1"]) (fleetNode "n1") 0).err =
        some (Err.msg "eviction refused") ∧
      (deleteOrEvictPodsSimple relistFailsEnv (fleetOptions false ["n1"]) (fleetNode "n1")
          0).trace =
        [Event.Call "n1" Call.GetPodsForDeletion,
         Event.Call "n1" (Call.DeleteOrEvictPods [{ Namespace := "default", Name := "n1" }]),
         Event.Call "n1" Call.GetPodsForDeletion,
         Event.Fprintf Stream.ErrOut
           "Following errors occurred while getting the list of pods to delete:\n%s"
           [Arg.err (some (Err.aggregate [Err.msg "cannot list pods"]))]] :=
  ⟨(deleteOrEvictPodsSimple_returns_removal_error relistFailsEnv (fleetOptions false ["n1"])
      (fleetNode "n1") 0 0 1 { Pods := [{ Namespace := "default", Name := "n1" }], Warnings := "" }
      (Err.msg "eviction refused") rfl (by decide) rfl).1, rfl⟩

/-! ## The two steps of patch-then-replace -/

/-- The loop body of `RunCordonOrUncordon` for a node of kind Node whose helper
is built and has to change the node, outside a client dry run: the helper is
built, the capability is probed under a server dry run, and the rest is
`patchOrReplaceNode` from the state `wp` the probe left. -/
theorem cordonOrUncordonNode_patched {W : Type} (env : Env W) (o : DrainCmdOptions)
    (desired : Bool) (s : String) (n : Info) (c0 c : CordonHelper) (w0 wp : W)
    (hkind : n.Kind = "Node")
    (hhelper : env.NewCordonHelperFromRuntimeObject n.Object n.Kind = Except.ok c0)
    (hupdate : env.UpdateIfRequired c0 desired = (c, true))
    (hprobe : (o.drainer.DryRunStrategy = DryRunStrategy.DryRunNone ∧ wp = w0) ∨
      (o.drainer.DryRunStrategy = DryRunStrategy.DryRunServer ∧
        env.HasSupport n.Kind w0 = (none, wp))) :
    cordonOrUncordonNode env o desired s n w0 =
      ((patchOrReplaceNode env o desired s n c wp).1,
        (Event.Call n.Name Call.NewCordonHelperFromRuntimeObject ::
          (if o.drainer.DryRunStrategy = DryRunStrategy.DryRunServer then
            [Event.Call n.Name Call.HasSupport]
          else [])) ++ (patchOrReplaceNode env o desired s n c wp).2) := by
  unfold cordonOrUncordonNode
  rw [if_pos hkind, hhelper]
  dsimp only
  rw [hupdate]
  dsimp only
  rcases hprobe with ⟨hnone, hwp⟩ | ⟨hserver, hsupport⟩
  · rw [hnone, hwp]
    simp
  · rw [hserver, hsupport]
    simp

/-- What `patchOrReplaceNode` writes after its call of `PatchOrReplace`, by the
pair `(err, patchErr)` that the call returns. -/
theorem patchOrReplaceNode_report {W : Type} (env : Env W) (o : DrainCmdOptions)
    (desired : Bool) (s : String) (n : Info) (c : CordonHelper) (wp : W) :
    ∀ r : (Option Err × Option Err) × W,
      env.PatchOrReplace c (decide (o.drainer.DryRunStrategy = DryRunStrategy.DryRunServer)) wp =
        r →
      ∃ report : List Event,
        patchOrReplaceNode env o desired s n c wp =
          (r.2, Event.Call n.Name (Call.PatchOrReplace
            (decide (o.drainer.DryRunStrategy = DryRunStrategy.DryRunServer))) :: report) ∧
        (∀ pe, r.1.2 = some pe → r.1.1 = none →
          report = printError s n pe :: printOrError o (changed desired) "%v\n" n) ∧
        (r.1.2 = none → r.1.1 = none → report = printOrError o (changed desired) "%v\n" n) ∧
        (∀ e, r.1.1 = some e → r.1.2 = none → report = [printError s n e]) ∧
        (∀ e pe, r.1.1 = some e → r.1.2 = some pe →
          report = [printError s n pe, printError s n e]) := by
  rintro ⟨⟨err, patchErr⟩, w1⟩ h
  unfold patchOrReplaceNode
  simp only [h]
  cases err with
  | none =>
    cases patchErr with
    | none =>
      refine ⟨_, rfl, ?_, fun _ _ => rfl, ?_, ?_⟩
      · intro pe hpe
        simp at hpe
      · intro e he
        simp at he
      · intro e pe he
        simp at he
    | some pe0 =>
      refine ⟨_, rfl, ?_, ?_, ?_, ?_⟩
      · intro pe hpe _
        simp only [Option.some.injEq] at hpe
        rw [← hpe]
        rfl
      · intro hpe
        simp at hpe
      · intro e he
        simp at he
      · intro e pe he
        simp at he
  | some e0 =>
    cases patchErr with
    | none =>
      refine ⟨[printError s n e0], rfl, ?_, ?_, ?_, ?_⟩
      · intro pe hpe
        simp at hpe
      · intro _ he
        simp at he
      · intro e he _
        simp only [Option.some.injEq] at he
        rw [← he]
      · intro e pe _ hpe
        simp at hpe
    | some pe0 =>
      refine ⟨[printError s n pe0, printError s n e0], rfl, ?_, ?_, ?_, ?_⟩
      · intro pe _ hnone
        simp at hnone
      · intro hpe
        simp at hpe
      · intro e _ hpe
        simp at hpe
      · intro e pe he hpe
        simp only [Option.some.injEq] at he hpe
        rw [← he, ← hpe]

/-- The steps of `RunCordonOrUncordon` around a target of kind Node that has to
change, outside a client dry run and after a passed capability probe: the calls
for the node, up to `PatchOrReplace`, and then what `patchOrReplaceNode`
writes. -/
theorem RunCordonOrUncordon_patched {W : Type} (env : Env W) (o : DrainCmdOptions)
    (desired : Bool) (w wp w1 : W) (before after : List Info) (n : Info) (c0 c : CordonHelper)
    (err patchErr : Option Err)
    (htargets : o.nodeInfos = before ++ n :: after)
    (hkind : n.Kind = "Node")
    (hhelper : env.NewCordonHelperFromRuntimeObject n.Object n.Kind = Except.ok c0)
    (hupdate : env.UpdateIfRequired c0 desired = (c, true))
    (hprobe : (o.drainer.DryRunStrategy = DryRunStrategy.DryRunNone ∧
        wp = (cordonLoop env o desired (cordonOrUncordon desired) before w).1) ∨
      (o.drainer.DryRunStrategy = DryRunStrategy.DryRunServer ∧
        env.HasSupport n.Kind (cordonLoop env o desired (cordonOrUncordon desired) before w).1 =
          (none, wp)))
    (hpatch : env.PatchOrReplace c
      (decide (o.drainer.DryRunStrategy = DryRunStrategy.DryRunServer)) wp =
        ((err, patchErr), w1)) :
    ∃ report : List Event,
      (RunCordonOrUncordon env o desired w).trace =
        (cordonLoop env o desired (cordonOrUncordon desired) before w).2 ++
          ((Event.Call n.Name Call.NewCordonHelperFromRuntimeObject ::
            (if o.drainer.DryRunStrategy = DryRunStrategy.DryRunServer then
              [Event.Call n.Name Call.HasSupport]
            else [])) ++
            Event.Call n.Name (Call.PatchOrReplace
              (decide (o.drainer.DryRunStrategy = DryRunStrategy.DryRunServer))) :: report) ++
          (cordonLoop env o desired (cordonOrUncordon desired) after w1).2 ∧
      (∀ pe, patchErr = some pe → err = none →
        report = printError (cordonOrUncordon desired) n pe ::
          printOrError o (changed desired) "%v\n" n) ∧
      (∀ e, err = some e → patchErr = none →
        report = [printError (cordonOrUncordon desired) n e]) ∧
      (∀ e pe, err = some e → patchErr = some pe →
        report = [printError (cordonOrUncordon desired) n pe,
          printError (cordonOrUncordon desired) n e]) := by
  have hbody := cordonOrUncordonNode_patched env o desired (cordonOrUncordon desired) n c0 c _ wp
    hkind hhelper hupdate hprobe
  obtain ⟨report, hpatched, hfallback, _, hfinal, hboth⟩ :=
    patchOrReplaceNode_report env o desired (cordonOrUncordon desired) n c wp _ hpatch
  rw [hpatched] at hbody
  refine ⟨report, ?_, hfallback, hfinal, hboth⟩
  rw [RunCordonOrUncordon_at env o desired w before after n htargets, hbody]

/-- C24 (as stated), refuted: the patch of n1 is rejected and its fallback
succeeds, but `o.ToPrinter("cordoned")` fails. The patch error is printed, and
the node is not reported cordoned: the last step is the line with the error of
the printer on the error stream. -/
theorem RunCordonOrUncordon_patch_unprinted_counterexample :
    (RunCordonOrUncordon (patchEnv (none, some (Err.msg "patch rejected")))
        (unprintableTargets [fleetNode "n1"]) true []).trace =
        [Event.Call "n1" Call.NewCordonHelperFromRuntimeObject,
         Event.Call "n1" (Call.PatchOrReplace false),
         Event.Fprintf Stream.ErrOut "error: unable to %s node %q: %v\n"
           [Arg.str "cordon", Arg.str "n1", Arg.err (some (Err.msg "patch rejected"))],
         Event.Fprintf Stream.ErrOut "%v\n"
           [Arg.err (some (Err.msg "unable to match a printer"))]] ∧
      reportedVerbs
        (RunCordonOrUncordon (patchEnv (none, some (Err.msg "patch rejected")))
          (unprintableTargets [fleetNode "n1"]) true []).trace = [] :=
  ⟨rfl, rfl⟩

/-- C24 (amended). In `RunCordonOrUncordon`, for a target of kind Node whose
flag has to change, at any place among the targets, outside a client dry run
and after a passed capability probe, the steps of the run are those of the
targets before it, the calls made for the node, the last of them
`PatchOrReplace`, the report of the node, and the steps of the targets after
it. When `PatchOrReplace` returns a patch error and no final error, the report
is the line "error: unable to cordon node <name>: <patch error>" (or "uncordon")
on the error stream, followed, when `o.ToPrinter` of the verb succeeds, by the
node under the verb "cordoned" or "uncordoned", and when it fails, by the line
with the error of the printer, without a verb. When it returns a final error,
the report is the same line for the patch error, if there is one, and then the
same line for the final error, and nothing else: the node is not printed under
any verb. -/
theorem RunCordonOrUncordon_reports_patch_steps {W : Type} (env : Env W) (o : DrainCmdOptions)
    (desired : Bool) (w wp w1 : W) (before after : List Info) (n : Info) (c0 c : CordonHelper)
    (err patchErr : Option Err)
    (htargets : o.nodeInfos = before ++ n :: after)
    (hkind : n.Kind = "Node")
    (hhelper : env.NewCordonHelperFromRuntimeObject n.Object n.Kind = Except.ok c0)
    (hupdate : env.UpdateIfRequired c0 desired = (c, true))
    (hprobe : (o.drainer.DryRunStrategy = DryRunStrategy.DryRunNone ∧
        wp = (cordonLoop env o desired (cordonOrUncordon desired) before w).1) ∨
      (o.drainer.DryRunStrategy = DryRunStrategy.DryRunServer ∧
        env.HasSupport n.Kind (cordonLoop env o desired (cordonOrUncordon desired) before w).1 =
          (none, wp)))
    (hpatch : env.PatchOrReplace c
      (decide (o.drainer.DryRunStrategy = DryRunStrategy.DryRunServer)) wp =
        ((err, patchErr), w1)) :
    ∃ report : List Event,
      (RunCordonOrUncordon env o desired w).trace =
        (cordonLoop env o desired (cordonOrUncordon desired) before w).2 ++
          ((Event.Call n.Name Call.NewCordonHelperFromRuntimeObject ::
            (if o.drainer.DryRunStrategy = DryRunStrategy.DryRunServer then
              [Event.Call n.Name Call.HasSupport]
            else [])) ++
            Event.Call n.Name (Call.PatchOrReplace
              (decide (o.drainer.DryRunStrategy = DryRunStrategy.DryRunServer))) :: report) ++
          (cordonLoop env o desired (cordonOrUncordon desired) after w1).2 ∧
      (∀ pe, patchErr = some pe → err = none →
        report =
          Event.Fprintf Stream.ErrOut "error: unable to %s node %q: %v\n"
            [Arg.str (if desired then "cordon" else "uncordon"), Arg.str n.Name,
             Arg.err (some pe)] ::
          (match o.ToPrinter (if desired then "cordoned" else "uncordoned") with
           | none => [Event.PrintObj (if desired then "cordoned" else "uncordoned") n]
           | some printerErr =>
             [Event.Fprintf Stream.ErrOut "%v\n" [Arg.err (some printerErr)]])) ∧
      (∀ e, err = some e → patchErr = none →
        report =
          [Event.Fprintf Stream.ErrOut "error: unable to %s node %q: %v\n"
            [Arg.str (if desired then "cordon" else "uncordon"), Arg.str n.Name,
             Arg.err (some e)]]) ∧
      (∀ e pe, err = some e → patchErr = some pe →
        report =
          [Event.Fprintf Stream.ErrOut "error: unable to %s node %q: %v\n"
            [Arg.str (if desired then "cordon" else "uncordon"), Arg.str n.Name,
             Arg.err (some pe)],
           Event.Fprintf Stream.ErrOut "error: unable to %s node %q: %v\n"
            [Arg.str (if desired then "cordon" else "uncordon"), Arg.str n.Name,
             Arg.err (some e)]]) := by
  obtain ⟨report, htrace, hfallback, hfinal, hboth⟩ :=
    RunCordonOrUncordon_patched env o desired w wp w1 before after n c0 c err patchErr htargets
      hkind hhelper hupdate hprobe hpatch
  refine ⟨report, htrace, ?_, ?_, ?_⟩
  · intro pe hpe hnone
    rw [hfallback pe hpe hnone, printOrError_eq, changed_eq, printError, cordonOrUncordon_eq]
  · intro e he hnone
    rw [hfinal e he hnone, printError, cordonOrUncordon_eq]
  · intro e pe he hpe
    rw [hboth e pe he hpe, printError, printError, cordonOrUncordon_eq]

/-- C24 (amended), on a cluster whose patch is rejected and whose fallback
succeeds: the patch error is printed and the node is reported cordoned. -/
theorem RunCordonOrUncordon_reports_patch_steps_witness :
    (RunCordonOrUncordon (patchEnv (none, some (Err.msg "patch rejected")))
        (fleetOptions false ["n1"]) true []).trace =
      [Event.Call "n1" Call.NewCordonHelperFromRuntimeObject,
       Event.Call "n1" (Call.PatchOrReplace false),
       Event.Fprintf Stream.ErrOut "error: unable to %s node %q: %v\n"
         [Arg.str "cordon", Arg.str "n1", Arg.err (some (Err.msg "patch rejected"))],
       Event.PrintObj "cordoned" (fleetNode "n1")] :=
  match RunCordonOrUncordon_reports_patch_steps (patchEnv (none, some (Err.msg "patch rejected")))
    (fleetOptions false ["n1"]) true [] [] [] [] [] (fleetNode "n1")
    { node := { Name := "n1", Unschedulable := false } }
    { node := { Name := "n1", Unschedulable := true } }
    none (some (Err.msg "patch rejected")) rfl rfl rfl rfl (Or.inl ⟨rfl, rfl⟩) rfl with
  | ⟨_, htrace, hfallback, _, _⟩ => by
    rw [htrace, hfallback (Err.msg "patch rejected") rfl rfl]
    rfl


/-! ## Cordon errors do not stop the drain -/

/-- The first step of `deleteOrEvictPodsSimple` is the listing of the pods of
the node. -/
theorem deleteOrEvictPodsSimple_lists_first {W : Type} (env : Env W) (o : DrainCmdOptions)
    (i : Info) (w : W) :
    ∃ tail : List Event,
      (deleteOrEvictPodsSimple env o i w).trace =
        Event.Call i.Name Call.GetPodsForDeletion :: tail := by
  unfold deleteOrEvictPodsSimple
  split
  · exact ⟨_, rfl⟩
  · dsimp only
    split
    · exact ⟨_, rfl⟩
    · split
      · exact ⟨_, rfl⟩
      · exact ⟨_, rfl⟩

/-- When the listing of the pods of a node succeeds, outside a client dry run,
`deleteOrEvictPodsSimple` asks for the removal of the pods listed, right after
the listing and its warning. -/
theorem deleteOrEvictPodsSimple_removes {W : Type} (env : Env W) (o : DrainCmdOptions)
    (i : Info) (w w1 : W) (l : PodDeleteList)
    (hlist : env.GetPodsForDeletion i.Name w = (PodsForDeletion.list l, w1))
    (hdry : o.drainer.DryRunStrategy ≠ DryRunStrategy.DryRunClient) :
    ∃ tail : List Event,
      (deleteOrEvictPodsSimple env o i w).trace =
        [Event.Call i.Name Call.GetPodsForDeletion] ++
          (if l.Warnings ≠ "" then
            [Event.Fprintf Stream.ErrOut "WARNING: %s\n" [Arg.str l.Warnings]]
          else []) ++
          Event.Call i.Name (Call.DeleteOrEvictPods l.Pods) :: tail := by
  unfold deleteOrEvictPodsSimple
  rw [hlist]
  dsimp only
  rw [if_neg hdry]
  split
  · exact ⟨[], rfl⟩
  · exact ⟨_, by simp only [List.append_assoc, List.cons_append, List.nil_append]; rfl⟩

/-- The drain loop reaches the targets after `before` when it goes on over
failures or when no drain of `before` fails: its steps are then a run over
`before` followed by the loop over the rest, from the state the drains of
`before` left. -/
theorem drainLoop_reaches {W : Type} (env : Env W) (o : DrainCmdOptions) :
    ∀ (before rest : List Info) (drained : List String) (w : W),
      ((o.drainer.IgnoreErrors && decide (o.nodeInfos.length > 1)) = true ∨
        firstDrainFailure env o before w = none) →
      ∃ (pre : List Event) (drained1 : List String),
        (drainLoop env o (before ++ rest) drained w).trace =
          pre ++ (drainLoop env o rest drained1 (drainedWorld env o before w)).trace ∧
        (drainLoop env o (before ++ rest) drained w).err =
          (drainLoop env o rest drained1 (drainedWorld env o before w)).err := by
  intro before
  induction before with
  | nil =>
    intro rest drained w _
    exact ⟨[], drained, rfl, rfl⟩
  | cons i bs ih =>
    intro rest drained w hgoes
    rw [List.cons_append, drainLoop]
    dsimp only
    cases herr : (deleteOrEvictPodsSimple env o i w).err with
    | none =>
      dsimp only
      have hgoes1 : (o.drainer.IgnoreErrors && decide (o.nodeInfos.length > 1)) = true ∨
          firstDrainFailure env o bs (deleteOrEvictPodsSimple env o i w).world = none := by
        rcases hgoes with h | h
        · exact Or.inl h
        · right
          unfold firstDrainFailure at h
          rw [herr] at h
          simpa using h
      obtain ⟨pre, drained1, htrace, herr1⟩ :=
        ih rest (i.Name :: drained) (deleteOrEvictPodsSimple env o i w).world hgoes1
      refine ⟨(deleteOrEvictPodsSimple env o i w).trace ++ [Event.PrintObj "drained" i] ++ pre,
        drained1, ?_, herr1⟩
      rw [htrace]
      simp only [drainedWorld, List.append_assoc]
    | some err =>
      dsimp only
      rcases hgoes with h | h
      · rw [if_pos h]
        dsimp only
        obtain ⟨pre, drained1, htrace, herr1⟩ :=
          ih rest drained (deleteOrEvictPodsSimple env o i w).world (Or.inl h)
        refine ⟨(deleteOrEvictPodsSimple env o i w).trace ++
          [Event.Fprintf Stream.ErrOut
            "error: unable to drain node %q due to error:%s, continuing command...\n"
            [Arg.str i.Name, Arg.err (some err)]] ++ pre, drained1, ?_, herr1⟩
        rw [htrace]
        simp only [drainedWorld, List.append_assoc]
      · unfold firstDrainFailure at h
        rw [herr] at h
        simp at h

/-- The drain loop starts with the drain of its first target. -/
theorem drainLoop_cons_trace {W : Type} (env : Env W) (o : DrainCmdOptions) (i : Info)
    (rest : List Info) (drained : List String) (v : W) :
    ∃ later : List Event,
      (drainLoop env o (i :: rest) drained v).trace =
        (deleteOrEvictPodsSimple env o i v).trace ++ later := by
  unfold drainLoop
  dsimp only
  cases (deleteOrEvictPodsSimple env o i v).err with
  | none => exact ⟨_, List.append_assoc _ _ _⟩
  | some err =>
    dsimp only
    split
    · exact ⟨_, List.append_assoc _ _ _⟩
    · exact ⟨_, List.append_assoc _ _ _⟩

/-- C25 (as stated), refuted: the cordon of n2 fails, and the drain of n1, the
target before it, fails without ignore-errors. `RunCordonOrUncordon` prints the
error of n2 and returns nil, but `RunDrain` aborts at n1 and never lists or
removes the pods of n2. -/
theorem RunDrain_cordon_failed_not_drained_counterexample :
    (RunCordonOrUncordon (cordonFailsEnv ["n2"] ["n1"]) (fleetOptions false ["n1", "n2"]) true
        []).trace =
        [Event.Call "n1" Call.NewCordonHelperFromRuntimeObject,
         Event.Call "n1" (Call.PatchOrReplace false),
         Event.PrintObj "cordoned" (fleetNode "n1"),
         Event.Call "n2" Call.NewCordonHelperFromRuntimeObject,
         Event.Call "n2" (Call.PatchOrReplace false),
         Event.Fprintf Stream.ErrOut "error: unable to %s node %q: %v\n"
           [Arg.str "cordon", Arg.str "n2", Arg.err (some (Err.msg "node not found"))]] ∧
      (RunCordonOrUncordon (cordonFailsEnv ["n2"] ["n1"]) (fleetOptions false ["n1", "n2"]) true
        []).err = none ∧
      (RunDrain (cordonFailsEnv ["n2"] ["n1"]) (fleetOptions false ["n1", "n2"]) []).err =
        some (Err.msg "eviction refused") ∧
      (callsOf
        (RunDrain (cordonFailsEnv ["n2"] ["n1"]) (fleetOptions false ["n1", "n2"]) []).trace).filter
          (fun x => decide (x.1 = "n2")) =
        [("n2", Call.NewCordonHelperFromRuntimeObject), ("n2", Call.PatchOrReplace false)] :=
  ⟨rfl, rfl, rfl, by decide⟩

/-- C25 (amended). `RunCordonOrUncordon` returns nil for every input. The error
of the construction of the helper, of the capability probe and of
`PatchOrReplace` for a target is written on the error stream, in the line
"error: unable to cordon node <name>: <error>" (or "uncordon"), and the run goes
on with the targets after it. So `RunDrain` never stops at the cordon phase:
when `o.ToPrinter("drained")` fails it returns that error after the cordon
phase, and when it succeeds it runs its drain loop from the state the cordon
phase left, whatever errors that phase met, and returns the error of the loop.
The loop reaches a target, whether the cordon of the target failed or not, when
ignore-errors is set with more than one target or when no drain of a target
before it fails: the pods of the target are then listed and, when the listing
succeeds outside a client dry run, their removal is asked. -/
theorem RunCordonOrUncordon_never_fails {W : Type} (env : Env W) (o : DrainCmdOptions)
    (desired : Bool) (w : W) :
    (RunCordonOrUncordon env o desired w).err = none ∧
      (∀ (before after : List Info) (i : Info) (err : Err),
        o.nodeInfos = before ++ i :: after → i.Kind = "Node" →
        env.NewCordonHelperFromRuntimeObject i.Object i.Kind = Except.error err →
        (RunCordonOrUncordon env o desired w).trace =
          (cordonLoop env o desired (cordonOrUncordon desired) before w).2 ++
            [Event.Call i.Name Call.NewCordonHelperFromRuntimeObject,
             Event.Fprintf Stream.ErrOut "error: unable to %s node %q: %v\n"
               [Arg.str (if desired then "cordon" else "uncordon"), Arg.str i.Name,
                Arg.err (some err)]] ++
            (cordonLoop env o desired (cordonOrUncordon desired) after
              (cordonLoop env o desired (cordonOrUncordon desired) before w).1).2) ∧
      (∀ (before after : List Info) (i : Info) (c0 c : CordonHelper) (w1 : W) (err : Err),
        o.nodeInfos = before ++ i :: after → i.Kind = "Node" →
        o.drainer.DryRunStrategy = DryRunStrategy.DryRunServer →
        env.NewCordonHelperFromRuntimeObject i.Object i.Kind = Except.ok c0 →
        env.UpdateIfRequired c0 desired = (c, true) →
        env.HasSupport i.Kind (cordonLoop env o desired (cordonOrUncordon desired) before w).1 =
          (some err, w1) →
        (RunCordonOrUncordon env o desired w).trace =
          (cordonLoop env o desired (cordonOrUncordon desired) before w).2 ++
            [Event.Call i.Name Call.NewCordonHelperFromRuntimeObject,
             Event.Call i.Name Call.HasSupport,
             Event.Fprintf Stream.ErrOut "error: unable to %s node %q: %v\n"
               [Arg.str (if desired then "cordon" else "uncordon"), Arg.str i.Name,
                Arg.err (some err)]] ++
            (cordonLoop env o desired (cordonOrUncordon desired) after w1).2) ∧
      (∀ (before after : List Info) (i : Info) (c0 c : CordonHelper) (wp w1 : W) (err : Err)
        (patchErr : Option Err),
        o.nodeInfos = before ++ i :: after → i.Kind = "Node" →
        env.NewCordonHelperFromRuntimeObject i.Object i.Kind = Except.ok c0 →
        env.UpdateIfRequired c0 desired = (c, true) →
        ((o.drainer.DryRunStrategy = DryRunStrategy.DryRunNone ∧
            wp = (cordonLoop env o desired (cordonOrUncordon desired) before w).1) ∨
          (o.drainer.DryRunStrategy = DryRunStrategy.DryRunServer ∧
            env.HasSupport i.Kind
              (cordonLoop env o desired (cordonOrUncordon desired) before w).1 = (none, wp))) →
        env.PatchOrReplace c (decide (o.drainer.DryRunStrategy = DryRunStrategy.DryRunServer))
          wp = ((some err, patchErr), w1) →
        ∃ front : List Event,
          (RunCordonOrUncordon env o desired w).trace =
            (cordonLoop env o desired (cordonOrUncordon desired) before w).2 ++
              (front ++
                [Event.Fprintf Stream.ErrOut "error: unable to %s node %q: %v\n"
                  [Arg.str (if desired then "cordon" else "uncordon"), Arg.str i.Name,
                   Arg.err (some err)]]) ++
              (cordonLoop env o desired (cordonOrUncordon desired) after w1).2) ∧
      (∀ e, o.ToPrinter "drained" = some e →
        (RunDrain env o w).err = some e ∧
        (RunDrain env o w).trace = (RunCordonOrUncordon env o true w).trace) ∧
      (o.ToPrinter "drained" = none →
        (RunDrain env o w).err =
          (drainLoop env o o.nodeInfos [] (RunCordonOrUncordon env o true w).world).err ∧
        (RunDrain env o w).trace = (RunCordonOrUncordon env o true w).trace ++
          (drainLoop env o o.nodeInfos [] (RunCordonOrUncordon env o true w).world).trace ∧
        ∀ (before after : List Info) (i : Info),
          o.nodeInfos = before ++ i :: after →
          ((o.drainer.IgnoreErrors && decide (o.nodeInfos.length > 1)) = true ∨
            firstDrainFailure env o before (RunCordonOrUncordon env o true w).world = none) →
          (∃ pre later : List Event,
            (RunDrain env o w).trace = (RunCordonOrUncordon env o true w).trace ++ pre ++
              (deleteOrEvictPodsSimple env o i
                (drainedWorld env o before (RunCordonOrUncordon env o true w).world)).trace ++
              later) ∧
          (∃ tail : List Event,
            (deleteOrEvictPodsSimple env o i
              (drainedWorld env o before (RunCordonOrUncordon env o true w).world)).trace =
              Event.Call i.Name Call.GetPodsForDeletion :: tail) ∧
          (∀ (l : PodDeleteList) (w1 : W),
            env.GetPodsForDeletion i.Name
              (drainedWorld env o before (RunCordonOrUncordon env o true w).world) =
              (PodsForDeletion.list l, w1) →
            o.drainer.DryRunStrategy ≠ DryRunStrategy.DryRunClient →
            Event.Call i.Name (Call.DeleteOrEvictPods l.Pods) ∈
              (deleteOrEvictPodsSimple env o i
                (drainedWorld env o before (RunCordonOrUncordon env o true w).world)).trace)) := by
  refine ⟨rfl, ?_, ?_, ?_, ?_, ?_⟩
  · intro before after i err htargets hkind hhelper
    rw [RunCordonOrUncordon_at env o desired w before after i htargets,
      cordonOrUncordonNode_helper_error env o desired _ i _ err hkind hhelper, cordonOrUncordon_eq]
  · intro before after i c0 c w1 err htargets hkind hdry hhelper hupdate hprobe
    rw [RunCordonOrUncordon_at env o desired w before after i htargets,
      cordonOrUncordonNode_probe_error env o desired _ i c0 c _ w1 err hdry hkind hhelper
        hupdate hprobe, cordonOrUncordon_eq]
  · intro before after i c0 c wp w1 err patchErr htargets hkind hhelper hupdate hprobe hpatch
    obtain ⟨report, htrace, _, hfinal, hboth⟩ :=
      RunCordonOrUncordon_patched env o desired w wp w1 before after i c0 c (some err) patchErr
        htargets hkind hhelper hupdate hprobe hpatch
    cases hpe : patchErr with
    | none =>
      refine ⟨(Event.Call i.Name Call.NewCordonHelperFromRuntimeObject ::
          (if o.drainer.DryRunStrategy = DryRunStrategy.DryRunServer then
            [Event.Call i.Name Call.HasSupport]
          else [])) ++
          [Event.Call i.Name (Call.PatchOrReplace
            (decide (o.drainer.DryRunStrategy = DryRunStrategy.DryRunServer)))], ?_⟩
      rw [htrace, hfinal err rfl hpe, printError, cordonOrUncordon_eq]
      simp only [List.append_assoc, List.cons_append, List.nil_append]
    | some pe =>
      refine ⟨(Event.Call i.Name Call.NewCordonHelperFromRuntimeObject ::
          (if o.drainer.DryRunStrategy = DryRunStrategy.DryRunServer then
            [Event.Call i.Name Call.HasSupport]
          else [])) ++
          [Event.Call i.Name (Call.PatchOrReplace
            (decide (o.drainer.DryRunStrategy = DryRunStrategy.DryRunServer))),
           printError (cordonOrUncordon desired) i pe], ?_⟩
      rw [htrace, hboth err pe rfl hpe, printError, printError, cordonOrUncordon_eq]
      simp only [List.append_assoc, List.cons_append, List.nil_append]
  · intro e hprinter
    obtain ⟨herr, htrace, _⟩ := RunDrain_of_printer_error env o w e hprinter
    exact ⟨herr, htrace⟩
  · intro hprinter
    obtain ⟨herr, htrace⟩ := RunDrain_of_printer env o w hprinter
    refine ⟨herr, htrace, ?_⟩
    intro before after i htargets hgoes
    refine ⟨?_, deleteOrEvictPodsSimple_lists_first env o i _, ?_⟩
    · obtain ⟨pre, drained1, hreach, _⟩ :=
        drainLoop_reaches env o before (i :: after) [] (RunCordonOrUncordon env o true w).world
          hgoes
      obtain ⟨later, hlater⟩ := drainLoop_cons_trace env o i after drained1
        (drainedWorld env o before (RunCordonOrUncordon env o true w).world)
      refine ⟨pre, later, ?_⟩
      rw [htrace, htargets, hreach, hlater]
      simp only [List.append_assoc]
    · intro l w1 hlist hdry
      obtain ⟨tail, htail⟩ := deleteOrEvictPodsSimple_removes env o i _ w1 l hlist hdry
      rw [htail]
      simp

/-- C25 (amended), on a cluster in which the cordon of n2 fails and the drain
of n1 succeeds: the error of n2 is printed, and `RunDrain` goes on to list and
remove the pods of n1 and then those of n2. -/
theorem RunCordonOrUncordon_never_fails_witness :
    (RunDrain (cordonFailsEnv ["n2"] []) (fleetOptions false ["n1", "n2"]) []).trace =
        [Event.Call "n1" Call.NewCordonHelperFromRuntimeObject,
         Event.Call "n1" (Call.PatchOrReplace false),
         Event.PrintObj "cordoned" (fleetNode "n1"),
         Event.Call "n2" Call.NewCordonHelperFromRuntimeObject,
         Event.Call "n2" (Call.PatchOrReplace false),
         Event.Fprintf Stream.ErrOut "error: unable to %s node %q: %v\n"
           [Arg.str "cordon", Arg.str "n2", Arg.err (some (Err.msg "node not found"))],
         Event.Call "n1" Call.GetPodsForDeletion,
         Event.Call "n1" (Call.DeleteOrEvictPods [{ Namespace := "default", Name := "n1" }]),
         Event.PrintObj "drained" (fleetNode "n1"),
         Event.Call "n2" Call.GetPodsForDeletion,
         Event.Call "n2" (Call.DeleteOrEvictPods [{ Namespace := "default", Name := "n2" }]),
         Event.PrintObj "drained" (fleetNode "n2")] ∧
      Event.Call "n2" (Call.DeleteOrEvictPods [{ Namespace := "default", Name := "n2" }]) ∈
        (deleteOrEvictPodsSimple (cordonFailsEnv ["n2"] []) (fleetOptions false ["n1", "n2"])
          (fleetNode "n2")
          (drainedWorld (cordonFailsEnv ["n2"] []) (fleetOptions false ["n1", "n2"])
            [fleetNode "n1"]
            (RunCordonOrUncordon (cordonFailsEnv ["n2"] []) (fleetOptions false ["n1", "n2"])
              true []).world)).trace :=
  ⟨rfl, (((RunCordonOrUncordon_never_fails (cordonFailsEnv ["n2"] [])
    (fleetOptions false ["n1", "n2"]) true []).2.2.2.2.2 rfl).2.2 [fleetNode "n1"] []
    (fleetNode "n2") rfl (Or.inr rfl)).2.2
    { Pods := [{ Namespace := "default", Name := "n2" }], Warnings := "" }
    [{ Namespace := "default", Name := "n1" }] rfl (by decide)⟩


/-! ## Where the error of `RunDrain` comes from -/

/-- An error of the drain loop is the error of the first drain that fails, and
the loop is then not in the mode that goes on over failures. -/
theorem drainLoop_err_some {W : Type} (env : Env W) (o : DrainCmdOptions) :
    ∀ (nodes : List Info) (drained : List String) (w : W) (e : Err),
      (drainLoop env o nodes drained w).err = some e →
      (o.drainer.IgnoreErrors && decide (o.nodeInfos.length > 1)) = false ∧
        ∃ k, firstDrainFailure env o nodes w = some (k, e) := by
  intro nodes
  induction nodes with
  | nil =>
    intro drained w e h
    simp [drainLoop] at h
  | cons i rest ih =>
    intro drained w e h
    unfold drainLoop at h
    unfold firstDrainFailure
    dsimp only at h
    cases herr : (deleteOrEvictPodsSimple env o i w).err with
    | none =>
      rw [herr] at h
      dsimp only at h
      obtain ⟨habort, k, hk⟩ := ih _ _ e h
      exact ⟨habort, k + 1, by simp [hk]⟩
    | some err =>
      rw [herr] at h
      dsimp only at h
      cases hcont : (o.drainer.IgnoreErrors && decide (o.nodeInfos.length > 1)) with
      | true =>
        rw [hcont] at h
        simp only [if_true] at h
        obtain ⟨habort, _⟩ := ih _ _ e h
        rw [hcont] at habort
        cases habort
      | false =>
        rw [hcont] at h
        simp only [Bool.false_eq_true, if_false, Option.some.injEq] at h
        exact ⟨rfl, 0, by simp [h]⟩

/-- C26 (as stated), refuted: with ignore-errors set and two target nodes, on a
cluster in which no drain fails, `RunDrain` returns a non-nil error when
`o.ToPrinter("drained")` fails. It returns that error after the cordon phase
and before its loop: no pod is listed or removed, and no drain fails. -/
theorem RunDrain_printer_error_counterexample :
    (unprintableOptions ["n1", "n2"]).drainer.IgnoreErrors = true ∧
      (unprintableOptions ["n1", "n2"]).nodeInfos.length = 2 ∧
      (RunDrain (fleetEnv []) (unprintableOptions ["n1", "n2"]) []).err =
        some (Err.msg "unable to match a printer") ∧
      firstFailedDrain (fleetEnv []) (unprintableOptions ["n1", "n2"]) [] = none ∧
      (∀ l, firstDrainFailure (fleetEnv []) (unprintableOptions ["n1", "n2"])
        (unprintableOptions ["n1", "n2"]).nodeInfos l = none) ∧
      callsOf (RunDrain (fleetEnv []) (unprintableOptions ["n1", "n2"]) []).trace =
        [("n1", Call.NewCordonHelperFromRuntimeObject), ("n1", Call.PatchOrReplace false),
         ("n2", Call.NewCordonHelperFromRuntimeObject), ("n2", Call.PatchOrReplace false)] :=
  ⟨rfl, rfl, rfl, rfl, fun _ => rfl, rfl⟩

/-- Without the mode that goes on over failures, the error of the drain loop is
the error of the first drain that fails, and nil when none fails. -/
theorem drainLoop_abort_err {W : Type} (env : Env W) (o : DrainCmdOptions)
    (habort : (o.drainer.IgnoreErrors && decide (o.nodeInfos.length > 1)) = false)
    (nodes : List Info) (drained : List String) (w : W) :
    (drainLoop env o nodes drained w).err = (firstDrainFailure env o nodes w).map Prod.snd := by
  cases hfirst : firstDrainFailure env o nodes w with
  | none =>
    cases herr : (drainLoop env o nodes drained w).err with
    | none => rfl
    | some e =>
      obtain ⟨_, k, hk⟩ := drainLoop_err_some env o nodes drained w e herr
      rw [hfirst] at hk
      cases hk
  | some found =>
    obtain ⟨k, e⟩ := found
    obtain ⟨_, _, herr, _⟩ := drainLoop_abort env o habort nodes drained w k e hfirst
    rw [herr]
    rfl

/-- C26 (amended). When `o.ToPrinter("drained")` fails, `RunDrain` returns the
error of the printer, whatever ignore-errors is, after the cordon phase and
before any drain: its steps are those of the cordon phase and no pod is listed
or removed. When it succeeds: with ignore-errors set and more than one target
node, `RunDrain` returns nil, whatever the drains of the nodes return; with
ignore-errors unset or at most one target, it returns the error of the first
drain that fails, and nil when no drain fails. So `RunDrain` returns a non-nil
error only in two cases: the printer of "drained" cannot be built, and the
error is that of the printer; or the drain of a node fails while ignore-errors
is unset or exactly one node is targeted, and the error is that of the first
drain that fails. -/
theorem RunDrain_error_sources {W : Type} (env : Env W) (o : DrainCmdOptions) (w : W) :
    (∀ e, o.ToPrinter "drained" = some e →
        (RunDrain env o w).err = some e ∧
        (RunDrain env o w).trace = (RunCordonOrUncordon env o true w).trace ∧
        ∀ ev ∈ (RunDrain env o w).trace, podCallNode ev = none) ∧
      (o.ToPrinter "drained" = none → o.drainer.IgnoreErrors = true → o.nodeInfos.length > 1 →
        (RunDrain env o w).err = none) ∧
      (o.ToPrinter "drained" = none →
        (o.drainer.IgnoreErrors = false ∨ o.nodeInfos.length ≤ 1) →
        (RunDrain env o w).err = (firstFailedDrain env o w).map Prod.snd) ∧
      (∀ e, (RunDrain env o w).err = some e →
        o.ToPrinter "drained" = some e ∨
          ((o.drainer.IgnoreErrors = false ∨ o.nodeInfos.length = 1) ∧
            ∃ k, firstFailedDrain env o w = some (k, e))) := by
  refine ⟨?_, ?_, ?_, ?_⟩
  · intro e hprinter
    obtain ⟨herr, htrace, _⟩ := RunDrain_of_printer_error env o w e hprinter
    refine ⟨herr, htrace, ?_⟩
    rw [htrace]
    intro ev hev
    exact podCallNode_of_ofCordon ev (ofCordon_RunCordonOrUncordon env o true w ev hev)
  · intro hprinter hignore hmany
    have hcont : (o.drainer.IgnoreErrors && decide (o.nodeInfos.length > 1)) = true := by
      simp [hignore, hmany]
    rw [(RunDrain_of_printer env o w hprinter).1]
    exact (drainLoop_continue env o hcont o.nodeInfos [] _).2
  · intro hprinter hmode
    have habort : (o.drainer.IgnoreErrors && decide (o.nodeInfos.length > 1)) = false := by
      rcases hmode with h | h
      · simp [h]
      · simp [Nat.not_lt.mpr h]
    rw [(RunDrain_of_printer env o w hprinter).1, drainLoop_abort_err env o habort]
    unfold firstFailedDrain
    rw [hprinter]
  · intro e he
    cases hprinter : o.ToPrinter "drained" with
    | some pe =>
      left
      rw [(RunDrain_of_printer_error env o w pe hprinter).1] at he
      exact he
    | none =>
      right
      rw [(RunDrain_of_printer env o w hprinter).1] at he
      obtain ⟨habort, k, hk⟩ := drainLoop_err_some env o o.nodeInfos [] _ e he
      have hlt := firstDrainFailure_lt env o o.nodeInfos _ k e hk
      refine ⟨?_, k, ?_⟩
      · cases hflag : o.drainer.IgnoreErrors with
        | false => exact Or.inl rfl
        | true =>
          right
          rw [hflag] at habort
          simp only [Bool.true_and, decide_eq_false_iff_not] at habort
          omega
      · unfold firstFailedDrain
        rw [hprinter]
        exact hk

/-- C26 (amended), on a cluster in which the drain of each of the two targets
fails: under ignore-errors `RunDrain` returns nil; without ignore-errors it
returns the error of the first drain; when `o.ToPrinter` fails it returns the
error of the printer. -/
theorem RunDrain_error_sources_witness :
    (fleetOptions true ["n1", "n2"]).drainer.IgnoreErrors = true ∧
      (fleetOptions true ["n1", "n2"]).nodeInfos.length > 1 ∧
      (drainEach (fleetEnv ["n1", "n2"]) (fleetOptions true ["n1", "n2"])
        (fleetOptions true ["n1", "n2"]).nodeInfos []).map (fun a => a.2.err) =
        [some (Err.msg "eviction refused"), some (Err.msg "eviction refused")] ∧
      (RunDrain (fleetEnv ["n1", "n2"]) (fleetOptions true ["n1", "n2"]) []).err = none ∧
      (RunDrain (fleetEnv ["n1", "n2"]) (fleetOptions false ["n1", "n2"]) []).err =
        some (Err.msg "eviction refused") ∧
      (RunDrain (fleetEnv ["n1", "n2"]) (unprintableOptions ["n1", "n2"]) []).err =
        some (Err.msg "unable to match a printer") :=
  ⟨rfl, by decide, rfl,
    (RunDrain_error_sources (fleetEnv ["n1", "n2"]) (fleetOptions true ["n1", "n2"]) []).2.1 rfl
      rfl (by decide),
    (RunDrain_error_sources (fleetEnv ["n1", "n2"]) (fleetOptions false ["n1", "n2"]) []).2.2.1
      rfl (Or.inl rfl),
    ((RunDrain_error_sources (fleetEnv ["n1", "n2"]) (unprintableOptions ["n1", "n2"]) []).1
      (Err.msg "unable to match a printer") rfl).1⟩


end Drain

namespace Logs

open Drain (Err)

/-! ## `--since` -/

theorem secondsRoundedUp_le_iff (d n : Int) : secondsRoundedUp d ≤ n ↔ d ≤ n * Second := by
  unfold secondsRoundedUp Second
  constructor
  · intro h
    omega
  · intro h
    omega

/-- What `ToLogOptions` does with a positive `--since`: it rounds to the nearest
second, a half upwards, as long as the result fits a duration. -/
theorem wholeSeconds_Round_of_nonneg (d : Int) (h0 : 0 ≤ d) (h1 : d + Second < 2 ^ 63) :
    wholeSeconds (Round d Second) = (d + 500000000) / Second := by
  have hr : Int.tmod d Second = d % Second := Int.tmod_eq_emod h0 (by decide)
  unfold Round
  rw [if_neg (by decide), if_neg (by omega)]
  dsimp only
  rw [hr]
  unfold Second at *
  norm_num at h1
  by_cases hhalf : lessThanHalf (d % 1000000000) 1000000000 = true
  · rw [if_pos hhalf]
    unfold lessThanHalf at hhalf
    norm_num at hhalf
    have hw : wrapInt64 (d - d % 1000000000) = d - d % 1000000000 := by
      unfold wrapInt64
      norm_num
      omega
    rw [hw]
    unfold wholeSeconds Second
    rw [Int.tdiv_eq_ediv (by omega) (by decide)]
    omega
  · rw [if_neg hhalf]
    unfold lessThanHalf at hhalf
    norm_num at hhalf
    have hw : wrapInt64 (d + 1000000000 - d % 1000000000) = d + 1000000000 - d % 1000000000 := by
      unfold wrapInt64
      norm_num
      omega
    rw [hw, if_pos (by omega)]
    unfold wholeSeconds Second
    rw [Int.tdiv_eq_ediv (by omega) (by decide)]
    omega

/-- C19. At `--since=1.4s` `ToLogOptions` sets `SinceSeconds` to 1, while the
least whole number of seconds that is not smaller than 1.4s is 2; at
`--since=400ms` it sets 0, while that number is 1. The duration is rounded to
the nearest second, not up to it. -/
theorem ToLogOptions_since_not_rounded_up :
    ToLogOptions parseEpoch { NewLogsOptions false with SinceSeconds := 1400000000 } =
        Except.ok
          { Container := "", Follow := false, Previous := false, Timestamps := false,
            InsecureSkipTLSVerifyBackend := false, SinceSeconds := some 1 } ∧
      secondsRoundedUp 1400000000 = 2 ∧
      ToLogOptions parseEpoch { NewLogsOptions false with SinceSeconds := 400000000 } =
        Except.ok
          { Container := "", Follow := false, Previous := false, Timestamps := false,
            InsecureSkipTLSVerifyBackend := false, SinceSeconds := some 0 } ∧
      secondsRoundedUp 400000000 = 1 := by
  refine ⟨rfl, by decide, rfl, by decide⟩

/-! ## `--tail` -/

theorem ToLogOptions_TailLines (ParseRFC3339 : String → Except Err Time) (o : LogsOptions)
    (logOptions : PodLogOptions) (hok : ToLogOptions ParseRFC3339 o = Except.ok logOptions) :
    logOptions.TailLines =
      if o.Selector ≠ "" ∧ o.Tail = -1 ∧ ¬ o.TailSpecified = true then some selectorTail
      else if o.Tail ≠ -1 then some o.Tail
      else none := by
  unfold ToLogOptions at hok
  dsimp only at hok
  split at hok
  · simp at hok
  · rename_i base hbase
    have hbaseTail : base.TailLines = none := by
      split at hbase
      · split at hbase
        · simp at hbase
        · simp only [Except.ok.injEq] at hbase
          rw [← hbase]
      · simp only [Except.ok.injEq] at hbase
        rw [← hbase]
    simp only [Except.ok.injEq] at hok
    rw [← hok]
    split
    · rfl
    · split
      · rfl
      · split <;> split <;> exact hbaseTail

/-- C20. On the options that `ToLogOptions` returns, the documented default of
`--tail` holds: with no selector and `Tail` = -1, `TailLines` is left unset
(all lines); with a selector and `--tail` not provided, that is, `Tail` still at
its default -1 of `NewLogsOptions` and `TailSpecified` false, `TailLines` is 10;
and whenever `Tail` is not -1, `TailLines` equals `Tail`. -/
theorem ToLogOptions_tail_default (ParseRFC3339 : String → Except Err Time) (o : LogsOptions)
    (logOptions : PodLogOptions) (hok : ToLogOptions ParseRFC3339 o = Except.ok logOptions) :
    (o.Selector = "" → o.Tail = -1 → logOptions.TailLines = none) ∧
      (o.Selector ≠ "" → o.TailSpecified = false → o.Tail = -1 →
        logOptions.TailLines = some 10) ∧
      (o.Tail ≠ -1 → logOptions.TailLines = some o.Tail) ∧
      ∀ allContainers, (NewLogsOptions allContainers).Tail = -1 ∧
        (NewLogsOptions allContainers).TailSpecified = false := by
  have h := ToLogOptions_TailLines ParseRFC3339 o logOptions hok
  refine ⟨?_, ?_, ?_, fun _ => ⟨rfl, rfl⟩⟩
  · intro hsel htail
    rw [h, if_neg (by simp [hsel]), if_neg (by simp [htail])]
  · intro hsel hspec htail
    rw [h, if_pos ⟨hsel, htail, by simp [hspec]⟩]
    rfl
  · intro htail
    rw [h, if_neg (by simp [htail]), if_pos htail]

/-- C20, on `logs -l app=nginx` without `--tail`: the ten last lines are asked
for. -/
theorem ToLogOptions_tail_default_witness :
    (ToLogOptions parseEpoch { NewLogsOptions false with Selector := "app=nginx" }).toOption.map
        (fun logOptions => logOptions.TailLines) = some (some 10) :=
  congrArg (fun t => some t)
    ((ToLogOptions_tail_default parseEpoch { NewLogsOptions false with Selector := "app=nginx" }
      { Container := "", Follow := false, Previous := false, Timestamps := false,
        InsecureSkipTLSVerifyBackend := false, TailLines := some 10 } rfl).2.1
      (by decide) rfl rfl)

/-! ## The limit on followed streams -/

/-- C21. When `LogsForObject` returns more than one request and `--follow` is
set, `RunLogs` returns the maximum-concurrency error, built from the number of
requests and `MaxFollowConcurrency`, having called neither consumer, if and
only if the number of requests exceeds `MaxFollowConcurrency`; otherwise it
hands all requests to `parallelConsumeRequest`, once, and returns what that
returns. `NewLogsOptions` sets `MaxFollowConcurrency` to 5. -/
theorem RunLogs_follow_limit {R : Type} (env : RunEnv R) (o : LogsOptions) (requests : List R)
    (hrequests : env.LogsForObject = Except.ok requests) (hfollow : o.Follow = true)
    (hmany : requests.length > 1) :
    (((requests.length : Int) > o.MaxFollowConcurrency) ↔
        ((RunLogs env o).err =
            some (tooManyStreams requests.length o.MaxFollowConcurrency) ∧
          (RunLogs env o).calls = [RunCall.LogsForObject])) ∧
      (¬ ((requests.length : Int) > o.MaxFollowConcurrency) →
        (RunLogs env o).err = env.parallelConsumeRequest requests ∧
          (RunLogs env o).calls =
            [RunCall.LogsForObject, RunCall.parallelConsumeRequest requests]) ∧
      ∀ allContainers, (NewLogsOptions allContainers).MaxFollowConcurrency = 5 := by
  have hcond : (o.Follow && decide (requests.length > 1)) = true := by
    simp [hfollow, hmany]
  have hrun : RunLogs env o =
      if (requests.length : Int) > o.MaxFollowConcurrency then
        { err := some (tooManyStreams requests.length o.MaxFollowConcurrency),
          calls := [RunCall.LogsForObject] }
      else
        { err := env.parallelConsumeRequest requests,
          calls := [RunCall.LogsForObject, RunCall.parallelConsumeRequest requests] } := by
    unfold RunLogs
    rw [hrequests]
    dsimp only
    rw [if_pos hcond]
  refine ⟨⟨?_, ?_⟩, ?_, fun _ => rfl⟩
  · intro hover
    rw [hrun, if_pos hover]
    exact ⟨rfl, rfl⟩
  · intro hfail
    by_contra hunder
    rw [hrun, if_neg hunder] at hfail
    have hcalls := hfail.2
    simp at hcalls
  · intro hunder
    rw [hrun, if_neg hunder]
    exact ⟨rfl, rfl⟩

/-- C21, with the default limit: following six streams fails, before any
request is consumed, and following five streams consumes them in parallel. -/
theorem RunLogs_follow_limit_witness :
    (RunLogs (followEnv ["a", "b", "c", "d", "e", "f"]) followOptions).err =
        some (tooManyStreams 6 5) ∧
      (RunLogs (followEnv ["a", "b", "c", "d", "e", "f"]) followOptions).calls =
        [RunCall.LogsForObject] ∧
      (RunLogs (followEnv ["a", "b", "c", "d", "e"]) followOptions).calls =
        [RunCall.LogsForObject, RunCall.parallelConsumeRequest ["a", "b", "c", "d", "e"]] :=
  ⟨((RunLogs_follow_limit (followEnv ["a", "b", "c", "d", "e", "f"]) followOptions
      ["a", "b", "c", "d", "e", "f"] rfl rfl (by decide)).1.mp (by decide)).1,
    ((RunLogs_follow_limit (followEnv ["a", "b", "c", "d", "e", "f"]) followOptions
      ["a", "b", "c", "d", "e", "f"] rfl rfl (by decide)).1.mp (by decide)).2,
    rfl⟩

/-- The text of the maximum-concurrency error for six streams under the default
limit. -/
theorem tooManyStreams_six :
    tooManyStreams 6 5 = Err.msg ("you are attempting to follow 6 log streams, but maximum " ++
      "allowed concurrency is 5, use --max-log-requests to increase the limit") := rfl

/-! ## The count that `prefixingWriter.Write` returns -/

/-- C22. For every buffer `p` and every underlying writer whose reported count
for the prefixed buffer is not negative, the count `n` that
`prefixingWriter.Write` returns satisfies `0 <= n <= len(p)`; it is `len(p)`
when the underlying writer reports the whole prefixed buffer,
`len(prefix)+len(p)` bytes; an empty `p` returns `(0, nil)` without a call of
the underlying writer, and any other `p` is handed to the underlying writer
once, after the prefix, in one buffer, and the error of that call is returned. -/
theorem prefixingWriter_Write_count (pw : prefixingWriter) (p : List Nat)
    (hreported : 0 ≤ (pw.writer (pw.prefixBytes ++ p)).1) :
    0 ≤ (pw.Write p).n ∧ (pw.Write p).n ≤ p.length ∧
      ((pw.writer (pw.prefixBytes ++ p)).1 = pw.prefixBytes.length + p.length →
        (pw.Write p).n = p.length) ∧
      (p = [] → (pw.Write p).n = 0 ∧ (pw.Write p).err = none ∧ (pw.Write p).writes = []) ∧
      (p ≠ [] → (pw.Write p).writes = [pw.prefixBytes ++ p] ∧
        (pw.Write p).err = (pw.writer (pw.prefixBytes ++ p)).2) := by
  unfold prefixingWriter.Write
  generalize pw.writer (pw.prefixBytes ++ p) = r at hreported ⊢
  obtain ⟨n, err⟩ := r
  dsimp only at hreported ⊢
  by_cases hp : p.length = 0
  · rw [if_pos hp]
    have hnil : p = [] := List.length_eq_zero.mp hp
    refine ⟨le_refl _, ?_, ?_, fun _ => ⟨rfl, rfl, rfl⟩, fun hne => absurd hnil hne⟩
    · dsimp only
      omega
    · intro _
      dsimp only
      omega
  · rw [if_neg hp]
    have hne : p ≠ [] := fun h => hp (by rw [h]; rfl)
    by_cases hover : n > p.length
    · rw [if_pos hover]
      refine ⟨?_, le_refl _, fun _ => rfl, fun h => absurd h hne, fun _ => ⟨rfl, rfl⟩⟩
      dsimp only
      omega
    · rw [if_neg hover]
      refine ⟨hreported, ?_, ?_, fun h => absurd h hne, fun _ => ⟨rfl, rfl⟩⟩
      · dsimp only
        omega
      · intro hall
        dsimp only
        omega

/-- C22, on a writer that accepts every buffer whole: `Write` of two bytes
returns 2 and no error, after one write of the prefix followed by the bytes. -/
theorem prefixingWriter_Write_count_witness :
    (acceptingWriter.Write [104, 105]).n = 2 ∧
      (acceptingWriter.Write [104, 105]).writes = [[91, 112, 93, 32, 104, 105]] ∧
      0 ≤ (acceptingWriter.Write [104, 105]).n ∧
      (acceptingWriter.Write [104, 105]).n ≤ ([104, 105] : List Nat).length :=
  ⟨rfl, rfl,
    (prefixingWriter_Write_count acceptingWriter [104, 105] (by decide)).1,
    (prefixingWriter_Write_count acceptingWriter [104, 105] (by decide)).2.1⟩

end Logs

namespace APIResources

/-! ## The order `Less` -/

theorem compareValues_eq (sortBy : String) (a b : groupResource) :
    compareValues sortBy a b = (sortKey sortBy a, sortKey sortBy b) := by
  unfold sortKey compareValues
  split
  · rfl
  · split
    · rfl
    · rfl

theorem stringsCompare_pos (x y : String) : stringsCompare x y > 0 ↔ y < x := by
  unfold stringsCompare
  rcases lt_trichotomy x y with h | h | h
  · have hne : x ≠ y := ne_of_lt h
    simp [hne, h, not_lt_of_lt h]
  · simp [h]
  · have hne : x ≠ y := ne_of_gt h
    simp [hne, h, not_lt_of_lt h]

theorem stringsCompare_zero (x y : String) : stringsCompare x y = 0 ↔ x = y := by
  unfold stringsCompare
  by_cases h : x = y
  · simp [h]
  · by_cases hlt : x < y <;> simp [h, hlt]

theorem stringsCompare_neg (x y : String) : stringsCompare x y < 0 ↔ x < y := by
  unfold stringsCompare
  rcases lt_trichotomy x y with h | h | h
  · have hne : x ≠ y := ne_of_lt h
    simp [hne, h]
  · simp [h]
  · have hne : x ≠ y := ne_of_gt h
    simp [hne, not_lt_of_lt h]

/-- The order `Less` is the lexicographic order on the sort key and then the
name of the resource. -/
theorem Less_iff (sortBy : String) (a b : groupResource) :
    Less sortBy a b = true ↔
      (sortKey sortBy a < sortKey sortBy b ∨
        (sortKey sortBy a = sortKey sortBy b ∧ a.APIResource.Name < b.APIResource.Name)) := by
  unfold Less
  rw [compareValues_eq]
  dsimp only
  by_cases hpos : stringsCompare (sortKey sortBy a) (sortKey sortBy b) > 0
  · rw [if_pos hpos]
    have hgt := (stringsCompare_pos _ _).mp hpos
    constructor
    · intro h
      cases h
    · rintro (h | ⟨h, _⟩)
      · exact absurd h (not_lt_of_lt hgt)
      · rw [h] at hgt
        exact absurd hgt (lt_irrefl _)
  · rw [if_neg hpos]
    by_cases hzero : stringsCompare (sortKey sortBy a) (sortKey sortBy b) = 0
    · rw [if_pos hzero]
      have heq := (stringsCompare_zero _ _).mp hzero
      rw [decide_eq_true_iff, stringsCompare_neg]
      constructor
      · intro h
        exact Or.inr ⟨heq, h⟩
      · rintro (h | ⟨_, h⟩)
        · rw [heq] at h
          exact absurd h (lt_irrefl _)
        · exact h
    · rw [if_neg hzero]
      have hlt : sortKey sortBy a < sortKey sortBy b := by
        rcases lt_trichotomy (sortKey sortBy a) (sortKey sortBy b) with h | h | h
        · exact h
        · exact absurd ((stringsCompare_zero _ _).mpr h) hzero
        · exact absurd ((stringsCompare_pos _ _).mpr h) hpos
      simp [hlt]

/-- When `Less` does not put `b` before `a`: the key of `a` is not after the key
of `b`, and on equal keys the name of `a` is not after the name of `b`. -/
theorem not_Less_iff (sortBy : String) (a b : groupResource) :
    Less sortBy b a = false ↔
      (sortKey sortBy a ≤ sortKey sortBy b ∧
        (sortKey sortBy a = sortKey sortBy b → a.APIResource.Name ≤ b.APIResource.Name)) := by
  rw [← Bool.not_eq_true, Less_iff]
  constructor
  · intro h
    refine ⟨le_of_not_lt (fun hlt => h (Or.inl hlt)), ?_⟩
    intro heq
    exact le_of_not_lt (fun hlt => h (Or.inr ⟨heq.symm, hlt⟩))
  · rintro ⟨hle, hname⟩ (h | ⟨heq, hlt⟩)
    · exact absurd h (not_lt_of_le hle)
    · exact absurd hlt (not_lt_of_le (hname heq.symm))

/-- C28. For every value of `sortBy`, `sortableResource.Less` is a strict weak
ordering: it is irreflexive, asymmetric and transitive, and being unordered
both ways is transitive. It is the lexicographic order on the pair of the sort
key and the resource name, where the sort key is the name for "name", the kind
for "kind", and the API group for every other value; two entries are unordered
both ways exactly when they have equal key and equal name. -/
theorem Less_strict_weak_ordering (sortBy : String) :
    (∀ a, Less sortBy a a = false) ∧
      (∀ a b, Less sortBy a b = true → Less sortBy b a = false) ∧
      (∀ a b c, Less sortBy a b = true → Less sortBy b c = true → Less sortBy a c = true) ∧
      (∀ a b c, Less sortBy a b = false → Less sortBy b a = false → Less sortBy b c = false →
        Less sortBy c b = false → Less sortBy a c = false ∧ Less sortBy c a = false) ∧
      (∀ a b, Less sortBy a b = true ↔
        (sortKey sortBy a < sortKey sortBy b ∨
          (sortKey sortBy a = sortKey sortBy b ∧
            a.APIResource.Name < b.APIResource.Name))) ∧
      (∀ a b, (Less sortBy a b = false ∧ Less sortBy b a = false) ↔
        (sortKey sortBy a = sortKey sortBy b ∧ a.APIResource.Name = b.APIResource.Name)) ∧
      (∀ a, sortKey sortBy a =
        if sortBy = "name" then a.APIResource.Name
        else if sortBy = "kind" then a.APIResource.Kind
        else a.APIGroup) := by
  have hboth : ∀ a b, (Less sortBy a b = false ∧ Less sortBy b a = false) ↔
      (sortKey sortBy a = sortKey sortBy b ∧ a.APIResource.Name = b.APIResource.Name) := by
    intro a b
    rw [not_Less_iff, not_Less_iff]
    constructor
    · rintro ⟨⟨h1, h2⟩, h3, h4⟩
      have hkey : sortKey sortBy a = sortKey sortBy b := le_antisymm h3 h1
      exact ⟨hkey, le_antisymm (h4 hkey) (h2 hkey.symm)⟩
    · rintro ⟨hkey, hname⟩
      exact ⟨⟨le_of_eq hkey.symm, fun _ => le_of_eq hname.symm⟩,
        le_of_eq hkey, fun _ => le_of_eq hname⟩
  refine ⟨?_, ?_, ?_, ?_, Less_iff sortBy, hboth, ?_⟩
  · intro a
    rw [not_Less_iff]
    exact ⟨le_refl _, fun _ => le_refl _⟩
  · intro a b hab
    rw [not_Less_iff]
    rcases (Less_iff sortBy a b).mp hab with h | ⟨hkey, hname⟩
    · exact ⟨le_of_lt h, fun heq => absurd h (by rw [heq]; exact lt_irrefl _)⟩
    · exact ⟨le_of_eq hkey, fun _ => le_of_lt hname⟩
  · intro a b c hab hbc
    rw [Less_iff] at hab hbc ⊢
    rcases hab with h1 | ⟨hkey1, hname1⟩
    · rcases hbc with h2 | ⟨hkey2, _⟩
      · exact Or.inl (lt_trans h1 h2)
      · exact Or.inl (by rw [← hkey2]; exact h1)
    · rcases hbc with h2 | ⟨hkey2, hname2⟩
      · exact Or.inl (by rw [hkey1]; exact h2)
      · exact Or.inr ⟨hkey1.trans hkey2, lt_trans hname1 hname2⟩
  · intro a b c hab hba hbc hcb
    obtain ⟨hkey1, hname1⟩ := (hboth a b).mp ⟨hab, hba⟩
    obtain ⟨hkey2, hname2⟩ := (hboth b c).mp ⟨hbc, hcb⟩
    exact (hboth a c).mpr ⟨hkey1.trans hkey2, hname1.trans hname2⟩
  · intro a
    unfold sortKey compareValues
    split
    · rfl
    · split
      · rfl
      · rfl

/-- C28, on the entries of deployments and of pods: under `--sort-by=kind`
"Deployment" comes before "Pod", so deployments are less than pods and pods are
not less than deployments. -/
theorem Less_strict_weak_ordering_witness :
    Less "kind" (entry "apps" "deployments" "Deployment" ["get"])
        (entry "" "pods" "Pod" ["get", "list"]) = true ∧
      Less "kind" (entry "" "pods" "Pod" ["get", "list"])
        (entry "apps" "deployments" "Deployment" ["get"]) = false :=
  have hless : Less "kind" (entry "apps" "deployments" "Deployment" ["get"])
      (entry "" "pods" "Pod" ["get", "list"]) = true :=
    ((Less_strict_weak_ordering "kind").2.2.2.2.1 _ _).mpr
      (Or.inl (by
        show "Deployment" < "Pod"
        rw [String.lt_iff_toList_lt]
        decide))
  ⟨hless, (Less_strict_weak_ordering "kind").2.1 _ _ hless⟩

/-! ## What `sort.Stable` returns -/

theorem Stable_perm (sortBy : String) (l : List groupResource) : (Stable sortBy l).Perm l :=
  List.perm_insertionSort _ l

/-- The result of `Stable` has no entry after one that `Less` puts after it. -/
theorem Stable_sorted (sortBy : String) (l : List groupResource) :
    (Stable sortBy l).Pairwise (fun a b => Less sortBy b a = false) := by
  haveI : IsTotal groupResource (fun a b => Less sortBy b a = false) := ⟨by
    intro a b
    cases h : Less sortBy b a with
    | false => exact Or.inl rfl
    | true =>
      right
      rw [not_Less_iff]
      rcases (Less_iff sortBy b a).mp h with hlt | ⟨hkey, hname⟩
      · exact ⟨le_of_lt hlt, fun heq => absurd hlt (by rw [heq]; exact lt_irrefl _)⟩
      · exact ⟨le_of_eq hkey, fun _ => le_of_lt hname⟩⟩
  haveI : IsTrans groupResource (fun a b => Less sortBy b a = false) := ⟨by
    intro a b c hab hbc
    rw [not_Less_iff] at hab hbc ⊢
    obtain ⟨h1, h2⟩ := hab
    obtain ⟨h3, h4⟩ := hbc
    refine ⟨le_trans h1 h3, ?_⟩
    intro hac
    have hab : sortKey sortBy a = sortKey sortBy b :=
      le_antisymm h1 (by rw [hac]; exact h3)
    have hbc : sortKey sortBy b = sortKey sortBy c := hab.symm.trans hac
    exact le_trans (h2 hab) (h4 hbc)⟩
  exact List.sorted_insertionSort (fun a b => Less sortBy b a = false) l

/-- Two entries that `Less` does not put in the other order keep their order. -/
theorem Stable_keeps_order (sortBy : String) (l : List groupResource) (a b : groupResource)
    (hnot : Less sortBy b a = false) (hsub : [a, b].Sublist l) :
    [a, b].Sublist (Stable sortBy l) :=
  List.pair_sublist_insertionSort hnot hsub

/-! ## The rows of `RunAPIResources` -/

theorem row_isSome (o : APIResourceOptions) (hvalid : Validate o = none) (r : groupResource) :
    ∃ format a, row o r = some (format, a) := by
  unfold Validate at hvalid
  unfold row
  by_cases hname : o.Output = "name"
  · rw [if_pos hname]
    exact ⟨_, _, rfl⟩
  · rw [if_neg hname]
    by_cases hwide : o.Output = "wide"
    · rw [if_pos hwide]
      exact ⟨_, _, rfl⟩
    · rw [if_neg hwide]
      by_cases hplain : o.Output = ""
      · rw [if_pos hplain]
        exact ⟨_, _, rfl⟩
      · exfalso
        have hout : (!(List.contains ["", "wide", "name"] o.Output)) = true := by
          simp [List.contains, hname, hwide, hplain]
        rw [if_pos hout] at hvalid
        cases hvalid

theorem printedResources_append (a b : List Event) :
    printedResources (a ++ b) = printedResources a ++ printedResources b := by
  unfold printedResources
  exact List.filterMap_append _ _ _

theorem printedResources_printRows (env : Env) (o : APIResourceOptions)
    (hvalid : Validate o = none) (l : List groupResource) :
    printedResources (printRows env o l).2 = l := by
  induction l with
  | nil => rfl
  | cons r rest ih =>
    obtain ⟨format, a, hrow⟩ := row_isSome o hvalid r
    unfold printRows
    rw [hrow]
    dsimp only
    cases env.Fprintf format a with
    | none =>
      dsimp only
      unfold printedResources at ih ⊢
      rw [List.filterMap_cons]
      dsimp only
      rw [ih]
    | some err =>
      dsimp only
      unfold printedResources at ih ⊢
      rw [List.filterMap_cons]
      dsimp only
      rw [ih]

/-- Once the discovery client is built, the options pass `Validate` and the
headers are written, the rows of `RunAPIResources` are those of the filtered
resources as `sort.Stable` leaves them. -/
theorem printedResources_RunAPIResources (env : Env) (o : APIResourceOptions) (cmd : Command)
    (hclient : env.ToDiscoveryClient = none) (hvalid : Validate o = none)
    (hheader : o.NoHeaders = false → o.Output ≠ "name" →
      env.Fprintf (printContextHeaders o.Output).1 (printContextHeaders o.Output).2 = none) :
    printedResources (RunAPIResources env o cmd).trace =
      Stable o.SortBy (filtered env o cmd env.ServerPreferredResources.1) := by
  unfold RunAPIResources
  rw [hclient]
  dsimp only
  by_cases hcond : o.NoHeaders = false ∧ o.Output ≠ "name"
  · rw [if_pos hcond, hheader hcond.1 hcond.2]
    dsimp only
    rw [printedResources_append, printedResources_append, printedResources_printRows env o hvalid]
    cases o.Cached <;> rfl
  · rw [if_neg hcond]
    dsimp only
    rw [printedResources_append, printedResources_append, printedResources_printRows env o hvalid]
    cases o.Cached <;> rfl

/-- C23 (amended). Once the discovery client is built, the options pass
`Validate` and the headers are written, the resources that `RunAPIResources`
prints a row for are a permutation of the filtered resources, in non-decreasing
order of the sort key: the name for `--sort-by=name`, the kind for `--sort-by=kind`, the API
group without `--sort-by`. Entries with equal key are in non-decreasing order of
resource name, and in increasing order when no two filtered resources share
both key and name; entries that `Less` does not put in the other order, among
them those that share both, keep the order they are filtered in. -/
theorem RunAPIResources_lists_sorted (env : Env) (o : APIResourceOptions) (cmd : Command)
    (hclient : env.ToDiscoveryClient = none) (hvalid : Validate o = none)
    (hheader : o.NoHeaders = false → o.Output ≠ "name" →
      env.Fprintf (printContextHeaders o.Output).1 (printContextHeaders o.Output).2 = none) :
    (printedResources (RunAPIResources env o cmd).trace).Perm
        (filtered env o cmd env.ServerPreferredResources.1) ∧
      (printedResources (RunAPIResources env o cmd).trace).Pairwise
        (fun a b => sortKey o.SortBy a ≤ sortKey o.SortBy b) ∧
      (printedResources (RunAPIResources env o cmd).trace).Pairwise
        (fun a b => sortKey o.SortBy a = sortKey o.SortBy b →
          a.APIResource.Name ≤ b.APIResource.Name) ∧
      (((filtered env o cmd env.ServerPreferredResources.1).map
          (fun r => (sortKey o.SortBy r, r.APIResource.Name))).Nodup →
        (printedResources (RunAPIResources env o cmd).trace).Pairwise
          (fun a b => sortKey o.SortBy a = sortKey o.SortBy b →
            a.APIResource.Name < b.APIResource.Name)) ∧
      (∀ a b, [a, b].Sublist (filtered env o cmd env.ServerPreferredResources.1) →
        Less o.SortBy b a = false →
        [a, b].Sublist (printedResources (RunAPIResources env o cmd).trace)) ∧
      (o.SortBy = "" ∨ o.SortBy = "name" ∨ o.SortBy = "kind") ∧
      (∀ r, sortKey o.SortBy r =
        if o.SortBy = "name" then r.APIResource.Name
        else if o.SortBy = "kind" then r.APIResource.Kind
        else r.APIGroup) := by
  rw [printedResources_RunAPIResources env o cmd hclient hvalid hheader]
  have hsorted := Stable_sorted o.SortBy (filtered env o cmd env.ServerPreferredResources.1)
  have hperm := Stable_perm o.SortBy (filtered env o cmd env.ServerPreferredResources.1)
  have hle : (Stable o.SortBy (filtered env o cmd env.ServerPreferredResources.1)).Pairwise
      (fun a b => sortKey o.SortBy a = sortKey o.SortBy b →
        a.APIResource.Name ≤ b.APIResource.Name) :=
    hsorted.imp (fun h => ((not_Less_iff o.SortBy _ _).mp h).2)
  refine ⟨hperm, hsorted.imp (fun h => ((not_Less_iff o.SortBy _ _).mp h).1), hle, ?_, ?_, ?_, ?_⟩
  · intro hnodup
    have hnodup2 : ((Stable o.SortBy (filtered env o cmd env.ServerPreferredResources.1)).map
        (fun r => (sortKey o.SortBy r, r.APIResource.Name))).Nodup :=
      (List.Perm.nodup_iff (hperm.map _)).mpr hnodup
    have hne := List.pairwise_map.mp hnodup2
    refine (hle.and hne).imp ?_
    rintro a b ⟨hab, hdiff⟩ hkey
    refine lt_of_le_of_ne (hab hkey) ?_
    intro hname
    exact hdiff (by rw [hkey, hname])
  · intro a b hsub hnot
    exact Stable_keeps_order o.SortBy _ a b hnot hsub
  · unfold Validate at hvalid
    split at hvalid
    · cases hvalid
    · split at hvalid
      · cases hvalid
      · rename_i hsort
        by_cases hempty : o.SortBy = ""
        · exact Or.inl hempty
        · right
          have hlen : o.SortBy.length > 0 := by
            rcases Nat.eq_zero_or_pos o.SortBy.length with h | h
            · exact absurd (String.ext (List.length_eq_zero.mp h)) hempty
            · exact h
          by_contra hother
          apply hsort
          refine ⟨hlen, ?_⟩
          simp only [not_or] at hother
          simp [List.contains, hempty, hother.1, hother.2]
  · intro r
    unfold sortKey compareValues
    split
    · rfl
    · split
      · rfl
      · rfl

/-- C23 (amended), on a server of four resources listed with `--sort-by=kind`:
the rows are a permutation of the four resources, in non-decreasing order of
kind. -/
theorem RunAPIResources_lists_sorted_witness :
    (printedResources
        (RunAPIResources serverEnv { SortBy := "kind" } plainCommand).trace).Perm
        [entry "" "pods" "Pod" ["get", "list"], entry "" "events" "Event" ["get", "list"],
         entry "events.k8s.io" "events" "Event" ["get"],
         entry "apps" "deployments" "Deployment" ["get"]] ∧
      (printedResources
        (RunAPIResources serverEnv { SortBy := "kind" } plainCommand).trace).Pairwise
        (fun a b => sortKey "kind" a ≤ sortKey "kind" b) :=
  ⟨(RunAPIResources_lists_sorted serverEnv { SortBy := "kind" } plainCommand rfl rfl
      (fun _ _ => rfl)).1,
    (RunAPIResources_lists_sorted serverEnv { SortBy := "kind" } plainCommand rfl rfl
      (fun _ _ => rfl)).2.1⟩

/-- The rows of `api-resources --sort-by=kind` on the server `serverEnv`: the
two resources "events", of kind "Event", of the core group and of
"events.k8s.io" come in the order of the server, between "deployments" and
"pods". -/
theorem printedResources_serverEnv_kind :
    printedResources (RunAPIResources serverEnv { SortBy := "kind" } plainCommand).trace =
      [entry "apps" "deployments" "Deployment" ["get"],
       entry "" "events" "Event" ["get", "list"],
       entry "events.k8s.io" "events" "Event" ["get"],
       entry "" "pods" "Pod" ["get", "list"]] := by
  rw [printedResources_RunAPIResources serverEnv { SortBy := "kind" } plainCommand rfl rfl
    (fun _ _ => rfl)]
  have hfiltered : filtered serverEnv { SortBy := "kind" } plainCommand
      serverEnv.ServerPreferredResources.1 =
      [entry "" "pods" "Pod" ["get", "list"], entry "" "events" "Event" ["get", "list"],
       entry "events.k8s.io" "events" "Event" ["get"],
       entry "apps" "deployments" "Deployment" ["get"]] := rfl
  rw [hfiltered]
  have h1 : Less "kind" (entry "apps" "deployments" "Deployment" ["get"])
      (entry "events.k8s.io" "events" "Event" ["get"]) = true := by
    rw [Less_iff]
    left
    show "Deployment" < "Event"
    rw [String.lt_iff_toList_lt]
    decide
  have h2 : Less "kind" (entry "events.k8s.io" "events" "Event" ["get"])
      (entry "" "events" "Event" ["get", "list"]) = false := by
    rw [not_Less_iff]
    exact ⟨le_refl _, fun _ => le_refl _⟩
  have h3 : Less "kind" (entry "apps" "deployments" "Deployment" ["get"])
      (entry "" "events" "Event" ["get", "list"]) = true := by
    rw [Less_iff]
    left
    show "Deployment" < "Event"
    rw [String.lt_iff_toList_lt]
    decide
  have h5 : Less "kind" (entry "apps" "deployments" "Deployment" ["get"])
      (entry "" "pods" "Pod" ["get", "list"]) = true := by
    rw [Less_iff]
    left
    show "Deployment" < "Pod"
    rw [String.lt_iff_toList_lt]
    decide
  have h6 : Less "kind" (entry "" "events" "Event" ["get", "list"])
      (entry "" "pods" "Pod" ["get", "list"]) = true := by
    rw [Less_iff]
    left
    show "Event" < "Pod"
    rw [String.lt_iff_toList_lt]
    decide
  have h7 : Less "kind" (entry "events.k8s.io" "events" "Event" ["get"])
      (entry "" "pods" "Pod" ["get", "list"]) = true := by
    rw [Less_iff]
    left
    show "Event" < "Pod"
    rw [String.lt_iff_toList_lt]
    decide
  simp [Stable, List.insertionSort, List.orderedInsert, h1, h2, h3, h5, h6, h7]

/-- C23 (as stated), refuted: `api-resources --sort-by=kind` on a server that
has the resource "events" in the core group and in "events.k8s.io". The
discovery client is built, the options pass `Validate` and every write
succeeds; the two entries tie on the kind "Event" and have the same name, and
they are printed one after the other: the ties are not in increasing order of
resource name. -/
theorem RunAPIResources_equal_names_counterexample :
    serverEnv.ToDiscoveryClient = none ∧
      Validate { SortBy := "kind" } = none ∧
      printedResources (RunAPIResources serverEnv { SortBy := "kind" } plainCommand).trace =
        [entry "apps" "deployments" "Deployment" ["get"],
         entry "" "events" "Event" ["get", "list"],
         entry "events.k8s.io" "events" "Event" ["get"],
         entry "" "pods" "Pod" ["get", "list"]] ∧
      ¬ (printedResources
          (RunAPIResources serverEnv { SortBy := "kind" } plainCommand).trace).Pairwise
        (fun a b => sortKey "kind" a = sortKey "kind" b →
          a.APIResource.Name < b.APIResource.Name) := by
  refine ⟨rfl, rfl, printedResources_serverEnv_kind, ?_⟩
  rw [printedResources_serverEnv_kind]
  intro hp
  rw [List.pairwise_cons, List.pairwise_cons] at hp
  have htie := hp.2.1 (entry "events.k8s.io" "events" "Event" ["get"])
    (List.mem_cons_self _ _) rfl
  exact absurd htie (lt_irrefl _)

end APIResources
